import Mathlib

/-!
# Population model `gif_pop_psc_exp` (NEST): embedding and verification

The C++ model `models/gif_pop_psc_exp.cpp` is embedded shallowly.

* `double` values are elements of a linearly ordered field `α` with a floor
  function; the exponential `std::exp` is an explicit argument `exp : α → α`.
  Theorems that need analytic facts about the exponential are stated for
  `α = ℝ` and `exp = Real.exp`; every definition is computable and can be run
  for `α = ℚ` with any rational stand-in for `exp`.
* Where the behaviour of doubles differs from the field in a way that changes a
  result, it is made explicit: `exp_underflow` (the exponential returns 0 for
  strongly negative arguments), `draw_poisson_rounded` with `round_double`
  (rounding in the cancelling test of `draw_poisson`), and the type `Dbl` with
  `escrate_ieee` .. `n_spikes_ieee` (overflow of the exponential, `+inf` and NaN
  on the path from the escape rate to the draw).
* `long` / `int` values are unbounded integers (`Int`); the source never relies
  on wrap-around.
* `std::vector<double>` is `List α`; `operator[]` reads with `List.getD _ _ 0`
  and writes with `List.set` (both total; index validity is a separate
  property of the reachable states).
* The random source is an explicit argument: one `Draw` record per step holds
  what the deviate generators would return in that step.
* The host engine (`Time`, ring buffers, event delivery) is not part of the
  source file; the step size, the ms-to-steps conversion and the per-step
  buffer contents are arguments.
* The update loop of the rate model `models/rate_neuron_ipn_impl.h` is embedded
  the same way (definitions `rate_neuron_ipn.*`): the template argument
  `TNonlinearities` is a record of three functions and the buffer contents of
  each lag are an argument.
-/

namespace GifPopPscExp

section Embedding

variable {α : Type} [LinearOrderedField α] [FloorRing α]

/-- Conversion of a `double` to `int` as done by C++ (truncation toward zero). -/
def truncToInt (x : α) : Int :=
  if 0 ≤ x then Int.floor x else Int.ceil x

/-- The exception type thrown by the model (`BadProperty` carries a message). -/
inductive Exception where
  | BadProperty (msg : String) : Exception
deriving DecidableEq, Repr

/-- Fields of `gif_pop_psc_exp::Parameters_`. -/
structure Parameters (α : Type) where
  N : Int
  tau_m : α
  c_m : α
  t_ref : α
  lambda_0 : α
  Delta_V : α
  len_kernel : Int
  I_e : α
  V_reset : α
  V_T_star : α
  E_L : α
  tau_syn_ex : α
  tau_syn_in : α
  BinoRand : Bool
  tau_sfa : List α
  q_sfa : List α

/-- Fields of `gif_pop_psc_exp::State_`. -/
structure State (α : Type) where
  y0 : α
  I_syn_ex : α
  I_syn_in : α
  V_m : α
  n_expect : α
  n_spikes : Int
  theta_hat : α
  initialized : Bool

/-- Fields of `gif_pop_psc_exp::Variables_` that the source file touches
(the random-source handle is replaced by the explicit `Draw` argument). -/
structure Variables (α : Type) where
  h : α
  min_double : α
  R : α
  P22 : α
  P20 : α
  P11_ex : α
  P11_in : α
  k_ref : Int
  n : List α
  m : List α
  v : List α
  u : List α
  lambda : List α
  theta : List α
  theta_tld : List α
  x : α
  z : α
  lambda_free : α
  k0 : Int
  g : List α
  Q30 : List α
  Q30K : List α

/-- One model instance: parameters `P_`, state `S_`, internal variables `V_`. -/
structure Model (α : Type) where
  P : Parameters α
  S : State α
  V : Variables α

/-- The default constructor `Parameters_::Parameters_()`. -/
def Parameters.defaults : Parameters α :=
  { N := 100, tau_m := 20, c_m := 250, t_ref := 4, lambda_0 := 10, Delta_V := 2,
    len_kernel := -1, I_e := 0, V_reset := 0, V_T_star := 15, E_L := 0,
    tau_syn_ex := 3, tau_syn_in := 6, BinoRand := true,
    tau_sfa := [300], q_sfa := [1 / 2] }

/-- The default constructor `State_::State_()`; `theta_hat_` is not in the
initialiser list of the source, so its start value is an argument. -/
def State.defaults (theta_hat : α) : State α :=
  { y0 := 0, I_syn_ex := 0, I_syn_in := 0, V_m := 0, n_expect := 0, n_spikes := 0,
    theta_hat := theta_hat, initialized := false }

/-- Modelled from the spec: the dictionary passed to `Parameters_::set`
(`DictionaryDatum`, not in the source file), as one optional entry per named
parameter field ("named scalar and array-valued fields for ... write"). -/
structure ParamDict (α : Type) where
  N : Option Int
  tau_m : Option α
  c_m : Option α
  lambda_0 : Option α
  Delta_V : Option α
  len_kernel : Option Int
  I_e : Option α
  V_reset : Option α
  V_T_star : Option α
  E_L : Option α
  t_ref : Option α
  tau_syn_ex : Option α
  tau_syn_in : Option α
  BinoRand : Option Bool
  tau_sfa : Option (List α)
  q_sfa : Option (List α)

/-- Modelled from the spec: the dictionary passed to `State_::set`. -/
structure StateDict (α : Type) where
  V_m : Option α
  I_syn_ex : Option α
  I_syn_in : Option α

/-- Modelled from the spec: `updateValue<T>(d, name, var)` (from `dictutils.h`,
not in the source file) overwrites `var` exactly when the dictionary has an
entry of that name. -/
def updateValue {β : Type} (entry : Option β) (var : β) : β :=
  match entry with
  | some x => x
  | none => var

/-- The validation part of `Parameters_::set` (everything after the
`updateValue` calls): `Except.error` for a thrown `BadProperty`. -/
def Parameters.check (p : Parameters α) : Except Exception Unit :=
  if p.tau_sfa.length ≠ p.q_sfa.length then
    Except.error (Exception.BadProperty
      "'tau_sfa' and 'q_sfa' need to have the same dimension.")
  else if p.c_m ≤ 0 then
    Except.error (Exception.BadProperty "Capacitance must be strictly positive.")
  else if p.tau_m ≤ 0 then
    Except.error (Exception.BadProperty
      "The membrane time constants must be strictly positive.")
  else if p.tau_syn_ex ≤ 0 ∨ p.tau_syn_in ≤ 0 then
    Except.error (Exception.BadProperty
      "The synaptic time constants must be strictly positive.")
  else if p.tau_sfa.any (fun t => decide (t ≤ 0)) then
    Except.error (Exception.BadProperty
      "All time constants must be strictly positive.")
  else if p.N ≤ 0 then
    Except.error (Exception.BadProperty "Number of neurons must be positive.")
  else if p.lambda_0 < 0 then
    Except.error (Exception.BadProperty "lambda_0 must be positive.")
  else if p.Delta_V ≤ 0 then
    Except.error (Exception.BadProperty "Delta_V must be strictly positive.")
  else if p.t_ref < 0 then
    Except.error (Exception.BadProperty
      "Absolute refractory period cannot be negative.")
  else Except.ok ()

/-- `Parameters_::set`: the object after the call (the source assigns all
fields in place before it validates) paired with the outcome of the call,
`Except.error` for a thrown `BadProperty`. -/
def Parameters.set (d : ParamDict α) (p : Parameters α) :
    Parameters α × Except Exception Unit :=
  let p : Parameters α :=
    { N := updateValue d.N p.N
      tau_m := updateValue d.tau_m p.tau_m
      c_m := updateValue d.c_m p.c_m
      lambda_0 := updateValue d.lambda_0 p.lambda_0
      Delta_V := updateValue d.Delta_V p.Delta_V
      len_kernel := updateValue d.len_kernel p.len_kernel
      I_e := updateValue d.I_e p.I_e
      V_reset := updateValue d.V_reset p.V_reset
      V_T_star := updateValue d.V_T_star p.V_T_star
      E_L := updateValue d.E_L p.E_L
      t_ref := updateValue d.t_ref p.t_ref
      tau_syn_ex := updateValue d.tau_syn_ex p.tau_syn_ex
      tau_syn_in := updateValue d.tau_syn_in p.tau_syn_in
      BinoRand := updateValue d.BinoRand p.BinoRand
      tau_sfa := updateValue d.tau_sfa p.tau_sfa
      q_sfa := updateValue d.q_sfa p.q_sfa }
  (p, p.check)

/-- `State_::set`. -/
def State.set (d : StateDict α) (s : State α) : State α :=
  { s with
    V_m := updateValue d.V_m s.V_m
    I_syn_ex := updateValue d.I_syn_ex s.I_syn_ex
    I_syn_in := updateValue d.I_syn_in s.I_syn_in
    initialized := false }

/-- `gif_pop_psc_exp::escrate`, in field arithmetic (`exp` is finite
everywhere); `escrate_ieee` follows the same line with the overflow of `exp`
made explicit. -/
def escrate (exp : α → α) (P : Parameters α) (x : α) : α :=
  P.lambda_0 * exp (x / P.Delta_V)

/-- What the random source returns in one step: the Poisson deviate, the
uniform number `drand()` and the binomial deviate (whichever the step asks for). -/
structure Draw (α : Type) where
  poisson_ldev : Int
  drand : α
  binomial_ldev : Int

/-- `gif_pop_psc_exp::draw_poisson`, with the inner test evaluated in field
arithmetic; `draw_poisson_rounded` follows the same lines with the rounding of
the test made explicit, and this definition is its instance without rounding. -/
def draw_poisson (exp : α → α) (P : Parameters α) (V : Variables α) (d : Draw α)
    (n_expect : α) : Int :=
  if n_expect > (P.N : α) then P.N
  else if n_expect > V.min_double then
    let n_t : Int :=
      if 1 - (n_expect + 1) * exp (-n_expect) > V.min_double then d.poisson_ldev
      else (if d.drand < n_expect then 1 else 0)
    let n_t : Int := if n_t > P.N then P.N else n_t
    if n_t < 0 then 0 else n_t
  else 0

/-- `gif_pop_psc_exp::draw_binomial`. -/
def draw_binomial (P : Parameters α) (d : Draw α) (n_expect : α) : Int :=
  let p_bino := n_expect / (P.N : α)
  if p_bino ≥ 1 then P.N
  else if p_bino ≤ 0 then 0
  else d.binomial_ldev

/-- `gif_pop_psc_exp::adaptation_kernel`: the loop over `j < tau_sfa.size()`. -/
def adaptation_kernel (exp : α → α) (P : Parameters α) (h : α) (k : Int) : α :=
  (List.range P.tau_sfa.length).foldl
    (fun (theta_tmp : α) (j : Nat) =>
      theta_tmp + P.q_sfa.getD j 0 * exp (-(k : α) * h / P.tau_sfa.getD j 0))
    0

/-- The `while` loop of `get_history_size`, started at `k`. -/
def history_loop (exp : α → α) (P : Parameters α) (h : α) (kmin : Int) (k : Int) : Int :=
  if adaptation_kernel exp P h k / P.Delta_V < 1 / 10 ∧ k > kmin then
    history_loop exp P h kmin (k - 1)
  else k
termination_by (k - kmin).toNat
decreasing_by
  rename_i hc
  obtain ⟨_, hgt⟩ := hc
  omega

/-- `gif_pop_psc_exp::get_history_size`. -/
def get_history_size (exp : α → α) (P : Parameters α) (h : α) : Int :=
  let tmax : α := 20000
  let k : Int := truncToInt (tmax / h)
  let kmin : Int := truncToInt (5 * P.tau_m / h)
  let k := history_loop exp P h kmin k
  if (k : α) * h ≤ P.t_ref then truncToInt (P.t_ref / h) + 1 else k

/-- `gif_pop_psc_exp::calibrate`.  `h` is `Time::get_resolution().get_ms()` and
`ms_to_steps t` is `Time(Time::ms(t)).get_steps()`; both belong to the host
engine. -/
def calibrate (exp : α → α) (h : α) (ms_to_steps : α → Int) (M : Model α) :
    Except Exception (Model α) :=
  if M.P.tau_sfa.length = 0 then
    Except.error (Exception.BadProperty "Time constant array should not be empty. ")
  else if M.P.q_sfa.length = 0 then
    Except.error (Exception.BadProperty "Adaptation value array should not be empty. ")
  else
    let P22 := exp (-h / M.P.tau_m)
    let V : Variables α :=
      { M.V with
        h := h
        min_double := ((2 : α) ^ 1022)⁻¹
        R := M.P.tau_m / M.P.c_m
        P22 := P22
        P20 := M.P.tau_m / M.P.c_m * (1 - P22)
        P11_ex := exp (-h / M.P.tau_syn_ex)
        P11_in := exp (-h / M.P.tau_syn_in) }
    if M.S.initialized then
      Except.ok { M with V := V }
    else
      let P : Parameters α :=
        if M.P.len_kernel < 1 then
          { M.P with len_kernel := get_history_size exp M.P h }
        else M.P
      let K : Nat := P.len_kernel.toNat
      let theta : List α :=
        (List.range K).map
          (fun (k : Nat) => adaptation_kernel exp P h (P.len_kernel - (k : Int)))
      let V : Variables α :=
        { V with
          k_ref := ms_to_steps P.t_ref
          lambda_free := 0
          n := (List.replicate K (0 : α)).set (P.len_kernel - 1).toNat (P.N : α)
          m := (List.replicate K (0 : α)).set (P.len_kernel - 1).toNat (P.N : α)
          v := List.replicate K 0
          u := List.replicate K 0
          lambda := List.replicate K 0
          theta := theta
          theta_tld :=
            theta.map (fun theta_tmp =>
              P.Delta_V * (1 - exp (-theta_tmp / P.Delta_V)) / (P.N : α))
          x := 0
          z := 0
          k0 := 0
          Q30K :=
            (List.range P.tau_sfa.length).map (fun (k : Nat) =>
              P.q_sfa.getD k 0 * P.tau_sfa.getD k 0
                * exp (-h * (P.len_kernel : α) / P.tau_sfa.getD k 0))
          Q30 :=
            (List.range P.tau_sfa.length).map
              (fun (k : Nat) => exp (-h / P.tau_sfa.getD k 0))
          g := List.replicate P.tau_sfa.length 0 }
      Except.ok { P := P, S := { M.S with initialized := true }, V := V }

/-- What the input ring buffers hold for one step (`get_value(lag)` of
`ex_spikes_`, `in_spikes_` and `currents_`). -/
structure Input (α : Type) where
  ex_spikes : α
  in_spikes : α
  currents : α

/-- The loop "compute free adaptation state" of `update`: the variables
`V_.g_` and `S_.theta_hat_` carried through `j < tau_sfa.size()`. -/
def adapt_loop (P : Parameters α) (V : Variables α) (theta_hat : α) : List α × α :=
  (List.range P.tau_sfa.length).foldl
    (fun (acc : List α × α) (j : Nat) =>
      let gj := acc.1.getD j 0 * V.Q30.getD j 0
        + (1 - V.Q30.getD j 0) * V.n.getD V.k0.toNat 0 / ((P.N : α) * V.h)
      (acc.1.set j gj, acc.2 + V.Q30K.getD j 0 * gj))
    (V.g, theta_hat)

/-- The loop `X_ += V_.m_[ l ]` over `l < len_kernel`. -/
def sum_m (P : Parameters α) (V : Variables α) : α :=
  (List.range P.len_kernel.toNat).foldl (fun (X : α) (l : Nat) => X + V.m.getD l 0) 0

/-- The variables carried through the sweep over the history slots. -/
structure Sweep (α : Type) where
  theta_hat : α
  u : List α
  lambda : List α
  v : List α
  m : List α
  Y : α
  Z : α
  W : α

/-- The per-slot transition probability of the sweep (lines 18-20 of Fig. 12).
The exponential is the argument `exp`: with the exact exponential the value
stays below 1, with one that returns 0 for strongly negative arguments, as
`std::exp` does on doubles (`exp_underflow`), it reaches 1. -/
def P_lambda_of (exp : α → α) (V : Variables α) (lambda_tld lambda_k : α) : α :=
  let P_lambda := 1 / 2 * (lambda_tld + lambda_k) * V.h / 1000
  if P_lambda > 1 / 100 then 1 - exp (-P_lambda) else P_lambda

/-- One iteration (index `l`) of the sweep loop of `update`. -/
def sweep_body (exp : α → α) (P : Parameters α) (V : Variables α) (h_tot : α)
    (s : Sweep α) (l : Nat) : Sweep α :=
  let k : Nat := (Int.tmod (V.k0 + (l : Int)) P.len_kernel).toNat
  let theta := V.theta.getD l 0 + s.theta_hat
  let uk := (s.u.getD k 0 - P.E_L) * V.P22 + h_tot
  let lambda_tld := escrate exp P (uk - theta)
  let P_lambda := P_lambda_of exp V lambda_tld (s.lambda.getD k 0)
  { theta_hat := s.theta_hat + V.n.getD k 0 * V.theta_tld.getD l 0
    u := s.u.set k uk
    lambda := s.lambda.set k lambda_tld
    Y := s.Y + P_lambda * s.v.getD k 0
    Z := s.Z + s.v.getD k 0
    W := s.W + P_lambda * s.m.getD k 0
    v := s.v.set k ((1 - P_lambda) * (1 - P_lambda) * s.v.getD k 0 + P_lambda * s.m.getD k 0)
    m := s.m.set k ((1 - P_lambda) * s.m.getD k 0) }

/-- The sweep loop `for l < len_kernel - k_ref` of `update`. -/
def sweep (exp : α → α) (P : Parameters α) (V : Variables α) (h_tot theta_hat : α) :
    Sweep α :=
  (List.range (P.len_kernel - V.k_ref).toNat).foldl (sweep_body exp P V h_tot)
    { theta_hat := theta_hat, u := V.u, lambda := V.lambda, v := V.v, m := V.m,
      Y := 0, Z := 0, W := 0 }

/-- The total drive `h_tot_` of one step (membrane and synapse update). -/
def h_tot_of (P : Parameters α) (S : State α) (V : Variables α) (inp : Input α) : α :=
  let h_tot := (P.I_e + S.y0) * V.P20 + P.E_L
  let JNA_ex := inp.ex_spikes / V.h * (P.tau_syn_ex / P.c_m)
  let JNA_in := inp.in_spikes / V.h * (P.tau_syn_in / P.c_m)
  let JNy_ex := S.I_syn_ex / P.c_m
  let JNy_in := S.I_syn_in / P.c_m
  let h_ex := P.tau_m
    * (JNA_ex
        + (P.tau_syn_ex * V.P11_ex * (JNy_ex - JNA_ex)
            - V.P22 * (P.tau_syn_ex * JNy_ex - P.tau_m * JNA_ex))
          / (P.tau_syn_ex - P.tau_m))
  let h_in := P.tau_m
    * (JNA_in
        + (P.tau_syn_in * V.P11_in * (JNy_in - JNA_in)
            - V.P22 * (P.tau_syn_in * JNy_in - P.tau_m * JNA_in))
          / (P.tau_syn_in - P.tau_m))
  h_tot + (h_ex + h_in)

/-- The blended transition probability `P_Lambda_` (line 28). -/
def P_Lambda_of (Y Z z P_free : α) : α :=
  if Z + z > 0 then (Y + P_free * z) / (Z + z) else 0

/-- The free membrane potential `S_.V_m_` after line 3 of the step. -/
def V_m_of (M : Model α) (inp : Input α) : α :=
  (M.S.V_m - M.P.E_L) * M.V.P22 + h_tot_of M.P M.S M.V inp

/-- The free escape rate `lambda_tld_` of the step (line 8), evaluated at
`V_m - theta_hat` with the threshold produced by the adaptation loop. -/
def lambda_free_of (exp : α → α) (M : Model α) (inp : Input α) : α :=
  escrate exp M.P (V_m_of M inp - (adapt_loop M.P M.V M.P.V_T_star).2)

/-- The free transition probability `P_free_` of the step (line 9).  As for
`P_lambda_of`, the value 1 is reached when `exp` returns 0. -/
def P_free_of (exp : α → α) (M : Model α) (inp : Input α) : α :=
  1 - exp (-(1 / 2) * (M.V.lambda_free + lambda_free_of exp M inp) * M.V.h / 1000)

/-- The recorded threshold `S_.theta_hat_` of the step (after line 11). -/
def theta_hat_of (M : Model α) : α :=
  (adapt_loop M.P M.V M.P.V_T_star).2 - M.V.n.getD 0 0 * M.V.theta_tld.getD 0 0

/-- The sweep of the step, started from the recorded threshold. -/
def sweep_of (exp : α → α) (M : Model α) (inp : Input α) : Sweep α :=
  sweep exp M.P M.V (h_tot_of M.P M.S M.V inp) (theta_hat_of M)

/-- The expected number of spikes `S_.n_expect_` of the step (line 29). -/
def n_expect_of (exp : α → α) (M : Model α) (inp : Input α) : α :=
  (sweep_of exp M inp).W + P_free_of exp M inp * M.V.x
    + P_Lambda_of (sweep_of exp M inp).Y (sweep_of exp M inp).Z M.V.z (P_free_of exp M inp)
      * ((M.P.N : α) - sum_m M.P M.V - M.V.x)

/-- The drawn number of spikes `S_.n_spikes_` of the step. -/
def n_spikes_of (exp : α → α) (M : Model α) (inp : Input α) (d : Draw α) : Int :=
  if M.P.BinoRand then draw_binomial M.P d (n_expect_of exp M inp)
  else draw_poisson exp M.P M.V d (n_expect_of exp M inp)

/-- The body of the `for lag` loop of `gif_pop_psc_exp::update` up to and
including the shift of the rotating index: the instance after the step. -/
def update_step (exp : α → α) (M : Model α) (inp : Input α) (d : Draw α) : Model α :=
  let P := M.P
  let S := M.S
  let V := M.V
  let JNA_ex := inp.ex_spikes / V.h * (P.tau_syn_ex / P.c_m)
  let JNA_in := inp.in_spikes / V.h * (P.tau_syn_in / P.c_m)
  let JNy_ex := JNA_ex + (S.I_syn_ex / P.c_m - JNA_ex) * V.P11_ex
  let JNy_in := JNA_in + (S.I_syn_in / P.c_m - JNA_in) * V.P11_in
  let P_free := P_free_of exp M inp
  let s := sweep_of exp M inp
  let n_spikes : Int := n_spikes_of exp M inp d
  let k0 := V.k0.toNat
  { P := P
    S :=
      { S with
        I_syn_ex := JNy_ex * P.c_m
        I_syn_in := JNy_in * P.c_m
        y0 := inp.currents
        theta_hat := theta_hat_of M
        V_m := V_m_of M inp
        n_expect := n_expect_of exp M inp
        n_spikes := n_spikes }
    V :=
      { V with
        g := (adapt_loop P V P.V_T_star).1
        lambda_free := lambda_free_of exp M inp
        z := (1 - P_free) * (1 - P_free) * V.z + V.x * P_free + s.v.getD k0 0
        x := V.x * (1 - P_free) + s.m.getD k0 0
        n := V.n.set k0 (n_spikes : α)
        m := s.m.set k0 (n_spikes : α)
        v := s.v.set k0 0
        u := s.u.set k0 P.V_reset
        lambda := s.lambda.set k0 0
        k0 := Int.tmod (V.k0 + 1) P.len_kernel } }

/-- The spike event sent at the end of a step, if any: its multiplicity. -/
def spike_event (M : Model α) : Option Int :=
  if M.S.n_spikes > 0 then some M.S.n_spikes else none

/-- `gif_pop_psc_exp::update(origin, from, to)`: the steps `lag = from, ..., to - 1`
in increasing order; returns the instance after the call and the events sent,
each as `(lag, multiplicity)`, in the order of sending. -/
def update (exp : α → α) (inputs : Int → Input α) (draws : Int → Draw α)
    (from_lag to_lag : Int) (M : Model α) : Model α × List (Int × Int) :=
  (List.range (to_lag - from_lag).toNat).foldl
    (fun (acc : Model α × List (Int × Int)) (i : Nat) =>
      let lag : Int := from_lag + (i : Int)
      let M1 := update_step exp acc.1 (inputs lag) (draws lag)
      match spike_event M1 with
      | some mult => (M1, acc.2 ++ [(lag, mult)])
      | none => (M1, acc.2))
    (M, [])

/-- Repeated steps: the instance after the steps with the listed inputs and draws. -/
def run (exp : α → α) (M : Model α) : List (Input α × Draw α) → Model α
  | [] => M
  | (inp, d) :: rest => run exp (update_step exp M inp d) rest

/-- A parameter set that `Parameters_::set` accepts (an empty dictionary
re-validates the object as it is). -/
def Validated (P : Parameters α) : Prop :=
  (Parameters.set
    { N := none, tau_m := none, c_m := none, lambda_0 := none, Delta_V := none,
      len_kernel := none, I_e := none, V_reset := none, V_T_star := none, E_L := none,
      t_ref := none, tau_syn_ex := none, tau_syn_in := none, BinoRand := none,
      tau_sfa := none, q_sfa := none } P).2 = Except.ok ()

/-- A draw the generators can produce for parameters `P`: the binomial deviate
of `N` trials lies in `[0, N]`; the Poisson deviate and the uniform number are
not restricted. -/
def DrawOK (P : Parameters α) (d : Draw α) : Prop :=
  0 ≤ d.binomial_ldev ∧ d.binomial_ldev ≤ P.N

/-- States reachable from a first calibration (validated parameters, positive
step size, `initialized = false` before) by update steps with arbitrary inputs
and arbitrary admissible draws. -/
inductive Reachable (exp : α → α) (h : α) (ms_to_steps : α → Int) : Model α → Prop where
  | calibrated (M0 M : Model α) :
      Validated M0.P → 0 < h → M0.S.initialized = false →
      calibrate exp h ms_to_steps M0 = Except.ok M → Reachable exp h ms_to_steps M
  | step (M : Model α) (inp : Input α) (d : Draw α) :
      Reachable exp h ms_to_steps M → DrawOK M.P d →
      Reachable exp h ms_to_steps (update_step exp M inp d)

/-- Spec-side reading of the adaptation kernel: the sum over the adaptation
exponentials of `q_sfa[j] * exp(-k*h / tau_sfa[j])`. -/
def adaptation_kernel_spec (exp : α → α) (q_sfa tau_sfa : List α) (h : α) (k : Int) : α :=
  (List.zipWith (fun q tau => q * exp (-((k : α) * h) / tau)) q_sfa tau_sfa).sum

/-- The instance after `calibrate()` (both `throw`s of the source precede every
assignment, so a throwing call leaves the instance as it was). -/
def calibrated (exp : α → α) (h : α) (ms_to_steps : α → Int) (M : Model α) : Model α :=
  match calibrate exp h ms_to_steps M with
  | Except.ok M1 => M1
  | Except.error _ => M

/-- Sign conditions on the occupancy bookkeeping: survivor masses, variance
proxies and stored escape rates are non-negative. -/
def NonNeg (V : Variables α) : Prop :=
  (∀ a ∈ V.m, 0 ≤ a) ∧ (∀ a ∈ V.v, 0 ≤ a) ∧ (∀ a ∈ V.lambda, 0 ≤ a)
    ∧ 0 ≤ V.x ∧ 0 ≤ V.z ∧ 0 ≤ V.lambda_free

/-- The state facts that make a population with `lambda_0 = 0` silent: no
stored escape rate is non-zero, and the constants used by the draw are as
calibrated. -/
def Silent (M : Model α) : Prop :=
  M.P.lambda_0 = 0 ∧ 0 < M.P.N ∧ 0 < M.V.min_double ∧ M.V.lambda_free = 0
    ∧ ∀ a ∈ M.V.lambda, a = 0

/-- The resting conditions of the relaxation property: no leak offset, no
constant or stored input current, no synaptic current. -/
def Quiet (M : Model α) : Prop :=
  M.P.E_L = 0 ∧ M.P.I_e = 0 ∧ M.S.y0 = 0 ∧ M.S.I_syn_ex = 0 ∧ M.S.I_syn_in = 0

/-! ### Concrete instances used in examples -/

/-- Internal variables before the first calibration (nothing allocated). -/
def Variables.blank : Variables α :=
  { h := 0, min_double := 0, R := 0, P22 := 0, P20 := 0, P11_ex := 0, P11_in := 0,
    k_ref := 0, n := [], m := [], v := [], u := [], lambda := [], theta := [],
    theta_tld := [], x := 0, z := 0, lambda_free := 0, k0 := 0, g := [], Q30 := [],
    Q30K := [] }

/-- A freshly constructed node: default parameters and state, nothing calibrated. -/
def Model.fresh : Model α :=
  { P := Parameters.defaults, S := State.defaults 0, V := Variables.blank }

/-- An example of the host's ms-to-steps conversion for step size `h`, exact on
multiples of `h`. -/
def steps_of (h : α) (t : α) : Int :=
  truncToInt (t / h)

/-- A freshly constructed node with the given parameters. -/
def Model.withParams (P : Parameters α) : Model α :=
  { Model.fresh with P := P }

/-- A dictionary without entries. -/
def ParamDict.empty : ParamDict α :=
  { N := none, tau_m := none, c_m := none, lambda_0 := none, Delta_V := none,
    len_kernel := none, I_e := none, V_reset := none, V_T_star := none, E_L := none,
    t_ref := none, tau_syn_ex := none, tau_syn_in := none, BinoRand := none,
    tau_sfa := none, q_sfa := none }

/-- A step without input. -/
def Input.none : Input α :=
  { ex_spikes := 0, in_spikes := 0, currents := 0 }

/-- A draw in which every generator returns `k`. -/
def Draw.const (k : Int) : Draw α :=
  { poisson_ldev := k, drand := 0, binomial_ldev := k }

/-- The ten rejection conditions of the validation, as a predicate on the
parameter values. -/
def Rejected (q : Parameters α) : Prop :=
  q.tau_sfa.length ≠ q.q_sfa.length ∨ q.c_m ≤ 0 ∨ q.tau_m ≤ 0 ∨ q.tau_syn_ex ≤ 0
    ∨ q.tau_syn_in ≤ 0 ∨ (∃ i : Nat, i < q.tau_sfa.length ∧ q.tau_sfa.getD i 0 ≤ 0)
    ∨ q.N ≤ 0 ∨ q.lambda_0 < 0 ∨ q.Delta_V ≤ 0 ∨ q.t_ref < 0

/-- A validated parameter set with a history of three slots, one neuron, no
refractory period, a reset far below threshold and a vanishing adaptation
kernel. -/
def Parameters.threeSlot : Parameters α :=
  { (Parameters.defaults : Parameters α) with
    N := 1, len_kernel := 3, t_ref := 0, V_reset := -10, V_T_star := 0, q_sfa := [0] }

/-- The facts that stay fixed along the run of the three-slot instance at step
size 1 without input, as long as the free aggregates are still empty. -/
def Frame (M : Model ℝ) : Prop :=
  M.P = Parameters.threeSlot ∧ M.S.y0 = 0 ∧ M.S.I_syn_ex = 0 ∧ M.S.I_syn_in = 0 ∧ M.V.h = 1
    ∧ M.V.k_ref = 0 ∧ M.V.theta = [0, 0, 0] ∧ M.V.theta_tld = [0, 0, 0] ∧ M.V.Q30K = [0]
    ∧ M.V.P22 = Real.exp (-1 / 20) ∧ M.V.x = 0 ∧ M.V.z = 0

/-- The instance after the first `n` steps of `update(origin, from, to)`, that
is after the lags `from, ..., from + n - 1`. -/
def state_after (exp : α → α) (inputs : Int → Input α) (draws : Int → Draw α)
    (from_lag : Int) (M : Model α) : Nat → Model α
  | 0 => M
  | n + 1 =>
    update_step exp (state_after exp inputs draws from_lag M n)
      (inputs (from_lag + (n : Int))) (draws (from_lag + (n : Int)))

/-- Spec-side reading of the events of one call of `update`: for the step
`lag = from + i`, one event `(lag, n_spikes)` exactly when the count drawn in
that step is positive. -/
def event_at (exp : α → α) (inputs : Int → Input α) (draws : Int → Draw α)
    (from_lag : Int) (M : Model α) (i : Nat) : Option (Int × Int) :=
  if (state_after exp inputs draws from_lag M (i + 1)).S.n_spikes > 0 then
    some (from_lag + (i : Int), (state_after exp inputs draws from_lag M (i + 1)).S.n_spikes)
  else none

/-- Division that reports a zero divisor instead of returning a value. -/
def checked_div (a b : α) : Option α :=
  if b = 0 then none else some (a / b)

/-- The total drive `h_tot_` of one step computed as in `h_tot_of`, with every
division of the source lines checked for a zero divisor. -/
def h_tot_checked (P : Parameters α) (S : State α) (V : Variables α) (inp : Input α) :
    Option α := do
  let h_tot := (P.I_e + S.y0) * V.P20 + P.E_L
  let JNA_ex0 ← checked_div inp.ex_spikes V.h
  let JNA_in0 ← checked_div inp.in_spikes V.h
  let r_ex ← checked_div P.tau_syn_ex P.c_m
  let r_in ← checked_div P.tau_syn_in P.c_m
  let JNA_ex := JNA_ex0 * r_ex
  let JNA_in := JNA_in0 * r_in
  let JNy_ex ← checked_div S.I_syn_ex P.c_m
  let JNy_in ← checked_div S.I_syn_in P.c_m
  let q_ex ← checked_div
    (P.tau_syn_ex * V.P11_ex * (JNy_ex - JNA_ex)
      - V.P22 * (P.tau_syn_ex * JNy_ex - P.tau_m * JNA_ex))
    (P.tau_syn_ex - P.tau_m)
  let q_in ← checked_div
    (P.tau_syn_in * V.P11_in * (JNy_in - JNA_in)
      - V.P22 * (P.tau_syn_in * JNy_in - P.tau_m * JNA_in))
    (P.tau_syn_in - P.tau_m)
  let h_ex := P.tau_m * (JNA_ex + q_ex)
  let h_in := P.tau_m * (JNA_in + q_in)
  pure (h_tot + (h_ex + h_in))

/-- The variables of the sweep before its iteration `l` (after the iterations
`0, ..., l - 1`). -/
def sweep_upto (exp : α → α) (M : Model α) (inp : Input α) (l : Nat) : Sweep α :=
  (List.range l).foldl (sweep_body exp M.P M.V (h_tot_of M.P M.S M.V inp))
    { theta_hat := theta_hat_of M, u := M.V.u, lambda := M.V.lambda, v := M.V.v, m := M.V.m,
      Y := 0, Z := 0, W := 0 }

/-- The physical slot visited by iteration `l` of the sweep. -/
def slot_of (M : Model α) (l : Nat) : Nat :=
  (Int.tmod (M.V.k0 + (l : Int)) M.P.len_kernel).toNat

/-- The transition probability `P_lambda_` that iteration `l` of the sweep
uses for its slot. -/
def P_lambda_at (exp : α → α) (M : Model α) (inp : Input α) (l : Nat) : α :=
  P_lambda_of exp M.V
    (escrate exp M.P
      (((sweep_upto exp M inp l).u.getD (slot_of M l) 0 - M.P.E_L) * M.V.P22
          + h_tot_of M.P M.S M.V inp
        - (M.V.theta.getD l 0 + (sweep_upto exp M inp l).theta_hat)))
    ((sweep_upto exp M inp l).lambda.getD (slot_of M l) 0)

/-- A default node whose membrane potential was set to 10 mV by `State_::set`
before its first calibration. -/
def Model.depolarized : Model α :=
  { (Model.fresh : Model α) with
    S := State.set { V_m := some 10, I_syn_ex := none, I_syn_in := none } (State.defaults 0) }

/-- The exponential as `std::exp` returns it on doubles for strongly negative
arguments: below the underflow bound (about -745.13 for doubles; -746 is used
here) the result is exactly 0; elsewhere the exact exponential `exp` stands
for it. -/
def exp_underflow (exp : α → α) (x : α) : α :=
  if x < -746 then 0 else exp x

/-- A validated parameter set with one history slot, one neuron, no refractory
period, a vanishing adaptation kernel, threshold, reset and leak potential 0
and a high base rate `lambda_0 = 2*10^6`. -/
def Parameters.burst : Parameters α :=
  { (Parameters.defaults : Parameters α) with
    N := 1, len_kernel := 1, t_ref := 0, V_T_star := 0, q_sfa := [0], lambda_0 := 2000000 }

/-- The high-rate one-slot instance after its first calibration at step size 1
and one step without input. -/
def Model.burstStep (exp : α → α) : Model α :=
  update_step exp
    (calibrated exp 1 (steps_of 1) (Model.withParams (Parameters.burst : Parameters α)))
    Input.none (Draw.const 1)

/-- The escape rate `lambda_tld_` that iteration `l` of the sweep computes for
its slot (line 18) from the slot voltage updated in line 17. -/
def lambda_tld_at (exp : α → α) (M : Model α) (inp : Input α) (l : Nat) : α :=
  escrate exp M.P
    (((sweep_upto exp M inp l).u.getD (slot_of M l) 0 - M.P.E_L) * M.V.P22
        + h_tot_of M.P M.S M.V inp
      - (M.V.theta.getD l 0 + (sweep_upto exp M inp l).theta_hat))

/-- The index facts of a calibrated instance: each of the seven history arrays
has `len_kernel` entries and the rotating index lies in `[0, len_kernel)`. -/
def Shape (M : Model α) : Prop :=
  M.V.n.length = M.P.len_kernel.toNat ∧ M.V.m.length = M.P.len_kernel.toNat
    ∧ M.V.v.length = M.P.len_kernel.toNat ∧ M.V.u.length = M.P.len_kernel.toNat
    ∧ M.V.lambda.length = M.P.len_kernel.toNat ∧ M.V.theta.length = M.P.len_kernel.toNat
    ∧ M.V.theta_tld.length = M.P.len_kernel.toNat
    ∧ 0 ≤ M.V.k0 ∧ M.V.k0 < M.P.len_kernel

/-- Every subscript that one step of `update` applies to a history array is
inside the array: the head `k0` (adaptation loop, lines 31-36 of the step),
the constant index 0 (line 11), the index `l < len_kernel` of the loop summing
`m`, and in the sweep, for every `l < len_kernel - k_ref`, the slot
`(k0 + l) % len_kernel` and the index `l` itself. -/
def InBounds (M : Model α) : Prop :=
  (0 ≤ M.V.k0 ∧ M.V.k0.toNat < M.V.n.length ∧ M.V.k0.toNat < M.V.m.length
      ∧ M.V.k0.toNat < M.V.v.length ∧ M.V.k0.toNat < M.V.u.length
      ∧ M.V.k0.toNat < M.V.lambda.length)
    ∧ (0 < M.V.n.length ∧ 0 < M.V.theta_tld.length)
    ∧ (∀ l : Nat, (l : Int) < M.P.len_kernel → l < M.V.m.length)
    ∧ (∀ l : Nat, (l : Int) < M.P.len_kernel - M.V.k_ref →
        0 ≤ Int.tmod (M.V.k0 + (l : Int)) M.P.len_kernel
          ∧ slot_of M l < M.V.n.length ∧ slot_of M l < M.V.m.length
          ∧ slot_of M l < M.V.v.length ∧ slot_of M l < M.V.u.length
          ∧ slot_of M l < M.V.lambda.length
          ∧ l < M.V.theta.length ∧ l < M.V.theta_tld.length)

/-- States reachable from a first calibration (validated parameters, positive
step size, `initialized = false` before) by update steps with arbitrary inputs
and arbitrary draws for which the drawn spike count is not negative. -/
inductive ReachableNonneg (exp : α → α) (h : α) (ms_to_steps : α → Int) : Model α → Prop where
  | calibrated (M0 M : Model α) :
      Validated M0.P → 0 < h → M0.S.initialized = false →
      calibrate exp h ms_to_steps M0 = Except.ok M → ReachableNonneg exp h ms_to_steps M
  | step (M : Model α) (inp : Input α) (d : Draw α) :
      ReachableNonneg exp h ms_to_steps M → 0 ≤ n_spikes_of exp M inp d →
      ReachableNonneg exp h ms_to_steps (update_step exp M inp d)

/-- A validated parameter set with a history of three slots, no escape noise
(`lambda_0 = 0`), no refractory period and the default adaptation kernel. -/
def Parameters.silentThree : Parameters α :=
  { (Parameters.defaults : Parameters α) with lambda_0 := 0, len_kernel := 3, t_ref := 0 }

/-- The three-slot instance after its first calibration at step size 1 and one
step without input in which the binomial deviate is 1. -/
def Model.threeSlotStep (exp : α → α) : Model α :=
  update_step exp
    (calibrated exp 1 (steps_of 1) (Model.withParams (Parameters.threeSlot : Parameters α)))
    Input.none (Draw.const 1)

/-- The silent three-slot instance after its first calibration at step size 1
and two steps without input. -/
def Model.silentThreeRun (exp : α → α) : Model α :=
  run exp
    (calibrated exp 1 (steps_of 1) (Model.withParams (Parameters.silentThree : Parameters α)))
    [(Input.none, Draw.const 0), (Input.none, Draw.const 0)]

/-! ### Rounding in the Bernoulli test of `draw_poisson`

`draw_poisson` above evaluates its inner test `1 - (n + 1)*exp(-n) > min_double`
in exact arithmetic.  In double arithmetic the left side cancels to 0 for
small `n`; the definition below makes the rounding of each arithmetic result
explicit. -/

/-- The unit in the last place of a double near `x`: `2^(e - 52)` with
`e = floor(log2 |x|)` (normal range; `2^(-52)` for `x = 0`). -/
def ulp (x : α) : α :=
  (2 : α) ^ (Int.log 2 |x| - 52)

/-- Rounding to the nearest double in the normal range: the nearest multiple
of `ulp x` (ties are rounded up, not to even; overflow and subnormal numbers
are not modelled). -/
def round_double (x : α) : α :=
  (round (x / ulp x) : α) * ulp x

/-- `gif_pop_psc_exp::draw_poisson` with the rounding of the inner test made
explicit: `fl` rounds the result of each addition, multiplication and
subtraction of the test, and `exp` is `std::exp` as a function from doubles to
doubles.  The comparisons, the negation and the conversion of `N` are exact. -/
def draw_poisson_rounded (fl : α → α) (exp : α → α) (P : Parameters α) (V : Variables α)
    (d : Draw α) (n_expect : α) : Int :=
  if n_expect > (P.N : α) then P.N
  else if n_expect > V.min_double then
    let n_t : Int :=
      if fl (1 - fl (fl (n_expect + 1) * exp (-n_expect))) > V.min_double then d.poisson_ldev
      else (if d.drand < n_expect then 1 else 0)
    let n_t : Int := if n_t > P.N then P.N else n_t
    if n_t < 0 then 0 else n_t
  else 0

/-! ### Special values of `double` on the path from the escape rate to the draw

The definitions above compute in a field, where `0 * exp x = 0` for every `x`.
A `double` exponential overflows to `+inf`, and `0 * inf` is NaN.  The
definitions below follow the same source lines with these special values made
explicit; rounding of finite values is still not modelled. -/

/-- A `double` as far as its special values matter: a finite value, `+inf`,
`-inf` or NaN. -/
inductive Dbl (α : Type) where
  | fin (x : α) : Dbl α
  | pinf : Dbl α
  | ninf : Dbl α
  | nan : Dbl α

/-- Unary minus of doubles. -/
def Dbl.neg : Dbl α → Dbl α
  | Dbl.fin a => Dbl.fin (-a)
  | Dbl.pinf => Dbl.ninf
  | Dbl.ninf => Dbl.pinf
  | Dbl.nan => Dbl.nan

/-- Addition of doubles (IEEE 754 rules for the special values). -/
def Dbl.add : Dbl α → Dbl α → Dbl α
  | Dbl.fin a, Dbl.fin b => Dbl.fin (a + b)
  | Dbl.nan, _ => Dbl.nan
  | _, Dbl.nan => Dbl.nan
  | Dbl.pinf, Dbl.ninf => Dbl.nan
  | Dbl.ninf, Dbl.pinf => Dbl.nan
  | Dbl.pinf, _ => Dbl.pinf
  | _, Dbl.pinf => Dbl.pinf
  | Dbl.ninf, _ => Dbl.ninf
  | _, Dbl.ninf => Dbl.ninf

/-- Subtraction of doubles. -/
def Dbl.sub (a b : Dbl α) : Dbl α :=
  Dbl.add a (Dbl.neg b)

/-- The comparison `a < b` of doubles: false whenever an operand is NaN. -/
def Dbl.lt : Dbl α → Dbl α → Bool
  | Dbl.fin a, Dbl.fin b => decide (a < b)
  | Dbl.nan, _ => false
  | _, Dbl.nan => false
  | Dbl.ninf, Dbl.ninf => false
  | Dbl.ninf, _ => true
  | Dbl.pinf, _ => false
  | Dbl.fin _, Dbl.pinf => true
  | Dbl.fin _, Dbl.ninf => false

/-- The comparison `a <= b` of doubles: false whenever an operand is NaN. -/
def Dbl.le : Dbl α → Dbl α → Bool
  | Dbl.fin a, Dbl.fin b => decide (a ≤ b)
  | Dbl.nan, _ => false
  | _, Dbl.nan => false
  | Dbl.ninf, _ => true
  | Dbl.pinf, Dbl.pinf => true
  | Dbl.pinf, _ => false
  | Dbl.fin _, Dbl.pinf => true
  | Dbl.fin _, Dbl.ninf => false

/-- The largest argument for which `std::exp` returns a finite double,
`ln(DBL_MAX)`, about 709.782712893384 (rounded down here). -/
def exp_max : α :=
  709782712893384 / 1000000000000

/-- The function `std::exp` on doubles: `+inf` above `exp_max`, otherwise the
finite value `exp x`; `exp(+inf) = +inf`, `exp(-inf) = 0`, `exp(NaN) = NaN`. -/
def Dbl.exp (exp : α → α) : Dbl α → Dbl α
  | Dbl.fin x => if exp_max < x then Dbl.pinf else Dbl.fin (exp x)
  | Dbl.pinf => Dbl.pinf
  | Dbl.ninf => Dbl.fin 0
  | Dbl.nan => Dbl.nan

/-- Fields of `rate_neuron_ipn::Parameters_`. -/
structure rate_neuron_ipn.Parameters (α : Type) where
  tau : α
  lambda : α
  std : α
  mean : α
  linear_summation : Bool
  rectify_output : Bool
  mult_coupling : Bool

/-- Fields of `rate_neuron_ipn::State_`. -/
structure rate_neuron_ipn.State (α : Type) where
  rate : α
  noise : α

/-- The default constructor `rate_neuron_ipn::Parameters_::Parameters_()`. -/
def rate_neuron_ipn.Parameters.defaults : rate_neuron_ipn.Parameters α :=
  { tau := 10, lambda := 1, std := 1, mean := 0, linear_summation := true,
    rectify_output := false, mult_coupling := false }

/-- The default constructor `rate_neuron_ipn::State_::State_()`. -/
def rate_neuron_ipn.State.defaults : rate_neuron_ipn.State α :=
  { rate := 0, noise := 0 }

/-- Fields of `rate_neuron_ipn::Variables_` read by `update_` (the propagators
set by `calibrate`). -/
structure rate_neuron_ipn.Variables (α : Type) where
  P1 : α
  P2 : α
  input_noise_factor : α

/-- The template argument `TNonlinearities`: the three functions of the
member `nonlinearities_` that `update_` calls. -/
structure rate_neuron_ipn.Nonlinearities (α : Type) where
  input : α → α
  mult_coupling_ex : α → α
  mult_coupling_in : α → α

/-- What the buffers `B_` hold for one lag: the normal deviate
`random_numbers[lag]`, the delayed rates read from the ring buffers and the
instantaneous rates. -/
structure rate_neuron_ipn.Buffers (α : Type) where
  random_number : α
  delayed_rates_ex : α
  delayed_rates_in : α
  instant_rates_ex : α
  instant_rates_in : α

/-- The body of the `for lag` loop of `rate_neuron_ipn::update_` as far as it
writes `S_` (both values of `called_from_wfr_update` read the same delayed
rates and differ only in the bookkeeping after the rate is stored). -/
def rate_neuron_ipn.update_step (nl : rate_neuron_ipn.Nonlinearities α)
    (P : rate_neuron_ipn.Parameters α) (V : rate_neuron_ipn.Variables α)
    (S : rate_neuron_ipn.State α) (B : rate_neuron_ipn.Buffers α) :
    rate_neuron_ipn.State α :=
  let new_rate := S.rate
  let noise := P.std * B.random_number
  let rate := V.P1 * new_rate + V.P2 * P.mean + V.input_noise_factor * noise
  let H_ex : α := if P.mult_coupling then nl.mult_coupling_ex new_rate else 1
  let H_in : α := if P.mult_coupling then nl.mult_coupling_in new_rate else 1
  let rate :=
    if P.linear_summation then
      if P.mult_coupling then
        rate + V.P2 * H_ex * nl.input (B.delayed_rates_ex + B.instant_rates_ex)
          + V.P2 * H_in * nl.input (B.delayed_rates_in + B.instant_rates_in)
      else
        rate + V.P2 * nl.input (B.delayed_rates_ex + B.instant_rates_ex
          + B.delayed_rates_in + B.instant_rates_in)
    else
      rate + V.P2 * H_ex * (B.delayed_rates_ex + B.instant_rates_ex)
        + V.P2 * H_in * (B.delayed_rates_in + B.instant_rates_in)
  let rate := if P.rectify_output ∧ rate < 0 then 0 else rate
  { rate := rate, noise := noise }

/-- The loop `for lag = from, ..., to - 1` of `rate_neuron_ipn::update_`:
the state after the call and the vector `new_rates` (the rate stored before
each processed step, in the order of the lags). -/
def rate_neuron_ipn.update_ (nl : rate_neuron_ipn.Nonlinearities α)
    (P : rate_neuron_ipn.Parameters α) (V : rate_neuron_ipn.Variables α)
    (buffers : Int → rate_neuron_ipn.Buffers α) (from_lag to_lag : Int)
    (S : rate_neuron_ipn.State α) : rate_neuron_ipn.State α × List α :=
  (List.range (to_lag - from_lag).toNat).foldl
    (fun (acc : rate_neuron_ipn.State α × List α) (i : Nat) =>
      (rate_neuron_ipn.update_step nl P V acc.1 (buffers (from_lag + (i : Int))),
        acc.2 ++ [acc.1.rate]))
    (S, [])

end Embedding

/-! ## Auxiliary lemmas -/

section Lemmas

variable {α : Type} [LinearOrderedField α] [FloorRing α]

theorem foldl_range_add (F : Nat → α) (init : α) (n : Nat) :
    (List.range n).foldl (fun acc j => acc + F j) init
      = init + ∑ j in Finset.range n, F j := by
  induction n with
  | zero => simp
  | succ n ih =>
    rw [List.range_succ, List.foldl_append, ih, Finset.sum_range_succ]
    simp [add_assoc]

theorem sum_range_getD_zipWith (f : α → α → α) :
    ∀ (q tau : List α), tau.length = q.length →
      ∑ j in Finset.range tau.length, f (q.getD j 0) (tau.getD j 0)
        = (List.zipWith f q tau).sum
  | [], [], _ => by simp
  | [], _ :: _, hl => by simp at hl
  | _ :: _, [], hl => by simp at hl
  | a :: q, b :: tau, hl => by
    have hl2 : tau.length = q.length := by simpa using hl
    have ih := sum_range_getD_zipWith f q tau hl2
    simp only [List.length_cons, List.zipWith_cons_cons, List.sum_cons]
    rw [Finset.sum_range_succ', add_comm]
    simp only [List.getD_cons_zero, List.getD_cons_succ]
    rw [ih]

theorem adaptation_kernel_eq_finset_sum (exp : α → α) (P : Parameters α) (h : α) (k : Int) :
    adaptation_kernel exp P h k
      = ∑ j in Finset.range P.tau_sfa.length,
          P.q_sfa.getD j 0 * exp (-(k : α) * h / P.tau_sfa.getD j 0) := by
  unfold adaptation_kernel
  rw [foldl_range_add]
  simp

theorem check_ok_iff (P : Parameters α) :
    P.check = Except.ok () ↔
      P.tau_sfa.length = P.q_sfa.length ∧ 0 < P.c_m ∧ 0 < P.tau_m ∧ 0 < P.tau_syn_ex
        ∧ 0 < P.tau_syn_in ∧ (∀ t ∈ P.tau_sfa, 0 < t) ∧ 0 < P.N ∧ 0 ≤ P.lambda_0
        ∧ 0 < P.Delta_V ∧ 0 ≤ P.t_ref := by
  unfold Parameters.check
  split_ifs with h1 h2 h3 h4 h5 h6 h7 h8 h9
  all_goals simp only [reduceCtorEq, false_iff, true_iff]
  · rintro ⟨a, -⟩
    exact h1 a
  · rintro ⟨-, a, -⟩
    exact h2.not_lt a
  · rintro ⟨-, -, a, -⟩
    exact h3.not_lt a
  · rintro ⟨-, -, -, a, b, -⟩
    rcases h4 with h4 | h4
    · exact h4.not_lt a
    · exact h4.not_lt b
  · rintro ⟨-, -, -, -, -, a, -⟩
    rw [List.any_eq_true] at h5
    obtain ⟨t, ht, hle⟩ := h5
    exact (of_decide_eq_true hle).not_lt (a t ht)
  · rintro ⟨-, -, -, -, -, -, a, -⟩
    exact h6.not_lt a
  · rintro ⟨-, -, -, -, -, -, -, a, -⟩
    exact h7.not_le a
  · rintro ⟨-, -, -, -, -, -, -, -, a, -⟩
    exact h8.not_lt a
  · rintro ⟨-, -, -, -, -, -, -, -, -, a⟩
    exact h9.not_le a
  · rw [not_or] at h4
    refine ⟨not_not.mp h1, not_le.mp h2, not_le.mp h3, not_le.mp h4.1, not_le.mp h4.2, ?_,
      not_le.mp h6, not_lt.mp h7, not_le.mp h8, not_lt.mp h9⟩
    intro t ht
    by_contra hcon
    apply h5
    rw [List.any_eq_true]
    exact ⟨t, ht, decide_eq_true (not_lt.mp hcon)⟩

theorem validated_iff (P : Parameters α) :
    Validated P ↔
      P.tau_sfa.length = P.q_sfa.length ∧ 0 < P.c_m ∧ 0 < P.tau_m ∧ 0 < P.tau_syn_ex
        ∧ 0 < P.tau_syn_in ∧ (∀ t ∈ P.tau_sfa, 0 < t) ∧ 0 < P.N ∧ 0 ≤ P.lambda_0
        ∧ 0 < P.Delta_V ∧ 0 ≤ P.t_ref := by
  have hP : (Parameters.set
    { N := none, tau_m := none, c_m := none, lambda_0 := none, Delta_V := none,
      len_kernel := none, I_e := none, V_reset := none, V_T_star := none, E_L := none,
      t_ref := none, tau_syn_ex := none, tau_syn_in := none, BinoRand := none,
      tau_sfa := none, q_sfa := none } P).2 = P.check := rfl
  unfold Validated
  rw [hP, check_ok_iff]

theorem draw_binomial_range (P : Parameters α) (d : Draw α) (x : α)
    (hN : 0 ≤ P.N) (hd : DrawOK P d) :
    0 ≤ draw_binomial P d x ∧ draw_binomial P d x ≤ P.N := by
  unfold draw_binomial
  dsimp only
  split_ifs
  · exact ⟨hN, le_refl _⟩
  · exact ⟨le_refl _, hN⟩
  · exact hd

theorem draw_poisson_range (exp : α → α) (P : Parameters α) (V : Variables α) (d : Draw α)
    (x : α) (hN : 0 ≤ P.N) :
    0 ≤ draw_poisson exp P V d x ∧ draw_poisson exp P V d x ≤ P.N := by
  unfold draw_poisson
  dsimp only
  split_ifs <;> constructor <;> omega

theorem history_loop_le (exp : α → α) (P : Parameters α) (h : α) (kmin k : Int) :
    history_loop exp P h kmin k ≤ k := by
  induction k using history_loop.induct exp P h kmin with
  | case1 k hc ih =>
    rw [history_loop, if_pos hc]
    omega
  | case2 k hc =>
    rw [history_loop, if_neg hc]

theorem history_loop_ge_min (exp : α → α) (P : Parameters α) (h : α) (kmin k : Int) :
    min kmin k ≤ history_loop exp P h kmin k := by
  induction k using history_loop.induct exp P h kmin with
  | case1 k hc ih =>
    rw [history_loop, if_pos hc]
    have := hc.2
    omega
  | case2 k hc =>
    rw [history_loop, if_neg hc]
    exact min_le_right _ _

theorem history_loop_stop (exp : α → α) (P : Parameters α) (h : α) (kmin k : Int) :
    ¬ (adaptation_kernel exp P h (history_loop exp P h kmin k) / P.Delta_V < 1 / 10
        ∧ history_loop exp P h kmin k > kmin) := by
  induction k using history_loop.induct exp P h kmin with
  | case1 k hc ih =>
    rw [history_loop, if_pos hc]
    exact ih
  | case2 k hc =>
    rw [history_loop, if_neg hc]
    exact hc

theorem history_loop_skipped (exp : α → α) (P : Parameters α) (h : α) (kmin k : Int) :
    ∀ j : Int, history_loop exp P h kmin k < j → j ≤ k →
      adaptation_kernel exp P h j / P.Delta_V < 1 / 10 ∧ j > kmin := by
  induction k using history_loop.induct exp P h kmin with
  | case1 k hc ih =>
    intro j hj hjk
    rw [history_loop, if_pos hc] at hj
    by_cases hk : j = k
    · subst hk
      exact hc
    · exact ih j hj (by omega)
  | case2 k hc =>
    intro j hj hjk
    rw [history_loop, if_neg hc] at hj
    omega

theorem truncToInt_of_nonneg (x : α) (hx : 0 ≤ x) : truncToInt x = Int.floor x := by
  unfold truncToInt
  rw [if_pos hx]

theorem lt_truncToInt_add_one_mul (t h : α) (hh : 0 < h) (ht : 0 ≤ t) :
    t < ((truncToInt (t / h) + 1 : Int) : α) * h := by
  rw [truncToInt_of_nonneg _ (div_nonneg ht hh.le)]
  have h1 := Int.lt_floor_add_one (t / h)
  rw [div_lt_iff₀ hh] at h1
  push_cast
  exact h1

theorem le_truncToInt_of_mul_le (t h : α) (k : Int) (hh : 0 < h) (hk : (k : α) * h ≤ t) :
    k ≤ truncToInt (t / h) := by
  have h1 : (k : α) ≤ t / h := by
    rw [le_div_iff₀ hh]
    exact hk
  unfold truncToInt
  split_ifs
  · exact Int.le_floor.mpr h1
  · have h2 := Int.le_ceil (t / h)
    exact_mod_cast h1.trans h2

theorem get_history_size_gt_t_ref (exp : α → α) (P : Parameters α) (h : α)
    (hh : 0 < h) (ht : 0 ≤ P.t_ref) :
    P.t_ref < (get_history_size exp P h : α) * h := by
  unfold get_history_size
  dsimp only
  split_ifs with hc
  · exact lt_truncToInt_add_one_mul _ _ hh ht
  · exact not_le.mp hc

theorem get_history_size_ge_loop (exp : α → α) (P : Parameters α) (h : α) (hh : 0 < h) :
    history_loop exp P h (truncToInt (5 * P.tau_m / h)) (truncToInt (20000 / h))
      ≤ get_history_size exp P h := by
  unfold get_history_size
  dsimp only
  split_ifs with hc
  · have := le_truncToInt_of_mul_le _ _ _ hh hc
    omega
  · exact le_refl _

theorem truncToInt_intCast (z : Int) : truncToInt (z : α) = z := by
  unfold truncToInt
  split_ifs
  · exact Int.floor_intCast z
  · exact Int.ceil_intCast z

theorem validated_defaults : Validated (Parameters.defaults : Parameters α) := by
  rw [validated_iff]
  simp [Parameters.defaults]

theorem check_error_iff (P : Parameters α) :
    (∃ msg, P.check = Except.error (Exception.BadProperty msg)) ↔ ¬ P.check = Except.ok () := by
  constructor
  · rintro ⟨msg, hm⟩ hok
    rw [hm] at hok
    cases hok
  · intro hne
    cases hc : P.check with
    | error e =>
      cases e with
      | BadProperty msg => exact ⟨msg, rfl⟩
    | ok u =>
      exact absurd hc hne

theorem rejected_iff (P : Parameters α) : Rejected P ↔ ¬ P.check = Except.ok () := by
  rw [check_ok_iff]
  unfold Rejected
  constructor
  · rintro (h | h | h | h | h | ⟨i, hi, h⟩ | h | h | h | h)
    · rintro ⟨a, -⟩
      exact h a
    · rintro ⟨-, a, -⟩
      exact h.not_lt a
    · rintro ⟨-, -, a, -⟩
      exact h.not_lt a
    · rintro ⟨-, -, -, a, -⟩
      exact h.not_lt a
    · rintro ⟨-, -, -, -, a, -⟩
      exact h.not_lt a
    · rintro ⟨-, -, -, -, -, a, -⟩
      have hmem : P.tau_sfa.getD i 0 ∈ P.tau_sfa := by
        rw [List.getD_eq_getElem _ _ hi]
        exact List.getElem_mem hi
      exact h.not_lt (a _ hmem)
    · rintro ⟨-, -, -, -, -, -, a, -⟩
      exact h.not_lt a
    · rintro ⟨-, -, -, -, -, -, -, a, -⟩
      exact h.not_le a
    · rintro ⟨-, -, -, -, -, -, -, -, a, -⟩
      exact h.not_lt a
    · rintro ⟨-, -, -, -, -, -, -, -, -, a⟩
      exact h.not_le a
  · intro hn
    by_contra hcon
    simp only [not_or, not_exists, not_and, not_le, not_lt, ne_eq, not_not] at hcon
    obtain ⟨c1, c2, c3, c4, c5, c6, c7, c8, c9, c10⟩ := hcon
    apply hn
    refine ⟨c1, c2, c3, c4, c5, ?_, c7, c8, c9, c10⟩
    intro t ht
    obtain ⟨i, hi, rfl⟩ := List.getElem_of_mem ht
    have := c6 i hi
    rwa [List.getD_eq_getElem _ _ hi] at this

theorem history_loop_of_le (exp : α → α) (P : Parameters α) (h : α) (kmin k : Int)
    (hk : k ≤ kmin) : history_loop exp P h kmin k = k := by
  rw [history_loop, if_neg]
  rintro ⟨-, hgt⟩
  omega

theorem get_history_size_skipped (exp : α → α) (P : Parameters α) (h : α) (hh : 0 < h)
    (j : Int) (hj : get_history_size exp P h < j) (hjk : j ≤ truncToInt (20000 / h)) :
    adaptation_kernel exp P h j / P.Delta_V < 1 / 10 :=
  (history_loop_skipped exp P h _ _ j
    (lt_of_le_of_lt (get_history_size_ge_loop exp P h hh) hj) hjk).1

theorem get_history_size_stop (exp : α → α) (P : Parameters α) (h : α) :
    ¬ (adaptation_kernel exp P h (get_history_size exp P h) / P.Delta_V < 1 / 10)
      ∨ get_history_size exp P h ≤ truncToInt (5 * P.tau_m / h)
      ∨ get_history_size exp P h = truncToInt (P.t_ref / h) + 1 := by
  by_cases hc : ((history_loop exp P h (truncToInt (5 * P.tau_m / h))
      (truncToInt (20000 / h)) : Int) : α) * h ≤ P.t_ref
  · right
    right
    unfold get_history_size
    dsimp only
    rw [if_pos hc]
  · have hK : get_history_size exp P h
        = history_loop exp P h (truncToInt (5 * P.tau_m / h)) (truncToInt (20000 / h)) := by
      unfold get_history_size
      dsimp only
      rw [if_neg hc]
    rw [hK]
    have hs := history_loop_stop exp P h (truncToInt (5 * P.tau_m / h))
      (truncToInt (20000 / h))
    by_cases hk : adaptation_kernel exp P h
        (history_loop exp P h (truncToInt (5 * P.tau_m / h)) (truncToInt (20000 / h)))
          / P.Delta_V < 1 / 10
    · right
      left
      by_contra hgt
      exact hs ⟨hk, not_le.mp hgt⟩
    · left
      exact hk

theorem adaptation_kernel_defaults (h : ℝ) (k : Int) :
    adaptation_kernel Real.exp (Parameters.defaults : Parameters ℝ) h k
      = 1 / 2 * Real.exp (-(k : ℝ) * h / 300) := by
  simp [adaptation_kernel, Parameters.defaults, List.range_succ]

theorem calibrate_ok_of_nonempty (exp : α → α) (h : α) (ms_to_steps : α → Int) (M : Model α)
    (h1 : M.P.tau_sfa ≠ []) (h2 : M.P.q_sfa ≠ []) :
    calibrate exp h ms_to_steps M = Except.ok (calibrated exp h ms_to_steps M) := by
  have e1 : ¬ M.P.tau_sfa.length = 0 := fun hc => h1 (List.length_eq_zero.mp hc)
  have e2 : ¬ M.P.q_sfa.length = 0 := fun hc => h2 (List.length_eq_zero.mp hc)
  unfold calibrated
  cases hc : calibrate exp h ms_to_steps M with
  | ok M1 => rfl
  | error e =>
    exfalso
    unfold calibrate at hc
    rw [if_neg e1, if_neg e2] at hc
    dsimp only at hc
    split_ifs at hc

/-- What a first calibration (`initialized = false` before) leaves behind. -/
theorem calibrate_first (exp : α → α) (h : α) (ms_to_steps : α → Int) (M0 M : Model α)
    (hinit : M0.S.initialized = false)
    (hc : calibrate exp h ms_to_steps M0 = Except.ok M) :
    M.P = (if M0.P.len_kernel < 1 then
            { M0.P with len_kernel := get_history_size exp M0.P h } else M0.P)
      ∧ M.V.h = h
      ∧ M.V.min_double = ((2 : α) ^ 1022)⁻¹
      ∧ M.V.P22 = exp (-h / M0.P.tau_m)
      ∧ M.V.lambda_free = 0
      ∧ M.V.n = (List.replicate M.P.len_kernel.toNat (0 : α)).set
          (M.P.len_kernel - 1).toNat (M.P.N : α)
      ∧ M.V.m = (List.replicate M.P.len_kernel.toNat (0 : α)).set
          (M.P.len_kernel - 1).toNat (M.P.N : α)
      ∧ M.V.v = List.replicate M.P.len_kernel.toNat 0
      ∧ M.V.u = List.replicate M.P.len_kernel.toNat 0
      ∧ M.V.lambda = List.replicate M.P.len_kernel.toNat 0
      ∧ M.V.x = 0 ∧ M.V.z = 0 ∧ M.V.k0 = 0
      ∧ M.V.k_ref = ms_to_steps M0.P.t_ref
      ∧ M.S = { M0.S with initialized := true } := by
  unfold calibrate at hc
  by_cases e1 : M0.P.tau_sfa.length = 0
  · rw [if_pos e1] at hc
    cases hc
  by_cases e2 : M0.P.q_sfa.length = 0
  · rw [if_neg e1, if_pos e2] at hc
    cases hc
  rw [if_neg e1, if_neg e2] at hc
  dsimp only at hc
  rw [hinit] at hc
  simp only [Bool.false_eq_true, if_false] at hc
  injection hc with hc
  subst hc
  refine ⟨rfl, rfl, rfl, rfl, rfl, rfl, rfl, rfl, rfl, rfl, rfl, rfl, rfl, ?_, rfl⟩
  dsimp only
  split_ifs <;> rfl

theorem calibrate_first_kernel (exp : α → α) (h : α) (ms_to_steps : α → Int) (M0 M : Model α)
    (hinit : M0.S.initialized = false)
    (hc : calibrate exp h ms_to_steps M0 = Except.ok M) :
    M.V.theta = (List.range M.P.len_kernel.toNat).map
        (fun (k : Nat) => adaptation_kernel exp M.P h (M.P.len_kernel - (k : Int)))
      ∧ M.V.theta_tld = M.V.theta.map
        (fun theta_tmp => M.P.Delta_V * (1 - exp (-theta_tmp / M.P.Delta_V)) / (M.P.N : α))
      ∧ M.V.Q30K = (List.range M.P.tau_sfa.length).map (fun (k : Nat) =>
          M.P.q_sfa.getD k 0 * M.P.tau_sfa.getD k 0
            * exp (-h * (M.P.len_kernel : α) / M.P.tau_sfa.getD k 0))
      ∧ M.V.Q30 = (List.range M.P.tau_sfa.length).map
          (fun (k : Nat) => exp (-h / M.P.tau_sfa.getD k 0))
      ∧ M.V.g = List.replicate M.P.tau_sfa.length 0 := by
  unfold calibrate at hc
  by_cases e1 : M0.P.tau_sfa.length = 0
  · rw [if_pos e1] at hc
    cases hc
  by_cases e2 : M0.P.q_sfa.length = 0
  · rw [if_neg e1, if_pos e2] at hc
    cases hc
  rw [if_neg e1, if_neg e2] at hc
  dsimp only at hc
  rw [hinit] at hc
  simp only [Bool.false_eq_true, if_false] at hc
  injection hc with hc
  subst hc
  exact ⟨rfl, rfl, rfl, rfl, rfl⟩

theorem validated_of_fields (P Q : Parameters α) (hv : Validated P)
    (h1 : Q.tau_sfa = P.tau_sfa) (h2 : Q.q_sfa = P.q_sfa) (h3 : Q.c_m = P.c_m)
    (h4 : Q.tau_m = P.tau_m) (h5 : Q.tau_syn_ex = P.tau_syn_ex)
    (h6 : Q.tau_syn_in = P.tau_syn_in) (h7 : Q.N = P.N) (h8 : Q.lambda_0 = P.lambda_0)
    (h9 : Q.Delta_V = P.Delta_V) (h10 : Q.t_ref = P.t_ref) : Validated Q := by
  rw [validated_iff] at hv ⊢
  rw [h1, h2, h3, h4, h5, h6, h7, h8, h9, h10]
  exact hv

theorem calibrate_first_validated (exp : α → α) (h : α) (ms_to_steps : α → Int)
    (M0 M : Model α) (hinit : M0.S.initialized = false)
    (hc : calibrate exp h ms_to_steps M0 = Except.ok M) (hv : Validated M0.P) :
    Validated M.P ∧ M.P.tau_m = M0.P.tau_m ∧ M.P.E_L = M0.P.E_L ∧ M.P.I_e = M0.P.I_e
      ∧ M.P.lambda_0 = M0.P.lambda_0 := by
  have hP := (calibrate_first exp h ms_to_steps M0 M hinit hc).1
  rw [hP]
  split_ifs
  · exact ⟨validated_of_fields _ _ hv rfl rfl rfl rfl rfl rfl rfl rfl rfl rfl, rfl, rfl, rfl, rfl⟩
  · exact ⟨hv, rfl, rfl, rfl, rfl⟩

theorem reachable_validated (exp : α → α) (h : α) (ms_to_steps : α → Int) (M : Model α)
    (hr : Reachable exp h ms_to_steps M) : Validated M.P ∧ M.V.h = h ∧ 0 < h := by
  induction hr with
  | calibrated M0 M hv hh hinit hc =>
    exact ⟨(calibrate_first_validated exp h ms_to_steps M0 M hinit hc hv).1,
      (calibrate_first exp h ms_to_steps M0 M hinit hc).2.1, hh⟩
  | step M inp d _ _ ih => exact ih

theorem reachable_min_double (exp : α → α) (h : α) (ms_to_steps : α → Int) (M : Model α)
    (hr : Reachable exp h ms_to_steps M) : 0 < M.V.min_double := by
  induction hr with
  | calibrated M0 M hv hh hinit hc =>
    rw [(calibrate_first exp h ms_to_steps M0 M hinit hc).2.2.1]
    positivity
  | step M inp d _ _ ih => exact ih

theorem reachable_P22 (exp : α → α) (h : α) (ms_to_steps : α → Int) (M : Model α)
    (hr : Reachable exp h ms_to_steps M) : M.V.P22 = exp (-h / M.P.tau_m) := by
  induction hr with
  | calibrated M0 M hv hh hinit hc =>
    rw [(calibrate_first exp h ms_to_steps M0 M hinit hc).2.2.2.1,
      (calibrate_first_validated exp h ms_to_steps M0 M hinit hc hv).2.1]
  | step M inp d _ _ ih => exact ih

theorem foldl_preserves {β γ : Type} (Inv : β → Prop) (f : β → γ → β) (l : List γ)
    (init : β) (h0 : Inv init) (hstep : ∀ s x, Inv s → Inv (f s x)) :
    Inv (l.foldl f init) := by
  induction l generalizing init with
  | nil => exact h0
  | cons a l ih => exact ih (f init a) (hstep init a h0)

theorem forall_mem_set {β : Type} (p : β → Prop) (l : List β) (i : Nat) (b : β)
    (hl : ∀ a ∈ l, p a) (hb : p b) : ∀ a ∈ l.set i b, p a := by
  intro a ha
  rcases List.mem_or_eq_of_mem_set ha with h | h
  · exact hl a h
  · rw [h]
    exact hb

theorem getD_of_forall {β : Type} (p : β → Prop) (l : List β) (i : Nat) (dflt : β)
    (hl : ∀ a ∈ l, p a) (hd : p dflt) : p (l.getD i dflt) := by
  by_cases hi : i < l.length
  · rw [List.getD_eq_getElem _ _ hi]
    exact hl _ (List.getElem_mem hi)
  · rw [List.getD_eq_default _ _ (not_lt.mp hi)]
    exact hd

theorem P_lambda_of_zero (exp : α → α) (V : Variables α) : P_lambda_of exp V 0 0 = 0 := by
  unfold P_lambda_of
  simp

theorem sweep_silent (exp : α → α) (P : Parameters α) (V : Variables α) (h_tot theta_hat : α)
    (hl : P.lambda_0 = 0) (hlam : ∀ a ∈ V.lambda, a = 0) :
    (∀ a ∈ (sweep exp P V h_tot theta_hat).lambda, a = 0)
      ∧ (sweep exp P V h_tot theta_hat).Y = 0 ∧ (sweep exp P V h_tot theta_hat).W = 0 := by
  unfold sweep
  apply foldl_preserves (fun s : Sweep α => (∀ a ∈ s.lambda, a = 0) ∧ s.Y = 0 ∧ s.W = 0)
  · exact ⟨hlam, rfl, rfl⟩
  · rintro s l ⟨h1, h2, h3⟩
    have hesc : ∀ x : α, escrate exp P x = 0 := by
      intro x
      unfold escrate
      rw [hl, zero_mul]
    have hk : ∀ k : Nat, s.lambda.getD k 0 = 0 :=
      fun k => getD_of_forall (fun a => a = 0) s.lambda k 0 h1 rfl
    unfold sweep_body
    dsimp only
    rw [hesc, hk, P_lambda_of_zero]
    refine ⟨forall_mem_set _ _ _ _ h1 rfl, ?_, ?_⟩
    · rw [h2]
      simp
    · rw [h3]
      simp

theorem silent_step (exp : α → α) (hexp : exp 0 = 1) (M : Model α) (inp : Input α)
    (d : Draw α) (hs : Silent M) :
    n_expect_of exp M inp = 0 ∧ n_spikes_of exp M inp d = 0
      ∧ Silent (update_step exp M inp d) := by
  obtain ⟨hl, hN, hmin, hfree, hlam⟩ := hs
  have hsw := sweep_silent exp M.P M.V (h_tot_of M.P M.S M.V inp) (theta_hat_of M) hl hlam
  have hlf : lambda_free_of exp M inp = 0 := by
    unfold lambda_free_of escrate
    rw [hl, zero_mul]
  have hPf : P_free_of exp M inp = 0 := by
    unfold P_free_of
    rw [hlf, hfree]
    simp [hexp]
  have hne : n_expect_of exp M inp = 0 := by
    unfold n_expect_of sweep_of
    rw [hsw.2.1, hsw.2.2, hPf]
    unfold P_Lambda_of
    simp
  have hns : n_spikes_of exp M inp d = 0 := by
    unfold n_spikes_of
    rw [hne]
    have hNα : (0 : α) < (M.P.N : α) := by exact_mod_cast hN
    split_ifs
    · unfold draw_binomial
      simp
    · unfold draw_poisson
      rw [if_neg (not_lt.mpr hNα.le), if_neg (not_lt.mpr hmin.le)]
  refine ⟨hne, hns, hl, hN, hmin, hlf, ?_⟩
  exact forall_mem_set _ _ _ _ hsw.1 rfl

theorem reachable_silent (exp : α → α) (hexp : exp 0 = 1) (h : α) (ms_to_steps : α → Int)
    (M : Model α) (hr : Reachable exp h ms_to_steps M) (hl : M.P.lambda_0 = 0) :
    Silent M := by
  induction hr with
  | calibrated M0 M hv hh hinit hc =>
    have hV := (calibrate_first_validated exp h ms_to_steps M0 M hinit hc hv).1
    have hf := calibrate_first exp h ms_to_steps M0 M hinit hc
    refine ⟨hl, ((validated_iff M.P).mp hV).2.2.2.2.2.2.1, ?_, hf.2.2.2.2.1, ?_⟩
    · rw [hf.2.2.1]
      positivity
    · rw [hf.2.2.2.2.2.2.2.2.2.1]
      intro a ha
      exact List.eq_of_mem_replicate ha
  | step M inp d _ _ ih => exact (silent_step exp hexp M inp d (ih hl)).2.2

theorem silent_update (exp : α → α) (hexp : exp 0 = 1) (inputs : Int → Input α)
    (draws : Int → Draw α) (from_lag to_lag : Int) (M : Model α) (hs : Silent M) :
    (update exp inputs draws from_lag to_lag M).2 = [] := by
  unfold update
  refine (foldl_preserves
    (fun acc : Model α × List (Int × Int) => Silent acc.1 ∧ acc.2 = []) _ _ _ ⟨hs, rfl⟩ ?_).2
  rintro ⟨M1, ev⟩ i ⟨h1, h2⟩
  have hst := silent_step exp hexp M1 (inputs (from_lag + (i : Int)))
    (draws (from_lag + (i : Int))) h1
  have hsp : spike_event (update_step exp M1 (inputs (from_lag + (i : Int)))
      (draws (from_lag + (i : Int)))) = none := by
    unfold spike_event
    have : (update_step exp M1 (inputs (from_lag + (i : Int)))
      (draws (from_lag + (i : Int)))).S.n_spikes = 0 := hst.2.1
    rw [this]
    simp
  dsimp only
  rw [hsp]
  exact ⟨hst.2.2, h2⟩

theorem quiet_step (exp : α → α) (M : Model α) (d : Draw α) (hq : Quiet M) :
    (update_step exp M Input.none d).S.V_m = M.S.V_m * M.V.P22
      ∧ Quiet (update_step exp M Input.none d)
      ∧ (update_step exp M Input.none d).V.P22 = M.V.P22 := by
  obtain ⟨h1, h2, h3, h4, h5⟩ := hq
  have hh : h_tot_of M.P M.S M.V Input.none = 0 := by
    unfold h_tot_of Input.none
    simp [h1, h2, h3, h4, h5]
  refine ⟨?_, ⟨h1, h2, rfl, ?_, ?_⟩, rfl⟩
  · show V_m_of M Input.none = _
    unfold V_m_of
    rw [hh, h1]
    ring
  · show (Input.none.ex_spikes / M.V.h * (M.P.tau_syn_ex / M.P.c_m)
        + (M.S.I_syn_ex / M.P.c_m - Input.none.ex_spikes / M.V.h * (M.P.tau_syn_ex / M.P.c_m))
          * M.V.P11_ex) * M.P.c_m = 0
    simp [Input.none, h4]
  · show (Input.none.in_spikes / M.V.h * (M.P.tau_syn_in / M.P.c_m)
        + (M.S.I_syn_in / M.P.c_m - Input.none.in_spikes / M.V.h * (M.P.tau_syn_in / M.P.c_m))
          * M.V.P11_in) * M.P.c_m = 0
    simp [Input.none, h5]

theorem quiet_run (exp : α → α) (ds : List (Draw α)) :
    ∀ (M : Model α), Quiet M →
      (run exp M (ds.map (fun d => (Input.none, d)))).S.V_m = M.S.V_m * M.V.P22 ^ ds.length := by
  induction ds with
  | nil =>
    intro M _
    simp [run]
  | cons d ds ih =>
    intro M hq
    obtain ⟨h1, h2, h3⟩ := quiet_step exp M d hq
    simp only [List.map_cons, run, List.length_cons]
    rw [ih _ h2, h1, h3]
    ring

theorem n_spikes_of_range (exp : α → α) (M : Model α) (inp : Input α) (d : Draw α)
    (hv : Validated M.P) (hd : M.P.BinoRand = true → DrawOK M.P d) :
    0 ≤ n_spikes_of exp M inp d ∧ n_spikes_of exp M inp d ≤ M.P.N := by
  have hN : 0 ≤ M.P.N := ((validated_iff M.P).mp hv).2.2.2.2.2.2.1.le
  unfold n_spikes_of
  split_ifs with hb
  · exact draw_binomial_range _ _ _ hN (hd hb)
  · exact draw_poisson_range _ _ _ _ _ hN

theorem reachable_n_bounds (exp : α → α) (h : α) (ms_to_steps : α → Int) (M : Model α)
    (hr : Reachable exp h ms_to_steps M) :
    ∀ a ∈ M.V.n, 0 ≤ a ∧ a ≤ (M.P.N : α) := by
  induction hr with
  | calibrated M0 M hv hh hinit hc =>
    have hV := (calibrate_first_validated exp h ms_to_steps M0 M hinit hc hv).1
    have hN : (0 : α) ≤ (M.P.N : α) := by
      exact_mod_cast ((validated_iff M.P).mp hV).2.2.2.2.2.2.1.le
    rw [(calibrate_first exp h ms_to_steps M0 M hinit hc).2.2.2.2.2.1]
    apply forall_mem_set
    · intro a ha
      rw [List.eq_of_mem_replicate ha]
      exact ⟨le_refl _, hN⟩
    · exact ⟨hN, le_refl _⟩
  | step M inp d hr hd ih =>
    have hV := (reachable_validated exp h ms_to_steps M hr).1
    have hns := n_spikes_of_range exp M inp d hV (fun _ => hd)
    show ∀ a ∈ M.V.n.set M.V.k0.toNat (n_spikes_of exp M inp d : α),
      0 ≤ a ∧ a ≤ (M.P.N : α)
    apply forall_mem_set _ _ _ _ ih
    constructor
    · exact_mod_cast hns.1
    · exact_mod_cast hns.2

theorem updateValue_eq_getD {β : Type} (entry : Option β) (var : β) :
    updateValue entry var = entry.getD var := by
  cases entry <;> rfl

theorem draw_poisson_cases (exp : α → α) (P : Parameters α) (V : Variables α) (d : Draw α)
    (n_expect : α) (hN : 0 < P.N) (hmin : V.min_double = ((2 : α) ^ 1022)⁻¹) :
    ((P.N : α) < n_expect → draw_poisson exp P V d n_expect = P.N)
      ∧ (n_expect ≤ V.min_double → draw_poisson exp P V d n_expect = 0)
      ∧ (n_expect ≤ 0 → draw_poisson exp P V d n_expect = 0)
      ∧ (V.min_double < n_expect → n_expect ≤ (P.N : α) →
          V.min_double < 1 - (n_expect + 1) * exp (-n_expect) →
          draw_poisson exp P V d n_expect = max 0 (min d.poisson_ldev P.N))
      ∧ (V.min_double < n_expect → n_expect ≤ (P.N : α) →
          ¬ V.min_double < 1 - (n_expect + 1) * exp (-n_expect) →
          draw_poisson exp P V d n_expect
            = max 0 (min (if d.drand < n_expect then 1 else 0) P.N)) := by
  have hpos : 0 < V.min_double := by
    rw [hmin]
    positivity
  have hlt1 : V.min_double < 1 := by
    rw [hmin]
    apply inv_lt_one_of_one_lt₀
    exact one_lt_pow₀ (by norm_num) (by norm_num)
  have hNα : (1 : α) ≤ (P.N : α) := by exact_mod_cast hN
  have clamp : ∀ n_t : Int,
      (if (if n_t > P.N then P.N else n_t) < 0 then 0 else (if n_t > P.N then P.N else n_t))
        = max 0 (min n_t P.N) := by
    intro n_t
    split_ifs <;> omega
  refine ⟨?_, ?_, ?_, ?_, ?_⟩
  · intro h1
    unfold draw_poisson
    rw [if_pos h1]
  · intro h1
    unfold draw_poisson
    rw [if_neg (not_lt.mpr (by linarith)), if_neg (not_lt.mpr h1)]
  · intro h1
    unfold draw_poisson
    rw [if_neg (not_lt.mpr (by linarith)), if_neg (not_lt.mpr (by linarith))]
  · intro h1 h2 h3
    unfold draw_poisson
    rw [if_neg (not_lt.mpr h2), if_pos h1]
    dsimp only
    rw [if_pos h3]
    exact clamp _
  · intro h1 h2 h3
    unfold draw_poisson
    rw [if_neg (not_lt.mpr h2), if_pos h1]
    dsimp only
    rw [if_neg h3]
    exact clamp _

theorem draw_binomial_cases (P : Parameters α) (n_expect : α) (hN : 0 < P.N) :
    (∀ d : Draw α, 1 ≤ n_expect / (P.N : α) → draw_binomial P d n_expect = P.N)
      ∧ (∀ d : Draw α, n_expect / (P.N : α) ≤ 0 → draw_binomial P d n_expect = 0)
      ∧ (∀ d : Draw α, n_expect < 0 → draw_binomial P d n_expect = 0)
      ∧ (∀ d : Draw α, 0 < n_expect / (P.N : α) → n_expect / (P.N : α) < 1 →
          draw_binomial P d n_expect = d.binomial_ldev)
      ∧ (∀ d d' : Draw α, 1 ≤ n_expect / (P.N : α) ∨ n_expect / (P.N : α) ≤ 0 →
          draw_binomial P d n_expect = draw_binomial P d' n_expect) := by
  have hNα : (0 : α) < (P.N : α) := by exact_mod_cast hN
  have c1 : ∀ d : Draw α, 1 ≤ n_expect / (P.N : α) → draw_binomial P d n_expect = P.N := by
    intro d h1
    unfold draw_binomial
    dsimp only
    rw [if_pos h1]
  have c2 : ∀ d : Draw α, n_expect / (P.N : α) ≤ 0 → draw_binomial P d n_expect = 0 := by
    intro d h1
    unfold draw_binomial
    dsimp only
    rw [if_neg (not_le.mpr (by linarith)), if_pos h1]
  refine ⟨c1, c2, ?_, ?_, ?_⟩
  · intro d h1
    exact c2 d (div_nonpos_of_nonpos_of_nonneg h1.le hNα.le)
  · intro d h1 h2
    unfold draw_binomial
    dsimp only
    rw [if_neg (not_le.mpr h2), if_neg (not_le.mpr h1)]
  · intro d d' h
    rcases h with h | h
    · rw [c1 d h, c1 d' h]
    · rw [c2 d h, c2 d' h]

theorem update_prefix (exp : α → α) (inputs : Int → Input α) (draws : Int → Draw α)
    (from_lag : Int) (M : Model α) (n : Nat) :
    (List.range n).foldl
      (fun (acc : Model α × List (Int × Int)) (i : Nat) =>
        let lag : Int := from_lag + (i : Int)
        let M1 := update_step exp acc.1 (inputs lag) (draws lag)
        match spike_event M1 with
        | some mult => (M1, acc.2 ++ [(lag, mult)])
        | none => (M1, acc.2))
      (M, [])
      = (state_after exp inputs draws from_lag M n,
          (List.range n).filterMap (event_at exp inputs draws from_lag M)) := by
  induction n with
  | zero => rfl
  | succ n ih =>
    rw [List.range_succ, List.foldl_append, ih, List.filterMap_append]
    simp only [List.foldl_cons, List.foldl_nil, List.filterMap_cons, List.filterMap_nil]
    unfold event_at spike_event
    simp only [state_after]
    split_ifs with hc
    · rfl
    · simp

theorem update_eq (exp : α → α) (inputs : Int → Input α) (draws : Int → Draw α)
    (from_lag to_lag : Int) (M : Model α) :
    update exp inputs draws from_lag to_lag M
      = (state_after exp inputs draws from_lag M (to_lag - from_lag).toNat,
          (List.range (to_lag - from_lag).toNat).filterMap
            (event_at exp inputs draws from_lag M)) := by
  unfold update
  exact update_prefix exp inputs draws from_lag M _

theorem filterMap_range_pairwise (f : Nat → Option (Int × Int)) (from_lag : Int)
    (hf : ∀ i e, f i = some e → e.1 = from_lag + (i : Int)) (n : Nat) :
    ((List.range n).filterMap f).Pairwise (fun a b => a.1 < b.1) := by
  induction n with
  | zero => simp
  | succ n ih =>
    rw [List.range_succ, List.filterMap_append, List.pairwise_append]
    refine ⟨ih, ?_, ?_⟩
    · cases hn : f n with
      | none => simp [hn]
      | some e => simp [hn]
    · intro a ha b hb
      rw [List.mem_filterMap] at ha hb
      obtain ⟨i, hi, hia⟩ := ha
      obtain ⟨j, hj, hjb⟩ := hb
      rw [List.mem_range] at hi
      simp only [List.mem_singleton] at hj
      subst hj
      rw [hf i a hia, hf j b hjb]
      omega

theorem event_at_lag (exp : α → α) (inputs : Int → Input α) (draws : Int → Draw α)
    (from_lag : Int) (M : Model α) (i : Nat) (e : Int × Int)
    (he : event_at exp inputs draws from_lag M i = some e) : e.1 = from_lag + (i : Int) := by
  unfold event_at at he
  split_ifs at he
  injection he with he
  rw [← he]

theorem calibrate_throws (exp : α → α) (h : α) (ms_to_steps : α → Int) (M : Model α)
    (he : M.P.tau_sfa = [] ∨ M.P.q_sfa = []) :
    (∃ msg, calibrate exp h ms_to_steps M = Except.error (Exception.BadProperty msg))
      ∧ calibrated exp h ms_to_steps M = M := by
  have key : ∃ msg, calibrate exp h ms_to_steps M
      = Except.error (Exception.BadProperty msg) := by
    unfold calibrate
    by_cases e1 : M.P.tau_sfa.length = 0
    · rw [if_pos e1]
      exact ⟨_, rfl⟩
    · have e2 : M.P.q_sfa.length = 0 := by
        rcases he with he | he
        · exact absurd (by rw [he]; rfl) e1
        · rw [he]
          rfl
      rw [if_neg e1, if_pos e2]
      exact ⟨_, rfl⟩
  refine ⟨key, ?_⟩
  obtain ⟨msg, hm⟩ := key
  unfold calibrated
  rw [hm]

theorem calibrate_ok_nonempty (exp : α → α) (h : α) (ms_to_steps : α → Int) (M M1 : Model α)
    (hc : calibrate exp h ms_to_steps M = Except.ok M1) :
    M.P.tau_sfa ≠ [] ∧ M.P.q_sfa ≠ [] := by
  constructor
  · intro he
    obtain ⟨⟨msg, hm⟩, -⟩ := calibrate_throws exp h ms_to_steps M (Or.inl he)
    rw [hm] at hc
    cases hc
  · intro he
    obtain ⟨⟨msg, hm⟩, -⟩ := calibrate_throws exp h ms_to_steps M (Or.inr he)
    rw [hm] at hc
    cases hc

theorem calibrate_again (exp : α → α) (h : α) (ms_to_steps : α → Int) (M M1 : Model α)
    (hinit : M.S.initialized = true)
    (hc : calibrate exp h ms_to_steps M = Except.ok M1) :
    M1 = { M with
      V := { M.V with
        h := h
        min_double := ((2 : α) ^ 1022)⁻¹
        R := M.P.tau_m / M.P.c_m
        P22 := exp (-h / M.P.tau_m)
        P20 := M.P.tau_m / M.P.c_m * (1 - exp (-h / M.P.tau_m))
        P11_ex := exp (-h / M.P.tau_syn_ex)
        P11_in := exp (-h / M.P.tau_syn_in) } } := by
  unfold calibrate at hc
  by_cases e1 : M.P.tau_sfa.length = 0
  · rw [if_pos e1] at hc
    cases hc
  by_cases e2 : M.P.q_sfa.length = 0
  · rw [if_neg e1, if_pos e2] at hc
    cases hc
  rw [if_neg e1, if_neg e2] at hc
  dsimp only at hc
  rw [hinit] at hc
  simp only [if_true] at hc
  injection hc with hc
  exact hc.symm

theorem calibrate_first_indep (exp : α → α) (h : α) (ms_to_steps : α → Int)
    (P : Parameters α) (S : State α) (V1 V2 : Variables α) (hinit : S.initialized = false) :
    calibrate exp h ms_to_steps { P := P, S := S, V := V1 }
      = calibrate exp h ms_to_steps { P := P, S := S, V := V2 } := by
  unfold calibrate
  dsimp only
  rw [hinit]
  simp only [Bool.false_eq_true, if_false]

theorem state_after_P (exp : α → α) (inputs : Int → Input α) (draws : Int → Draw α)
    (from_lag : Int) (M : Model α) (n : Nat) :
    (state_after exp inputs draws from_lag M n).P = M.P := by
  induction n with
  | zero => rfl
  | succ n ih =>
    show (state_after exp inputs draws from_lag M n).P = M.P
    exact ih

theorem calibrate_first_lengths (exp : α → α) (h : α) (ms_to_steps : α → Int)
    (M0 M : Model α) (hinit : M0.S.initialized = false)
    (hc : calibrate exp h ms_to_steps M0 = Except.ok M) :
    M.P.tau_sfa = M0.P.tau_sfa ∧ M.P.q_sfa = M0.P.q_sfa
      ∧ M.V.g.length = M.P.tau_sfa.length ∧ M.V.Q30.length = M.P.tau_sfa.length
      ∧ M.V.Q30K.length = M.P.tau_sfa.length := by
  obtain ⟨-, -, e3, e4, e5⟩ := calibrate_first_kernel exp h ms_to_steps M0 M hinit hc
  have eP := (calibrate_first exp h ms_to_steps M0 M hinit hc).1
  refine ⟨?_, ?_, ?_, ?_, ?_⟩
  · rw [eP]
    split_ifs <;> rfl
  · rw [eP]
    split_ifs <;> rfl
  · rw [e5]
    simp
  · rw [e4]
    simp
  · rw [e3]
    simp

theorem checked_div_of_ne (a b : α) (hb : b ≠ 0) : checked_div a b = some (a / b) := by
  unfold checked_div
  rw [if_neg hb]

theorem checked_div_zero (a : α) : checked_div a 0 = none := by
  unfold checked_div
  rw [if_pos rfl]

theorem h_tot_checked_of_ne (P : Parameters α) (S : State α) (V : Variables α) (inp : Input α)
    (hh : V.h ≠ 0) (hc : P.c_m ≠ 0) (hex : P.tau_syn_ex - P.tau_m ≠ 0)
    (hin : P.tau_syn_in - P.tau_m ≠ 0) :
    h_tot_checked P S V inp = some (h_tot_of P S V inp) := by
  unfold h_tot_checked h_tot_of
  simp only [checked_div_of_ne _ _ hh, checked_div_of_ne _ _ hc, checked_div_of_ne _ _ hex,
    checked_div_of_ne _ _ hin, Option.bind_eq_bind, Option.some_bind, Option.pure_def]

theorem h_tot_checked_ex_zero (P : Parameters α) (S : State α) (V : Variables α)
    (inp : Input α) (hex : P.tau_syn_ex - P.tau_m = 0) :
    h_tot_checked P S V inp = none := by
  unfold h_tot_checked
  rw [hex]
  simp only [checked_div_zero, Option.bind_eq_bind]
  cases checked_div inp.ex_spikes V.h <;> cases checked_div inp.in_spikes V.h <;>
    cases checked_div P.tau_syn_ex P.c_m <;> cases checked_div P.tau_syn_in P.c_m <;>
    cases checked_div S.I_syn_ex P.c_m <;> cases checked_div S.I_syn_in P.c_m <;> rfl

theorem sweep_upto_succ (exp : α → α) (M : Model α) (inp : Input α) (l : Nat) :
    sweep_upto exp M inp (l + 1)
      = sweep_body exp M.P M.V (h_tot_of M.P M.S M.V inp) (sweep_upto exp M inp l) l := by
  unfold sweep_upto
  rw [List.range_succ, List.foldl_append]
  rfl

theorem sweep_of_eq_upto (exp : α → α) (M : Model α) (inp : Input α) :
    sweep_of exp M inp = sweep_upto exp M inp (M.P.len_kernel - M.V.k_ref).toNat := rfl

theorem sweep_upto_sums (exp : α → α) (M : Model α) (inp : Input α) (n : Nat) :
    (sweep_upto exp M inp n).W
        = ∑ l in Finset.range n,
            P_lambda_at exp M inp l * (sweep_upto exp M inp l).m.getD (slot_of M l) 0
      ∧ (sweep_upto exp M inp n).Y
        = ∑ l in Finset.range n,
            P_lambda_at exp M inp l * (sweep_upto exp M inp l).v.getD (slot_of M l) 0
      ∧ (sweep_upto exp M inp n).Z
        = ∑ l in Finset.range n, (sweep_upto exp M inp l).v.getD (slot_of M l) 0 := by
  induction n with
  | zero => exact ⟨rfl, rfl, rfl⟩
  | succ n ih =>
    obtain ⟨h1, h2, h3⟩ := ih
    rw [Finset.sum_range_succ, Finset.sum_range_succ, Finset.sum_range_succ, ← h1, ← h2, ← h3,
      sweep_upto_succ]
    exact ⟨rfl, rfl, rfl⟩

theorem sum_m_eq (P : Parameters α) (V : Variables α) :
    sum_m P V = ∑ l in Finset.range P.len_kernel.toNat, V.m.getD l 0 := by
  unfold sum_m
  rw [foldl_range_add, zero_add]

theorem tmod_of_lt_two (a K : Int) (h0 : 0 ≤ a) (h1 : a < 2 * K) :
    Int.tmod a K = if a < K then a else a - K := by
  have hK : 0 < K := by omega
  rw [Int.tmod_eq_emod h0 hK.le]
  split_ifs with h
  · exact Int.emod_eq_of_lt h0 h
  · rw [Int.emod_eq_sub_self_emod]
    exact Int.emod_eq_of_lt (by omega) (by omega)

theorem tmod_range (a K : Int) (h0 : 0 ≤ a) (hK : 0 < K) :
    0 ≤ Int.tmod a K ∧ Int.tmod a K < K := by
  rw [Int.tmod_eq_emod h0 hK.le]
  exact ⟨Int.emod_nonneg _ hK.ne', Int.emod_lt_of_pos _ hK⟩

theorem sweep_upto_lengths (exp : α → α) (M : Model α) (inp : Input α) (l : Nat) :
    (sweep_upto exp M inp l).u.length = M.V.u.length
      ∧ (sweep_upto exp M inp l).lambda.length = M.V.lambda.length
      ∧ (sweep_upto exp M inp l).v.length = M.V.v.length
      ∧ (sweep_upto exp M inp l).m.length = M.V.m.length := by
  unfold sweep_upto
  apply foldl_preserves (fun s : Sweep α => s.u.length = M.V.u.length
      ∧ s.lambda.length = M.V.lambda.length ∧ s.v.length = M.V.v.length
      ∧ s.m.length = M.V.m.length)
  · exact ⟨rfl, rfl, rfl, rfl⟩
  · rintro s x ⟨h1, h2, h3, h4⟩
    unfold sweep_body
    simp only [List.length_set]
    exact ⟨h1, h2, h3, h4⟩

theorem sweep_of_lengths (exp : α → α) (M : Model α) (inp : Input α) :
    (sweep_of exp M inp).u.length = M.V.u.length
      ∧ (sweep_of exp M inp).lambda.length = M.V.lambda.length
      ∧ (sweep_of exp M inp).v.length = M.V.v.length
      ∧ (sweep_of exp M inp).m.length = M.V.m.length := by
  rw [sweep_of_eq_upto]
  exact sweep_upto_lengths exp M inp _

theorem shape_step (exp : α → α) (M : Model α) (inp : Input α) (d : Draw α) (hs : Shape M) :
    Shape (update_step exp M inp d) := by
  obtain ⟨h1, h2, h3, h4, h5, h6, h7, h8, h9⟩ := hs
  obtain ⟨s1, s2, s3, s4⟩ := sweep_of_lengths exp M inp
  have hr := tmod_range (M.V.k0 + 1) M.P.len_kernel (by omega) (by omega)
  refine ⟨?_, ?_, ?_, ?_, ?_, h6, h7, hr.1, hr.2⟩
  · show (M.V.n.set _ _).length = _
    rw [List.length_set, h1]
    rfl
  · show ((sweep_of exp M inp).m.set _ _).length = _
    rw [List.length_set, s4, h2]
    rfl
  · show ((sweep_of exp M inp).v.set _ _).length = _
    rw [List.length_set, s3, h3]
    rfl
  · show ((sweep_of exp M inp).u.set _ _).length = _
    rw [List.length_set, s1, h4]
    rfl
  · show ((sweep_of exp M inp).lambda.set _ _).length = _
    rw [List.length_set, s2, h5]
    rfl

theorem shape_run (exp : α → α) (steps : List (Input α × Draw α)) :
    ∀ M : Model α, Shape M →
      Shape (run exp M steps) ∧ (run exp M steps).P = M.P
        ∧ (run exp M steps).V.k_ref = M.V.k_ref := by
  induction steps with
  | nil => intro M hs; exact ⟨hs, rfl, rfl⟩
  | cons a rest ih =>
    intro M hs
    obtain ⟨inp, d⟩ := a
    obtain ⟨i1, i2, i3⟩ := ih (update_step exp M inp d) (shape_step exp M inp d hs)
    exact ⟨i1, i2, i3⟩

theorem get_history_size_pos (exp : α → α) (P : Parameters α) (h : α)
    (hh : 0 < h) (ht : 0 ≤ P.t_ref) : 1 ≤ get_history_size exp P h := by
  have h1 := get_history_size_gt_t_ref exp P h hh ht
  have h2 : (0 : α) < (get_history_size exp P h : α) * h := lt_of_le_of_lt ht h1
  have h3 : (0 : α) < (get_history_size exp P h : α) := by
    by_contra hcon
    have := mul_nonpos_of_nonpos_of_nonneg (not_lt.mp hcon) hh.le
    exact absurd h2 (not_lt.mpr this)
  have h4 : (0 : Int) < get_history_size exp P h := by exact_mod_cast h3
  omega

theorem calibrate_first_len_kernel (exp : α → α) (h : α) (ms_to_steps : α → Int)
    (M0 M : Model α) (hv : Validated M0.P) (hh : 0 < h) (hinit : M0.S.initialized = false)
    (hc : calibrate exp h ms_to_steps M0 = Except.ok M) :
    1 ≤ M.P.len_kernel ∧ (1 ≤ M0.P.len_kernel → M.P.len_kernel = M0.P.len_kernel)
      ∧ (M0.P.len_kernel < 1 → M.P.len_kernel = get_history_size exp M0.P h) := by
  have eP := (calibrate_first exp h ms_to_steps M0 M hinit hc).1
  have ht : 0 ≤ M0.P.t_ref := ((validated_iff M0.P).mp hv).2.2.2.2.2.2.2.2.2
  have hg := get_history_size_pos exp M0.P h hh ht
  by_cases hk : M0.P.len_kernel < 1
  · rw [if_pos hk] at eP
    rw [eP]
    exact ⟨hg, fun hcon => absurd hk (by omega), fun _ => rfl⟩
  · rw [if_neg hk] at eP
    rw [eP]
    exact ⟨by omega, fun _ => rfl, fun hcon => absurd hcon hk⟩

theorem calibrate_first_shape (exp : α → α) (h : α) (ms_to_steps : α → Int)
    (M0 M : Model α) (hinit : M0.S.initialized = false)
    (hc : calibrate exp h ms_to_steps M0 = Except.ok M) (hK : 1 ≤ M.P.len_kernel) :
    Shape M := by
  obtain ⟨-, -, -, -, -, e6, e7, e8, e9, e10, -, -, e13, -⟩ :=
    calibrate_first exp h ms_to_steps M0 M hinit hc
  obtain ⟨k1, k2, -⟩ := calibrate_first_kernel exp h ms_to_steps M0 M hinit hc
  refine ⟨?_, ?_, ?_, ?_, ?_, ?_, ?_, ?_, ?_⟩
  · rw [e6]; simp
  · rw [e7]; simp
  · rw [e8]; simp
  · rw [e9]; simp
  · rw [e10]; simp
  · rw [k1]; simp
  · rw [k2, k1]; simp
  · rw [e13]
  · rw [e13]; omega

theorem inBounds_of_shape (M : Model α) (hs : Shape M) (hk : 0 ≤ M.V.k_ref) : InBounds M := by
  obtain ⟨h1, h2, h3, h4, h5, h6, h7, h8, h9⟩ := hs
  have hk0 : M.V.k0.toNat < M.P.len_kernel.toNat := by omega
  refine ⟨⟨h8, ?_, ?_, ?_, ?_, ?_⟩, ⟨?_, ?_⟩, ?_, ?_⟩
  · rw [h1]; exact hk0
  · rw [h2]; exact hk0
  · rw [h3]; exact hk0
  · rw [h4]; exact hk0
  · rw [h5]; exact hk0
  · rw [h1]; omega
  · rw [h7]; omega
  · intro l hl
    rw [h2]; omega
  · intro l hl
    have hr := tmod_range (M.V.k0 + (l : Int)) M.P.len_kernel (by omega) (by omega)
    have hslot : slot_of M l < M.P.len_kernel.toNat := by
      unfold slot_of
      omega
    refine ⟨hr.1, ?_, ?_, ?_, ?_, ?_, ?_, ?_⟩
    · rw [h1]; exact hslot
    · rw [h2]; exact hslot
    · rw [h3]; exact hslot
    · rw [h4]; exact hslot
    · rw [h5]; exact hslot
    · rw [h6]; omega
    · rw [h7]; omega

theorem getD_set_self {β : Type} (l : List β) (i : Nat) (a dflt : β) (h : i < l.length) :
    (l.set i a).getD i dflt = a := by
  simp [List.getD_eq_getElem?_getD, h]

theorem getD_set_of_ne {β : Type} (l : List β) (i j : Nat) (a dflt : β) (h : i ≠ j) :
    (l.set i a).getD j dflt = l.getD j dflt := by
  simp [List.getD_eq_getElem?_getD, List.getElem?_set_ne h]

theorem state_after_shape (exp : α → α) (inputs : Int → Input α) (draws : Int → Draw α)
    (from_lag : Int) (M : Model α) (hs : Shape M) (n : Nat) :
    Shape (state_after exp inputs draws from_lag M n) := by
  induction n with
  | zero => exact hs
  | succ n ih => exact shape_step exp _ _ _ ih

theorem step_head_back (k0 K : Int) (h0 : 0 ≤ k0) (h1 : k0 < K) :
    (Int.tmod (Int.tmod (k0 + 1) K + (K - 1 - 0)) K).toNat = k0.toNat := by
  rw [tmod_of_lt_two (k0 + 1) K (by omega) (by omega)]
  split_ifs with h
  · rw [tmod_of_lt_two _ K (by omega) (by omega), if_neg (by omega)]
    congr 1
    omega
  · rw [tmod_of_lt_two _ K (by omega) (by omega), if_pos (by omega)]
    congr 1
    omega

theorem step_head_shift (k0 K : Int) (j : Nat) (h0 : 0 ≤ k0) (h1 : k0 < K)
    (hj : ((j + 1 : Nat) : Int) < K) :
    (Int.tmod (Int.tmod (k0 + 1) K + (K - 1 - ((j + 1 : Nat) : Int))) K).toNat
        = (Int.tmod (k0 + (K - 1 - (j : Int))) K).toNat
      ∧ k0.toNat ≠ (Int.tmod (k0 + (K - 1 - (j : Int))) K).toNat := by
  have hj2 : (j : Int) + 1 < K := by exact_mod_cast hj
  have e : (((j + 1 : Nat) : Int)) = (j : Int) + 1 := by push_cast; ring
  rw [e, tmod_of_lt_two (k0 + 1) K (by omega) (by omega),
    tmod_of_lt_two (k0 + (K - 1 - (j : Int))) K (by omega) (by omega)]
  split_ifs with h h2 h2
  · rw [tmod_of_lt_two _ K (by omega) (by omega)]
    split_ifs <;> constructor <;> omega
  · rw [tmod_of_lt_two _ K (by omega) (by omega)]
    split_ifs <;> constructor <;> omega
  · rw [tmod_of_lt_two _ K (by omega) (by omega)]
    split_ifs <;> constructor <;> omega
  · rw [tmod_of_lt_two _ K (by omega) (by omega)]
    split_ifs <;> constructor <;> omega

theorem state_after_n_age (exp : α → α) (inputs : Int → Input α) (draws : Int → Draw α)
    (from_lag : Int) (M : Model α) (hs : Shape M) (i j : Nat)
    (hj : (j : Int) < M.P.len_kernel) :
    (state_after exp inputs draws from_lag M (i + 1 + j)).V.n.getD
        (Int.tmod ((state_after exp inputs draws from_lag M (i + 1 + j)).V.k0
          + (M.P.len_kernel - 1 - (j : Int))) M.P.len_kernel).toNat 0
      = ((state_after exp inputs draws from_lag M (i + 1)).S.n_spikes : α) := by
  induction j with
  | zero =>
    obtain ⟨h1, -, -, -, -, -, -, h8, h9⟩ := state_after_shape exp inputs draws from_lag M hs i
    rw [state_after_P] at h1 h9
    show ((state_after exp inputs draws from_lag M i).V.n.set _ _).getD
      (Int.tmod (Int.tmod ((state_after exp inputs draws from_lag M i).V.k0 + 1)
        (state_after exp inputs draws from_lag M i).P.len_kernel
          + (M.P.len_kernel - 1 - ((0 : Nat) : Int))) M.P.len_kernel).toNat 0 = _
    rw [state_after_P]
    have e0 : ((0 : Nat) : Int) = 0 := rfl
    rw [e0, step_head_back _ _ h8 h9]
    rw [getD_set_self _ _ _ _ (by rw [h1]; omega)]
    rfl
  | succ j ih =>
    have hj2 : (j : Int) < M.P.len_kernel := by
      have : ((j + 1 : Nat) : Int) = (j : Int) + 1 := by push_cast; ring
      omega
    have ih2 := ih hj2
    obtain ⟨h1, -, -, -, -, -, -, h8, h9⟩ :=
      state_after_shape exp inputs draws from_lag M hs (i + 1 + j)
    rw [state_after_P] at h1 h9
    obtain ⟨e1, e2⟩ := step_head_shift _ _ j h8 h9 hj
    show ((state_after exp inputs draws from_lag M (i + 1 + j)).V.n.set
        (state_after exp inputs draws from_lag M (i + 1 + j)).V.k0.toNat _).getD
      (Int.tmod (Int.tmod ((state_after exp inputs draws from_lag M (i + 1 + j)).V.k0 + 1)
        (state_after exp inputs draws from_lag M (i + 1 + j)).P.len_kernel
          + (M.P.len_kernel - 1 - ((j + 1 : Nat) : Int))) M.P.len_kernel).toNat 0 = _
    rw [state_after_P, e1, getD_set_of_ne _ _ _ _ _ e2]
    exact ih2

theorem adapt_loop_prefix (P : Parameters α) (V : Variables α) (th : α) (n : Nat)
    (hn : n ≤ V.g.length) :
    ((List.range n).foldl
        (fun (acc : List α × α) (j : Nat) =>
          let gj := acc.1.getD j 0 * V.Q30.getD j 0
            + (1 - V.Q30.getD j 0) * V.n.getD V.k0.toNat 0 / ((P.N : α) * V.h)
          (acc.1.set j gj, acc.2 + V.Q30K.getD j 0 * gj))
        (V.g, th)).1.length = V.g.length
      ∧ ((List.range n).foldl
        (fun (acc : List α × α) (j : Nat) =>
          let gj := acc.1.getD j 0 * V.Q30.getD j 0
            + (1 - V.Q30.getD j 0) * V.n.getD V.k0.toNat 0 / ((P.N : α) * V.h)
          (acc.1.set j gj, acc.2 + V.Q30K.getD j 0 * gj))
        (V.g, th)).2
        = th + ∑ j in Finset.range n, V.Q30K.getD j 0
            * (V.g.getD j 0 * V.Q30.getD j 0
              + (1 - V.Q30.getD j 0) * V.n.getD V.k0.toNat 0 / ((P.N : α) * V.h))
      ∧ (∀ j : Nat, j < n →
          ((List.range n).foldl
            (fun (acc : List α × α) (j : Nat) =>
              let gj := acc.1.getD j 0 * V.Q30.getD j 0
                + (1 - V.Q30.getD j 0) * V.n.getD V.k0.toNat 0 / ((P.N : α) * V.h)
              (acc.1.set j gj, acc.2 + V.Q30K.getD j 0 * gj))
            (V.g, th)).1.getD j 0
          = V.g.getD j 0 * V.Q30.getD j 0
              + (1 - V.Q30.getD j 0) * V.n.getD V.k0.toNat 0 / ((P.N : α) * V.h))
      ∧ (∀ j : Nat, n ≤ j →
          ((List.range n).foldl
            (fun (acc : List α × α) (j : Nat) =>
              let gj := acc.1.getD j 0 * V.Q30.getD j 0
                + (1 - V.Q30.getD j 0) * V.n.getD V.k0.toNat 0 / ((P.N : α) * V.h)
              (acc.1.set j gj, acc.2 + V.Q30K.getD j 0 * gj))
            (V.g, th)).1.getD j 0 = V.g.getD j 0) := by
  induction n with
  | zero => simp
  | succ n ih =>
    obtain ⟨i1, i2, i3, i4⟩ := ih (by omega)
    rw [List.range_succ, List.foldl_append]
    simp only [List.foldl_cons, List.foldl_nil]
    refine ⟨?_, ?_, ?_, ?_⟩
    · rw [List.length_set, i1]
    · rw [i2, i4 n (le_refl _), Finset.sum_range_succ]
      ring
    · intro j hj
      by_cases hjn : j = n
      · subst hjn
        rw [getD_set_self _ _ _ _ (by rw [i1]; omega), i4 j (le_refl _)]
      · rw [getD_set_of_ne _ _ _ _ _ (fun e => hjn e.symm)]
        exact i3 j (by omega)
    · intro j hj
      rw [getD_set_of_ne _ _ _ _ _ (by omega)]
      exact i4 j (by omega)

theorem adapt_loop_spec (P : Parameters α) (V : Variables α) (th : α)
    (hg : P.tau_sfa.length ≤ V.g.length) :
    (adapt_loop P V th).1.length = V.g.length
      ∧ (adapt_loop P V th).2
        = th + ∑ j in Finset.range P.tau_sfa.length,
            V.Q30K.getD j 0 * (adapt_loop P V th).1.getD j 0
      ∧ ∀ j : Nat, j < P.tau_sfa.length →
          (adapt_loop P V th).1.getD j 0
            = V.g.getD j 0 * V.Q30.getD j 0
              + (1 - V.Q30.getD j 0) * V.n.getD V.k0.toNat 0 / ((P.N : α) * V.h) := by
  obtain ⟨i1, i2, i3, -⟩ := adapt_loop_prefix P V th P.tau_sfa.length hg
  refine ⟨i1, ?_, i3⟩
  unfold adapt_loop
  rw [i2]
  congr 1
  apply Finset.sum_congr rfl
  intro j hj
  rw [i3 j (Finset.mem_range.mp hj)]

theorem reachable_g_length (exp : α → α) (h : α) (ms_to_steps : α → Int) (M : Model α)
    (hr : Reachable exp h ms_to_steps M) : M.P.tau_sfa.length ≤ M.V.g.length := by
  induction hr with
  | calibrated M0 M hv hh hinit hc =>
    rw [(calibrate_first_lengths exp h ms_to_steps M0 M hinit hc).2.2.1]
  | step M inp d _ _ ih =>
    show M.P.tau_sfa.length ≤ (adapt_loop M.P M.V M.P.V_T_star).1.length
    rw [(adapt_loop_spec M.P M.V M.P.V_T_star ih).1]
    exact ih

theorem theta_hat_of_eq (exp : α → α) (M : Model α) (inp : Input α) (d : Draw α)
    (hg : M.P.tau_sfa.length ≤ M.V.g.length) :
    (update_step exp M inp d).S.theta_hat
      = M.P.V_T_star
        + ∑ j in Finset.range M.P.tau_sfa.length,
            M.V.Q30K.getD j 0 * (update_step exp M inp d).V.g.getD j 0
        - M.V.n.getD 0 0 * M.V.theta_tld.getD 0 0 := by
  show (adapt_loop M.P M.V M.P.V_T_star).2 - M.V.n.getD 0 0 * M.V.theta_tld.getD 0 0 = _
  rw [(adapt_loop_spec M.P M.V M.P.V_T_star hg).2.1]
  rfl

theorem reachable_P11 (exp : α → α) (h : α) (ms_to_steps : α → Int) (M : Model α)
    (hr : Reachable exp h ms_to_steps M) :
    M.V.P11_ex = exp (-h / M.P.tau_syn_ex) ∧ M.V.P11_in = exp (-h / M.P.tau_syn_in) := by
  induction hr with
  | calibrated M0 M hv hh hinit hc =>
    have eP := (calibrate_first exp h ms_to_steps M0 M hinit hc).1
    have e1 : M.P.tau_syn_ex = M0.P.tau_syn_ex := by rw [eP]; split_ifs <;> rfl
    have e2 : M.P.tau_syn_in = M0.P.tau_syn_in := by rw [eP]; split_ifs <;> rfl
    rw [e1, e2]
    unfold calibrate at hc
    by_cases c1 : M0.P.tau_sfa.length = 0
    · rw [if_pos c1] at hc
      cases hc
    by_cases c2 : M0.P.q_sfa.length = 0
    · rw [if_neg c1, if_pos c2] at hc
      cases hc
    rw [if_neg c1, if_neg c2] at hc
    dsimp only at hc
    rw [hinit] at hc
    simp only [Bool.false_eq_true, if_false] at hc
    injection hc with hc
    subst hc
    exact ⟨rfl, rfl⟩
  | step M inp d _ _ ih => exact ih

theorem I_syn_step (c I s h tau P11 : α) (hc : c ≠ 0) :
    (s / h * (tau / c) + (I / c - s / h * (tau / c)) * P11) * c
      = P11 * I + (1 - P11) * tau * s / h := by
  have hcc : c⁻¹ * c = 1 := inv_mul_cancel₀ hc
  linear_combination (s * h⁻¹ * tau * (1 - P11) + I * P11) * hcc

theorem P_lambda_at_eq (exp : α → α) (M : Model α) (inp : Input α) (l : Nat) :
    P_lambda_at exp M inp l
      = P_lambda_of exp M.V (lambda_tld_at exp M inp l)
          ((sweep_upto exp M inp l).lambda.getD (slot_of M l) 0) := rfl

theorem sweep_upto_slot (exp : α → α) (M : Model α) (inp : Input α) (l : Nat) :
    (sweep_upto exp M inp (l + 1)).v
        = (sweep_upto exp M inp l).v.set (slot_of M l)
            ((1 - P_lambda_at exp M inp l) * (1 - P_lambda_at exp M inp l)
                * (sweep_upto exp M inp l).v.getD (slot_of M l) 0
              + P_lambda_at exp M inp l * (sweep_upto exp M inp l).m.getD (slot_of M l) 0)
      ∧ (sweep_upto exp M inp (l + 1)).m
        = (sweep_upto exp M inp l).m.set (slot_of M l)
            ((1 - P_lambda_at exp M inp l) * (sweep_upto exp M inp l).m.getD (slot_of M l) 0)
      ∧ (sweep_upto exp M inp (l + 1)).lambda
        = (sweep_upto exp M inp l).lambda.set (slot_of M l) (lambda_tld_at exp M inp l) := by
  rw [sweep_upto_succ]
  exact ⟨rfl, rfl, rfl⟩

theorem getD_replicate_zero (K k : Nat) : (List.replicate K (0 : α)).getD k 0 = 0 := by
  by_cases hk : k < K
  · simp [List.getD_eq_getElem?_getD, List.getElem?_replicate, hk]
  · simp [List.getD_eq_getElem?_getD, List.getElem?_replicate, hk]

theorem getD_map_range {β : Type} (f : Nat → β) (K k : Nat) (dflt : β) (hk : k < K) :
    ((List.range K).map f).getD k dflt = f k := by
  simp [List.getD_eq_getElem?_getD, List.getElem?_range hk]

theorem getD_map_of_lt {β γ : Type} (f : β → γ) (l : List β) (k : Nat) (b : β) (c : γ)
    (hk : k < l.length) : (l.map f).getD k c = f (l.getD k b) := by
  simp [List.getD_eq_getElem?_getD, List.getElem?_eq_getElem hk]

theorem sum_range_single (K j : Nat) (N : α) (hj : j < K) :
    ∑ l in Finset.range K, ((List.replicate K (0 : α)).set j N).getD l 0 = N := by
  rw [Finset.sum_eq_single j]
  · exact getD_set_self _ _ _ _ (by simpa using hj)
  · intro b _ hb
    rw [getD_set_of_ne _ _ _ _ _ (fun e => hb e.symm)]
    exact getD_replicate_zero K b
  · intro hcon
    exact absurd (Finset.mem_range.mpr hj) hcon

theorem calibrate_first_slots (exp : α → α) (h : α) (ms_to_steps : α → Int)
    (M0 M : Model α) (hinit : M0.S.initialized = false)
    (hc : calibrate exp h ms_to_steps M0 = Except.ok M) (hK : 1 ≤ M.P.len_kernel) :
    M.V.n.getD (M.P.len_kernel - 1).toNat 0 = (M.P.N : α)
      ∧ M.V.m.getD (M.P.len_kernel - 1).toNat 0 = (M.P.N : α)
      ∧ (∀ k : Nat, (k : Int) < M.P.len_kernel - 1 →
          M.V.n.getD k 0 = 0 ∧ M.V.m.getD k 0 = 0)
      ∧ sum_m M.P M.V + M.V.x = (M.P.N : α) := by
  obtain ⟨-, -, -, -, -, e6, e7, -, -, -, e11, -, -, -⟩ :=
    calibrate_first exp h ms_to_steps M0 M hinit hc
  have hlt : (M.P.len_kernel - 1).toNat < M.P.len_kernel.toNat := by omega
  refine ⟨?_, ?_, ?_, ?_⟩
  · rw [e6]
    exact getD_set_self _ _ _ _ (by simpa using hlt)
  · rw [e7]
    exact getD_set_self _ _ _ _ (by simpa using hlt)
  · intro k hk
    have hne : (M.P.len_kernel - 1).toNat ≠ k := by omega
    rw [e6, e7, getD_set_of_ne _ _ _ _ _ hne]
    exact ⟨getD_replicate_zero _ k, getD_replicate_zero _ k⟩
  · rw [sum_m_eq, e7, e11, add_zero]
    exact sum_range_single _ _ _ hlt

theorem calibrate_first_kernel_at (exp : α → α) (h : α) (ms_to_steps : α → Int)
    (M0 M : Model α) (hinit : M0.S.initialized = false)
    (hc : calibrate exp h ms_to_steps M0 = Except.ok M) :
    (∀ k : Nat, (k : Int) < M.P.len_kernel →
        M.V.theta.getD k 0 = adaptation_kernel exp M.P h (M.P.len_kernel - (k : Int))
          ∧ M.V.theta_tld.getD k 0
            = M.P.Delta_V * (1 - exp (-(M.V.theta.getD k 0) / M.P.Delta_V)) / (M.P.N : α))
      ∧ ∀ j : Nat, j < M.P.tau_sfa.length →
          M.V.g.getD j 0 = 0
            ∧ M.V.Q30.getD j 0 = exp (-h / M.P.tau_sfa.getD j 0)
            ∧ M.V.Q30K.getD j 0
              = M.P.q_sfa.getD j 0 * M.P.tau_sfa.getD j 0
                * exp (-h * (M.P.len_kernel : α) / M.P.tau_sfa.getD j 0) := by
  obtain ⟨k1, k2, k3, k4, k5⟩ := calibrate_first_kernel exp h ms_to_steps M0 M hinit hc
  constructor
  · intro k hk
    have hk2 : k < M.P.len_kernel.toNat := by omega
    have hlen : k < M.V.theta.length := by rw [k1]; simpa using hk2
    constructor
    · rw [k1]
      exact getD_map_range _ _ _ _ hk2
    · rw [k2]
      exact getD_map_of_lt _ _ _ 0 0 hlen
  · intro j hj
    refine ⟨?_, ?_, ?_⟩
    · rw [k5]
      exact getD_replicate_zero _ j
    · rw [k4]
      exact getD_map_range _ _ _ _ hj
    · rw [k3]
      exact getD_map_range _ _ _ _ hj

theorem reachableNonneg_of_reachable (exp : α → α) (h : α) (ms_to_steps : α → Int)
    (M : Model α) (hr : Reachable exp h ms_to_steps M) :
    ReachableNonneg exp h ms_to_steps M := by
  induction hr with
  | calibrated M0 M hv hh hinit hc => exact ReachableNonneg.calibrated M0 M hv hh hinit hc
  | step M inp d hr hd ih =>
    exact ReachableNonneg.step M inp d ih
      (n_spikes_of_range exp M inp d
        (reachable_validated exp h ms_to_steps M hr).1 (fun _ => hd)).1

theorem reachableNonneg_validated (exp : α → α) (h : α) (ms_to_steps : α → Int) (M : Model α)
    (hr : ReachableNonneg exp h ms_to_steps M) : Validated M.P ∧ M.V.h = h ∧ 0 < h := by
  induction hr with
  | calibrated M0 M hv hh hinit hc =>
    exact ⟨(calibrate_first_validated exp h ms_to_steps M0 M hinit hc hv).1,
      (calibrate_first exp h ms_to_steps M0 M hinit hc).2.1, hh⟩
  | step M inp d _ _ ih => exact ih

theorem rate_step_rectified (nl : rate_neuron_ipn.Nonlinearities α)
    (P : rate_neuron_ipn.Parameters α) (V : rate_neuron_ipn.Variables α)
    (S : rate_neuron_ipn.State α) (B : rate_neuron_ipn.Buffers α)
    (hr : P.rectify_output = true) :
    0 ≤ (rate_neuron_ipn.update_step nl P V S B).rate := by
  unfold rate_neuron_ipn.update_step
  dsimp only
  split_ifs with h1 h2 h3 h4 h5 h6 <;>
    first
      | exact le_refl _
      | (rw [hr] at *; simp only [true_and, not_lt] at *; assumption)

theorem rate_update_last (nl : rate_neuron_ipn.Nonlinearities α)
    (P : rate_neuron_ipn.Parameters α) (V : rate_neuron_ipn.Variables α)
    (buffers : Int → rate_neuron_ipn.Buffers α) (from_lag to_lag : Int)
    (S : rate_neuron_ipn.State α) (hlt : from_lag < to_lag) :
    ∃ (S1 : rate_neuron_ipn.State α) (B : rate_neuron_ipn.Buffers α),
      (rate_neuron_ipn.update_ nl P V buffers from_lag to_lag S).1
        = rate_neuron_ipn.update_step nl P V S1 B := by
  unfold rate_neuron_ipn.update_
  obtain ⟨n, hn⟩ : ∃ n : Nat, (to_lag - from_lag).toNat = n + 1 :=
    ⟨(to_lag - from_lag).toNat - 1, by omega⟩
  rw [hn, List.range_succ, List.foldl_append]
  exact ⟨_, _, rfl⟩

theorem escrate_nonneg_of (exp : α → α) (h0 : ∀ x, 0 ≤ exp x) (P : Parameters α) (x : α)
    (hl : 0 ≤ P.lambda_0) : 0 ≤ escrate exp P x :=
  mul_nonneg hl (h0 _)

theorem P_lambda_of_unit (exp : α → α) (h0 : ∀ x, 0 ≤ exp x) (h1 : ∀ x, x ≤ 0 → exp x ≤ 1)
    (V : Variables α) (lt lk : α) (hh : 0 < V.h) (hlt : 0 ≤ lt) (hlk : 0 ≤ lk) :
    0 ≤ P_lambda_of exp V lt lk ∧ P_lambda_of exp V lt lk ≤ 1 := by
  unfold P_lambda_of
  dsimp only
  have ha : 0 ≤ 1 / 2 * (lt + lk) * V.h / 1000 := by positivity
  split_ifs with hc
  · constructor
    · have := h1 _ (neg_nonpos.mpr ha)
      linarith
    · have := h0 (-(1 / 2 * (lt + lk) * V.h / 1000))
      linarith
  · refine ⟨ha, ?_⟩
    have := not_lt.mp hc
    have h100 : (1 : α) / 100 ≤ 1 := by norm_num
    exact le_trans this h100

theorem P_free_of_unit (exp : α → α) (h0 : ∀ x, 0 ≤ exp x) (h1 : ∀ x, x ≤ 0 → exp x ≤ 1)
    (M : Model α) (inp : Input α) (hh : 0 < M.V.h) (hl : 0 ≤ M.P.lambda_0)
    (hf : 0 ≤ M.V.lambda_free) :
    0 ≤ P_free_of exp M inp ∧ P_free_of exp M inp ≤ 1 := by
  unfold P_free_of
  have hlf : 0 ≤ lambda_free_of exp M inp := escrate_nonneg_of exp h0 _ _ hl
  have ha : -(1 / 2) * (M.V.lambda_free + lambda_free_of exp M inp) * M.V.h / 1000 ≤ 0 := by
    have : 0 ≤ 1 / 2 * (M.V.lambda_free + lambda_free_of exp M inp) * M.V.h / 1000 := by
      positivity
    linarith
  constructor
  · have := h1 _ ha
    linarith
  · have := h0 (-(1 / 2) * (M.V.lambda_free + lambda_free_of exp M inp) * M.V.h / 1000)
    linarith

theorem sweep_unit (exp : α → α) (h0 : ∀ x, 0 ≤ exp x) (h1 : ∀ x, x ≤ 0 → exp x ≤ 1)
    (P : Parameters α) (V : Variables α) (h_tot theta_hat : α)
    (hh : 0 < V.h) (hl : 0 ≤ P.lambda_0) (hm : ∀ a ∈ V.m, 0 ≤ a) (hv : ∀ a ∈ V.v, 0 ≤ a)
    (hlam : ∀ a ∈ V.lambda, 0 ≤ a) :
    (∀ a ∈ (sweep exp P V h_tot theta_hat).m, 0 ≤ a)
      ∧ (∀ a ∈ (sweep exp P V h_tot theta_hat).v, 0 ≤ a)
      ∧ (∀ a ∈ (sweep exp P V h_tot theta_hat).lambda, 0 ≤ a)
      ∧ 0 ≤ (sweep exp P V h_tot theta_hat).Y
      ∧ 0 ≤ (sweep exp P V h_tot theta_hat).Z
      ∧ 0 ≤ (sweep exp P V h_tot theta_hat).W
      ∧ (sweep exp P V h_tot theta_hat).Y ≤ (sweep exp P V h_tot theta_hat).Z := by
  unfold sweep
  apply foldl_preserves (fun s : Sweep α => (∀ a ∈ s.m, 0 ≤ a) ∧ (∀ a ∈ s.v, 0 ≤ a)
    ∧ (∀ a ∈ s.lambda, 0 ≤ a) ∧ 0 ≤ s.Y ∧ 0 ≤ s.Z ∧ 0 ≤ s.W ∧ s.Y ≤ s.Z)
  · exact ⟨hm, hv, hlam, le_refl _, le_refl _, le_refl _, le_refl _⟩
  · rintro s l ⟨i1, i2, i3, i4, i5, i6, i7⟩
    have gm : ∀ k : Nat, 0 ≤ s.m.getD k 0 :=
      fun k => getD_of_forall (fun a => 0 ≤ a) s.m k 0 i1 (le_refl _)
    have gv : ∀ k : Nat, 0 ≤ s.v.getD k 0 :=
      fun k => getD_of_forall (fun a => 0 ≤ a) s.v k 0 i2 (le_refl _)
    have gl : ∀ k : Nat, 0 ≤ s.lambda.getD k 0 :=
      fun k => getD_of_forall (fun a => 0 ≤ a) s.lambda k 0 i3 (le_refl _)
    unfold sweep_body
    dsimp only
    have he : ∀ x : α, 0 ≤ escrate exp P x := fun x => escrate_nonneg_of exp h0 P x hl
    have hP := fun (x : α) (k : Nat) =>
      P_lambda_of_unit exp h0 h1 V (escrate exp P x) (s.lambda.getD k 0) hh (he x) (gl k)
    refine ⟨?_, ?_, ?_, ?_, ?_, ?_, ?_⟩
    · apply forall_mem_set _ _ _ _ i1
      exact mul_nonneg (sub_nonneg.mpr (hP _ _).2) (gm _)
    · apply forall_mem_set _ _ _ _ i2
      exact add_nonneg (mul_nonneg (mul_self_nonneg _) (gv _)) (mul_nonneg (hP _ _).1 (gm _))
    · exact forall_mem_set _ _ _ _ i3 (he _)
    · exact add_nonneg i4 (mul_nonneg (hP _ _).1 (gv _))
    · exact add_nonneg i5 (gv _)
    · exact add_nonneg i6 (mul_nonneg (hP _ _).1 (gm _))
    · have := mul_le_of_le_one_left (gv ((Int.tmod (V.k0 + (l : Int)) P.len_kernel).toNat))
        (hP ((s.u.getD (Int.tmod (V.k0 + (l : Int)) P.len_kernel).toNat 0 - P.E_L) * V.P22
          + h_tot - (V.theta.getD l 0 + s.theta_hat))
          (Int.tmod (V.k0 + (l : Int)) P.len_kernel).toNat).2
      linarith

theorem nonneg_step_of (exp : α → α) (h0 : ∀ x, 0 ≤ exp x) (h1 : ∀ x, x ≤ 0 → exp x ≤ 1)
    (M : Model α) (inp : Input α) (d : Draw α) (hl : 0 ≤ M.P.lambda_0)
    (hh : 0 < M.V.h) (hn : NonNeg M.V) (hns : 0 ≤ n_spikes_of exp M inp d) :
    NonNeg (update_step exp M inp d).V := by
  obtain ⟨hm, hv, hlam, hx, hz, hf⟩ := hn
  obtain ⟨s1, s2, s3, -, -, -, -⟩ := sweep_unit exp h0 h1 M.P M.V (h_tot_of M.P M.S M.V inp)
    (theta_hat_of M) hh hl hm hv hlam
  obtain ⟨p1, p2⟩ := P_free_of_unit exp h0 h1 M inp hh hl hf
  have hnsR : (0 : α) ≤ (n_spikes_of exp M inp d : α) := by exact_mod_cast hns
  refine ⟨?_, ?_, ?_, ?_, ?_, ?_⟩
  · exact forall_mem_set _ _ _ _ s1 hnsR
  · exact forall_mem_set _ _ _ _ s2 (le_refl _)
  · exact forall_mem_set _ _ _ _ s3 (le_refl _)
  · show 0 ≤ M.V.x * (1 - P_free_of exp M inp) + (sweep_of exp M inp).m.getD _ 0
    exact add_nonneg (mul_nonneg hx (sub_nonneg.mpr p2))
      (getD_of_forall (fun a => 0 ≤ a) _ _ 0 s1 (le_refl _))
  · show 0 ≤ (1 - P_free_of exp M inp) * (1 - P_free_of exp M inp) * M.V.z
      + M.V.x * P_free_of exp M inp + (sweep_of exp M inp).v.getD _ 0
    exact add_nonneg (add_nonneg (mul_nonneg (mul_self_nonneg _) hz) (mul_nonneg hx p1))
      (getD_of_forall (fun a => 0 ≤ a) _ _ 0 s2 (le_refl _))
  · exact escrate_nonneg_of exp h0 _ _ hl

theorem calibrate_first_nonneg (exp : α → α) (h : α) (ms_to_steps : α → Int)
    (M0 M : Model α) (hv : Validated M0.P) (hinit : M0.S.initialized = false)
    (hc : calibrate exp h ms_to_steps M0 = Except.ok M) : NonNeg M.V := by
  have hV := (calibrate_first_validated exp h ms_to_steps M0 M hinit hc hv).1
  have hN : (0 : α) ≤ (M.P.N : α) := by
    exact_mod_cast ((validated_iff M.P).mp hV).2.2.2.2.2.2.1.le
  obtain ⟨-, -, -, -, e5, -, e7, e8, -, e10, e11, e12, -⟩ :=
    calibrate_first exp h ms_to_steps M0 M hinit hc
  refine ⟨?_, ?_, ?_, ?_, ?_, ?_⟩
  · rw [e7]
    apply forall_mem_set _ _ _ _ _ hN
    intro a ha
    rw [List.eq_of_mem_replicate ha]
  · rw [e8]
    intro a ha
    rw [List.eq_of_mem_replicate ha]
  · rw [e10]
    intro a ha
    rw [List.eq_of_mem_replicate ha]
  · rw [e11]
  · rw [e12]
  · rw [e5]

theorem reachableNonneg_nonneg_of (exp : α → α) (h0 : ∀ x, 0 ≤ exp x)
    (h1 : ∀ x, x ≤ 0 → exp x ≤ 1) (h : α) (ms_to_steps : α → Int) (M : Model α)
    (hr : ReachableNonneg exp h ms_to_steps M) : NonNeg M.V := by
  induction hr with
  | calibrated M0 M hv hh hinit hc =>
    exact calibrate_first_nonneg exp h ms_to_steps M0 M hv hinit hc
  | step M inp d hr hd ih =>
    obtain ⟨hV, hh1, hh2⟩ := reachableNonneg_validated exp h ms_to_steps M hr
    have hl : 0 ≤ M.P.lambda_0 := ((validated_iff M.P).mp hV).2.2.2.2.2.2.2.1
    exact nonneg_step_of exp h0 h1 M inp d hl (by rw [hh1]; exact hh2) ih hd

theorem P_Lambda_of_unit (Y Z z P_free : α) (hY : 0 ≤ Y) (hYZ : Y ≤ Z) (hz : 0 ≤ z)
    (hP0 : 0 ≤ P_free) (hP1 : P_free ≤ 1) :
    0 ≤ P_Lambda_of Y Z z P_free ∧ P_Lambda_of Y Z z P_free ≤ 1 := by
  unfold P_Lambda_of
  split_ifs with hc
  · constructor
    · exact div_nonneg (add_nonneg hY (mul_nonneg hP0 hz)) hc.le
    · rw [div_le_one hc]
      have := mul_le_of_le_one_left hz hP1
      linarith
  · exact ⟨le_refl _, zero_le_one⟩

theorem P_Lambda_unit (exp : α → α) (h0 : ∀ x, 0 ≤ exp x) (h1 : ∀ x, x ≤ 0 → exp x ≤ 1)
    (M : Model α) (inp : Input α) (hl : 0 ≤ M.P.lambda_0)
    (hh : 0 < M.V.h) (hn : NonNeg M.V) :
    0 ≤ (sweep_of exp M inp).Z + M.V.z
      ∧ 0 ≤ P_Lambda_of (sweep_of exp M inp).Y (sweep_of exp M inp).Z M.V.z
          (P_free_of exp M inp)
      ∧ P_Lambda_of (sweep_of exp M inp).Y (sweep_of exp M inp).Z M.V.z
          (P_free_of exp M inp) ≤ 1 := by
  obtain ⟨hm, hv, hlam, hx, hz, hf⟩ := hn
  obtain ⟨-, -, -, sY, sZ, -, sYZ⟩ := sweep_unit exp h0 h1 M.P M.V (h_tot_of M.P M.S M.V inp)
    (theta_hat_of M) hh hl hm hv hlam
  obtain ⟨p1, p2⟩ := P_free_of_unit exp h0 h1 M inp hh hl hf
  exact ⟨add_nonneg sZ hz, P_Lambda_of_unit _ _ _ _ sY sYZ hz p1 p2⟩

theorem sweep_upto_lambda_nonneg_of (exp : α → α) (h0 : ∀ x, 0 ≤ exp x) (M : Model α)
    (inp : Input α) (l : Nat) (hl : 0 ≤ M.P.lambda_0) (hlam : ∀ a ∈ M.V.lambda, 0 ≤ a) :
    ∀ a ∈ (sweep_upto exp M inp l).lambda, 0 ≤ a := by
  unfold sweep_upto
  apply foldl_preserves (fun s : Sweep α => ∀ a ∈ s.lambda, 0 ≤ a)
  · exact hlam
  · intro s x h3
    exact forall_mem_set _ _ _ _ h3 (escrate_nonneg_of exp h0 M.P _ hl)

theorem Dbl.sub_nan_right (a : Dbl α) : Dbl.sub a Dbl.nan = Dbl.nan := by
  cases a <;> rfl

theorem draw_poisson_rounded_exact (exp : α → α) (P : Parameters α) (V : Variables α)
    (d : Draw α) (n_expect : α) :
    draw_poisson_rounded (fun x => x) exp P V d n_expect = draw_poisson exp P V d n_expect :=
  rfl

theorem draw_poisson_rounded_cases (fl : α → α) (exp : α → α) (P : Parameters α)
    (V : Variables α) (d : Draw α) (n_expect : α) (hN : 0 < P.N)
    (hmin : V.min_double = ((2 : α) ^ 1022)⁻¹) :
    ((P.N : α) < n_expect → draw_poisson_rounded fl exp P V d n_expect = P.N)
      ∧ (n_expect ≤ V.min_double → draw_poisson_rounded fl exp P V d n_expect = 0)
      ∧ (n_expect ≤ 0 → draw_poisson_rounded fl exp P V d n_expect = 0)
      ∧ (V.min_double < n_expect → n_expect ≤ (P.N : α) →
          V.min_double < fl (1 - fl (fl (n_expect + 1) * exp (-n_expect))) →
          draw_poisson_rounded fl exp P V d n_expect = max 0 (min d.poisson_ldev P.N))
      ∧ (V.min_double < n_expect → n_expect ≤ (P.N : α) →
          ¬ V.min_double < fl (1 - fl (fl (n_expect + 1) * exp (-n_expect))) →
          draw_poisson_rounded fl exp P V d n_expect
            = max 0 (min (if d.drand < n_expect then 1 else 0) P.N)) := by
  have hpos : 0 < V.min_double := by
    rw [hmin]
    positivity
  have hNα : (1 : α) ≤ (P.N : α) := by exact_mod_cast hN
  have clamp : ∀ n_t : Int,
      (if (if n_t > P.N then P.N else n_t) < 0 then 0 else (if n_t > P.N then P.N else n_t))
        = max 0 (min n_t P.N) := by
    intro n_t
    split_ifs <;> omega
  refine ⟨?_, ?_, ?_, ?_, ?_⟩
  · intro h1
    unfold draw_poisson_rounded
    rw [if_pos h1]
  · intro h1
    unfold draw_poisson_rounded
    rw [if_neg (not_lt.mpr (by linarith)), if_neg (not_lt.mpr h1)]
  · intro h1
    unfold draw_poisson_rounded
    rw [if_neg (not_lt.mpr (by linarith)), if_neg (not_lt.mpr (by linarith))]
  · intro h1 h2 h3
    unfold draw_poisson_rounded
    rw [if_neg (not_lt.mpr h2), if_pos h1]
    dsimp only
    rw [if_pos h3]
    exact clamp _
  · intro h1 h2 h3
    unfold draw_poisson_rounded
    rw [if_neg (not_lt.mpr h2), if_pos h1]
    dsimp only
    rw [if_neg h3]
    exact clamp _

theorem int_log_two_eq (r : α) (z : Int) (h1 : (2 : α) ^ z ≤ r) (h2 : r < (2 : α) ^ (z + 1)) :
    Int.log 2 r = z := by
  have hr : 0 < r := lt_of_lt_of_le (zpow_pos (by norm_num) z) h1
  have hb : 1 < 2 := by norm_num
  have a1 : z ≤ Int.log 2 r := by
    rw [← Int.zpow_le_iff_le_log hb hr]
    exact_mod_cast h1
  have a2 : Int.log 2 r < z + 1 := by
    rw [← Int.lt_zpow_iff_log_lt hb hr]
    exact_mod_cast h2
  omega

theorem round_eq_of_near (y : α) (m : Int) (h1 : (m : α) - 1 / 2 ≤ y)
    (h2 : y < (m : α) + 1 / 2) : round y = m := by
  rw [round_eq, Int.floor_eq_iff]
  constructor <;> linarith

theorem round_double_eq (x : α) (z m : Int) (h1 : (2 : α) ^ z ≤ x)
    (h2 : x < (2 : α) ^ (z + 1)) (h3 : (m : α) - 1 / 2 ≤ x / (2 : α) ^ (z - 52))
    (h4 : x / (2 : α) ^ (z - 52) < (m : α) + 1 / 2) :
    round_double x = (m : α) * (2 : α) ^ (z - 52) := by
  have hx : 0 < x := lt_of_lt_of_le (zpow_pos (by norm_num) z) h1
  unfold round_double ulp
  rw [abs_of_pos hx, int_log_two_eq x z h1 h2, round_eq_of_near _ m h3 h4]

theorem round_double_zero : round_double (0 : α) = 0 := by
  unfold round_double
  simp

theorem round_double_one : round_double (1 : α) = 1 := by
  have h := round_double_eq (1 : α) 0 (2 ^ 52) (by norm_num) (by norm_num)
    (by norm_num) (by norm_num)
  rw [h]
  norm_num

theorem round_double_error (x : α) (z : Int) (h1 : (2 : α) ^ z ≤ x)
    (h2 : x < (2 : α) ^ (z + 1)) :
    x - (2 : α) ^ (z - 53) ≤ round_double x ∧ round_double x ≤ x + (2 : α) ^ (z - 53) := by
  have hx : 0 < x := lt_of_lt_of_le (zpow_pos (by norm_num) z) h1
  have hu : (0 : α) < (2 : α) ^ (z - 52) := zpow_pos (by norm_num) _
  have e53 : (2 : α) ^ (z - 53) = (2 : α) ^ (z - 52) / 2 := by
    have : z - 53 = (z - 52) - 1 := by ring
    rw [this, zpow_sub_one₀ (by norm_num), div_eq_mul_inv]
  unfold round_double ulp
  rw [abs_of_pos hx, int_log_two_eq x z h1 h2]
  have hr := abs_le.mp (abs_sub_round (x / (2 : α) ^ (z - 52)))
  have hxu : x = x / (2 : α) ^ (z - 52) * (2 : α) ^ (z - 52) := by
    rw [div_mul_cancel₀ _ hu.ne']
  rw [e53]
  constructor
  · have := mul_le_mul_of_nonneg_right hr.2 hu.le
    nlinarith
  · have := mul_le_mul_of_nonneg_right hr.1 hu.le
    nlinarith

theorem round_double_near (x : α) (z : Int) (δ : α) (h1 : (2 : α) ^ z ≤ x)
    (h2 : x < (2 : α) ^ (z + 1)) (hδ : (2 : α) ^ (z - 53) ≤ δ) :
    x - δ ≤ round_double x ∧ round_double x ≤ x + δ := by
  obtain ⟨c1, c2⟩ := round_double_error x z h1 h2
  generalize (2 : α) ^ (z - 53) = u at hδ c1 c2
  constructor <;> linarith

end Lemmas

/-! ## Lemmas on the real model -/

section RealLemmas

theorem escrate_nonneg (P : Parameters ℝ) (x : ℝ) (hl : 0 ≤ P.lambda_0) :
    0 ≤ escrate Real.exp P x :=
  mul_nonneg hl (Real.exp_pos _).le

theorem P_lambda_of_bounds (V : Variables ℝ) (lt lk : ℝ) (hh : 0 < V.h) (h1 : 0 ≤ lt)
    (h2 : 0 ≤ lk) :
    0 ≤ P_lambda_of Real.exp V lt lk ∧ P_lambda_of Real.exp V lt lk < 1 := by
  unfold P_lambda_of
  dsimp only
  have ha : 0 ≤ 1 / 2 * (lt + lk) * V.h / 1000 := by positivity
  split_ifs with hc
  · constructor
    · have := Real.exp_le_one_iff.mpr (neg_nonpos.mpr ha)
      linarith
    · have := Real.exp_pos (-(1 / 2 * (lt + lk) * V.h / 1000))
      linarith
  · exact ⟨ha, by linarith [not_lt.mp hc]⟩

theorem P_free_of_bounds (M : Model ℝ) (inp : Input ℝ) (hh : 0 < M.V.h)
    (hl : 0 ≤ M.P.lambda_0) (hf : 0 ≤ M.V.lambda_free) :
    0 ≤ P_free_of Real.exp M inp ∧ P_free_of Real.exp M inp < 1 := by
  unfold P_free_of
  have h1 : 0 ≤ lambda_free_of Real.exp M inp := escrate_nonneg _ _ hl
  have ha : -(1 / 2) * (M.V.lambda_free + lambda_free_of Real.exp M inp) * M.V.h / 1000 ≤ 0 := by
    have : 0 ≤ 1 / 2 * (M.V.lambda_free + lambda_free_of Real.exp M inp) * M.V.h / 1000 := by
      positivity
    linarith
  constructor
  · have := Real.exp_le_one_iff.mpr ha
    linarith
  · have := Real.exp_pos
      (-(1 / 2) * (M.V.lambda_free + lambda_free_of Real.exp M inp) * M.V.h / 1000)
    linarith

theorem sweep_nonneg (P : Parameters ℝ) (V : Variables ℝ) (h_tot theta_hat : ℝ)
    (hh : 0 < V.h) (hl : 0 ≤ P.lambda_0) (hm : ∀ a ∈ V.m, 0 ≤ a) (hv : ∀ a ∈ V.v, 0 ≤ a)
    (hlam : ∀ a ∈ V.lambda, 0 ≤ a) :
    (∀ a ∈ (sweep Real.exp P V h_tot theta_hat).m, 0 ≤ a)
      ∧ (∀ a ∈ (sweep Real.exp P V h_tot theta_hat).v, 0 ≤ a)
      ∧ (∀ a ∈ (sweep Real.exp P V h_tot theta_hat).lambda, 0 ≤ a)
      ∧ 0 ≤ (sweep Real.exp P V h_tot theta_hat).Y
      ∧ 0 ≤ (sweep Real.exp P V h_tot theta_hat).Z
      ∧ 0 ≤ (sweep Real.exp P V h_tot theta_hat).W := by
  unfold sweep
  apply foldl_preserves (fun s : Sweep ℝ => (∀ a ∈ s.m, 0 ≤ a) ∧ (∀ a ∈ s.v, 0 ≤ a)
    ∧ (∀ a ∈ s.lambda, 0 ≤ a) ∧ 0 ≤ s.Y ∧ 0 ≤ s.Z ∧ 0 ≤ s.W)
  · exact ⟨hm, hv, hlam, le_refl _, le_refl _, le_refl _⟩
  · rintro s l ⟨h1, h2, h3, h4, h5, h6⟩
    have gm : ∀ k : Nat, 0 ≤ s.m.getD k 0 :=
      fun k => getD_of_forall (fun a => 0 ≤ a) s.m k 0 h1 (le_refl _)
    have gv : ∀ k : Nat, 0 ≤ s.v.getD k 0 :=
      fun k => getD_of_forall (fun a => 0 ≤ a) s.v k 0 h2 (le_refl _)
    have gl : ∀ k : Nat, 0 ≤ s.lambda.getD k 0 :=
      fun k => getD_of_forall (fun a => 0 ≤ a) s.lambda k 0 h3 (le_refl _)
    unfold sweep_body
    dsimp only
    have he : ∀ x : ℝ, 0 ≤ escrate Real.exp P x := fun x => escrate_nonneg P x hl
    have hP := fun (x : ℝ) (k : Nat) =>
      P_lambda_of_bounds V (escrate Real.exp P x) (s.lambda.getD k 0) hh (he x) (gl k)
    refine ⟨?_, ?_, ?_, ?_, ?_, ?_⟩
    · apply forall_mem_set _ _ _ _ h1
      exact mul_nonneg (sub_nonneg.mpr (hP _ _).2.le) (gm _)
    · apply forall_mem_set _ _ _ _ h2
      exact add_nonneg (mul_nonneg (mul_self_nonneg _) (gv _)) (mul_nonneg (hP _ _).1 (gm _))
    · exact forall_mem_set _ _ _ _ h3 (he _)
    · exact add_nonneg h4 (mul_nonneg (hP _ _).1 (gv _))
    · exact add_nonneg h5 (gv _)
    · exact add_nonneg h6 (mul_nonneg (hP _ _).1 (gm _))

theorem nonneg_step (M : Model ℝ) (inp : Input ℝ) (d : Draw ℝ) (hl : 0 ≤ M.P.lambda_0)
    (hh : 0 < M.V.h) (hn : NonNeg M.V) (hns : 0 ≤ n_spikes_of Real.exp M inp d) :
    NonNeg (update_step Real.exp M inp d).V := by
  obtain ⟨hm, hv, hlam, hx, hz, hf⟩ := hn
  obtain ⟨s1, s2, s3, -, -, -⟩ := sweep_nonneg M.P M.V (h_tot_of M.P M.S M.V inp)
    (theta_hat_of M) hh hl hm hv hlam
  obtain ⟨p1, p2⟩ := P_free_of_bounds M inp hh hl hf
  have hnsR : (0 : ℝ) ≤ (n_spikes_of Real.exp M inp d : ℝ) := by exact_mod_cast hns
  refine ⟨?_, ?_, ?_, ?_, ?_, ?_⟩
  · exact forall_mem_set _ _ _ _ s1 hnsR
  · exact forall_mem_set _ _ _ _ s2 (le_refl _)
  · exact forall_mem_set _ _ _ _ s3 (le_refl _)
  · show 0 ≤ M.V.x * (1 - P_free_of Real.exp M inp) + (sweep_of Real.exp M inp).m.getD _ 0
    exact add_nonneg (mul_nonneg hx (by linarith))
      (getD_of_forall (fun a => 0 ≤ a) _ _ 0 s1 (le_refl _))
  · show 0 ≤ (1 - P_free_of Real.exp M inp) * (1 - P_free_of Real.exp M inp) * M.V.z
      + M.V.x * P_free_of Real.exp M inp + (sweep_of Real.exp M inp).v.getD _ 0
    exact add_nonneg (add_nonneg (mul_nonneg (mul_self_nonneg _) hz) (mul_nonneg hx p1))
      (getD_of_forall (fun a => 0 ≤ a) _ _ 0 s2 (le_refl _))
  · exact escrate_nonneg _ _ hl

theorem reachable_nonneg (h : ℝ) (ms_to_steps : ℝ → Int) (M : Model ℝ)
    (hr : Reachable Real.exp h ms_to_steps M) : NonNeg M.V := by
  induction hr with
  | calibrated M0 M hv hh hinit hc =>
    have hV := (calibrate_first_validated Real.exp h ms_to_steps M0 M hinit hc hv).1
    have hN : (0 : ℝ) ≤ (M.P.N : ℝ) := by
      exact_mod_cast ((validated_iff M.P).mp hV).2.2.2.2.2.2.1.le
    obtain ⟨-, -, -, -, e5, -, e7, e8, -, e10, e11, e12, -⟩ :=
      calibrate_first Real.exp h ms_to_steps M0 M hinit hc
    refine ⟨?_, ?_, ?_, ?_, ?_, ?_⟩
    · rw [e7]
      apply forall_mem_set _ _ _ _ _ hN
      intro a ha
      rw [List.eq_of_mem_replicate ha]
    · rw [e8]
      intro a ha
      rw [List.eq_of_mem_replicate ha]
    · rw [e10]
      intro a ha
      rw [List.eq_of_mem_replicate ha]
    · rw [e11]
    · rw [e12]
    · rw [e5]
  | step M inp d hr hd ih =>
    obtain ⟨hV, hh1, hh2⟩ := reachable_validated Real.exp h ms_to_steps M hr
    have hl : 0 ≤ M.P.lambda_0 := ((validated_iff M.P).mp hV).2.2.2.2.2.2.2.1
    exact nonneg_step M inp d hl (by rw [hh1]; exact hh2) ih
      (n_spikes_of_range Real.exp M inp d hV (fun _ => hd)).1

theorem P_Lambda_of_nonneg (Y Z z P_free : ℝ) (hY : 0 ≤ Y) (hz : 0 ≤ z) (hP : 0 ≤ P_free) :
    0 ≤ P_Lambda_of Y Z z P_free := by
  unfold P_Lambda_of
  split_ifs with hc
  · exact div_nonneg (add_nonneg hY (mul_nonneg hP hz)) hc.le
  · exact le_refl _

theorem n_expect_of_nonneg (M : Model ℝ) (inp : Input ℝ) (hl : 0 ≤ M.P.lambda_0)
    (hh : 0 < M.V.h) (hn : NonNeg M.V) (hX : sum_m M.P M.V + M.V.x ≤ (M.P.N : ℝ)) :
    0 ≤ n_expect_of Real.exp M inp := by
  obtain ⟨hm, hv, hlam, hx, hz, hf⟩ := hn
  obtain ⟨-, -, -, sY, -, sW⟩ := sweep_nonneg M.P M.V (h_tot_of M.P M.S M.V inp)
    (theta_hat_of M) hh hl hm hv hlam
  obtain ⟨p1, -⟩ := P_free_of_bounds M inp hh hl hf
  unfold n_expect_of
  have hPL := P_Lambda_of_nonneg (sweep_of Real.exp M inp).Y (sweep_of Real.exp M inp).Z
    M.V.z (P_free_of Real.exp M inp) sY hz p1
  have h3 : 0 ≤ (M.P.N : ℝ) - sum_m M.P M.V - M.V.x := by linarith
  exact add_nonneg (add_nonneg sW (mul_nonneg p1 hx)) (mul_nonneg hPL h3)

theorem P_lambda_of_pos (V : Variables ℝ) (lt lk : ℝ) (hh : 0 < V.h) (h1 : 0 < lt)
    (h2 : 0 ≤ lk) : 0 < P_lambda_of Real.exp V lt lk := by
  unfold P_lambda_of
  dsimp only
  have ha : 0 < 1 / 2 * (lt + lk) * V.h / 1000 := by positivity
  split_ifs with hc
  · have := Real.exp_lt_one_iff.mpr (neg_neg_iff_pos.mpr ha)
    linarith
  · exact ha

theorem sum_m_calibrated (K j : Nat) (N : ℝ) (hN : 0 ≤ N) :
    (List.range K).foldl (fun (X : ℝ) (l : Nat) => X + ((List.replicate K (0:ℝ)).set j N).getD l 0) 0 ≤ N := by
  rw [foldl_range_add]
  have : ∀ l, ((List.replicate K (0:ℝ)).set j N).getD l 0 = if l = j ∧ j < K then N else 0 := by
    intro l
    simp [List.getD_eq_getElem?_getD, List.getElem?_set, List.getElem?_replicate]
    split_ifs <;> simp_all
  simp only [this, zero_add]
  by_cases hj : j < K
  · simp [hj, Finset.sum_ite_eq']
  · simp [hj, hN]

theorem frame_h_tot (M : Model ℝ) (hF : Frame M) : h_tot_of M.P M.S M.V Input.none = 0 := by
  obtain ⟨hP, h1, h2, h3, -⟩ := hF
  unfold h_tot_of Input.none
  rw [hP]
  simp [Parameters.threeSlot, Parameters.defaults, h1, h2, h3]

theorem frame_theta_hat (M : Model ℝ) (hF : Frame M) : theta_hat_of M = 0 := by
  obtain ⟨hP, -, -, -, -, -, -, h8, h9, -⟩ := hF
  unfold theta_hat_of adapt_loop
  rw [h8, h9, hP]
  simp [Parameters.threeSlot, Parameters.defaults, List.range_succ]

theorem frame_sweep (M : Model ℝ) (hF : Frame M) :
    sweep_of Real.exp M Input.none
      = sweep_body Real.exp M.P M.V 0
          (sweep_body Real.exp M.P M.V 0
            (sweep_body Real.exp M.P M.V 0
              { theta_hat := 0, u := M.V.u, lambda := M.V.lambda, v := M.V.v, m := M.V.m,
                Y := 0, Z := 0, W := 0 } 0) 1) 2 := by
  unfold sweep_of sweep
  rw [frame_h_tot M hF, frame_theta_hat M hF, hF.1, hF.2.2.2.2.2.1]
  rfl

theorem frame_sweep_body (M : Model ℝ) (hF : Frame M) (s : Sweep ℝ) (l k : Nat) (hl : l < 3)
    (hk : (Int.tmod (M.V.k0 + (l : Int)) 3).toNat = k) (hs : s.theta_hat = 0) :
    sweep_body Real.exp M.P M.V 0 s l =
      { theta_hat := 0
        u := s.u.set k (s.u.getD k 0 * M.V.P22)
        lambda := s.lambda.set k (escrate Real.exp M.P (s.u.getD k 0 * M.V.P22))
        Y := s.Y + P_lambda_of Real.exp M.V (escrate Real.exp M.P (s.u.getD k 0 * M.V.P22))
              (s.lambda.getD k 0) * s.v.getD k 0
        Z := s.Z + s.v.getD k 0
        W := s.W + P_lambda_of Real.exp M.V (escrate Real.exp M.P (s.u.getD k 0 * M.V.P22))
              (s.lambda.getD k 0) * s.m.getD k 0
        v := s.v.set k
          ((1 - P_lambda_of Real.exp M.V (escrate Real.exp M.P (s.u.getD k 0 * M.V.P22))
                (s.lambda.getD k 0))
            * (1 - P_lambda_of Real.exp M.V (escrate Real.exp M.P (s.u.getD k 0 * M.V.P22))
                (s.lambda.getD k 0)) * s.v.getD k 0
            + P_lambda_of Real.exp M.V (escrate Real.exp M.P (s.u.getD k 0 * M.V.P22))
                (s.lambda.getD k 0) * s.m.getD k 0)
        m := s.m.set k
          ((1 - P_lambda_of Real.exp M.V (escrate Real.exp M.P (s.u.getD k 0 * M.V.P22))
                (s.lambda.getD k 0)) * s.m.getD k 0) } := by
  obtain ⟨hP, -, -, -, hh, hkr, hth, htt, hQ, hp22, hx, hz⟩ := hF
  have hK : M.P.len_kernel = 3 := by rw [hP]; rfl
  have hE : M.P.E_L = 0 := by rw [hP]; rfl
  have h1 : M.V.theta.getD l 0 = 0 := by
    rw [hth]
    interval_cases l <;> rfl
  have h2 : M.V.theta_tld.getD l 0 = 0 := by
    rw [htt]
    interval_cases l <;> rfl
  unfold sweep_body
  simp only [hK, hk, h1, h2, hs, hE, sub_zero, add_zero, mul_zero]

theorem frame_PL (M : Model ℝ) (hF : Frame M) (lt lk : ℝ) (hle : lt + lk ≤ 20) :
    P_lambda_of Real.exp M.V lt lk = (lt + lk) / 2000 := by
  unfold P_lambda_of
  rw [hF.2.2.2.2.1]
  dsimp only
  rw [if_neg]
  · ring
  · rw [not_lt]
    linarith

theorem frame_rate_zero (M : Model ℝ) (hF : Frame M) : escrate Real.exp M.P (0 * M.V.P22) = 10 := by
  rw [hF.1]
  simp [escrate, Parameters.threeSlot, Parameters.defaults]

theorem frame_rate_small (M : Model ℝ) (hF : Frame M) (x : ℝ) (hx : x ≤ -8) :
    0 < escrate Real.exp M.P x ∧ escrate Real.exp M.P x ≤ 2 := by
  rw [hF.1]
  have e1 : escrate Real.exp (Parameters.threeSlot : Parameters ℝ) x = 10 * Real.exp (x / 2) := rfl
  rw [e1]
  constructor
  · positivity
  · have h1 := Real.add_one_le_exp (-(x / 2))
    have h2 : Real.exp (x / 2) * Real.exp (-(x / 2)) = 1 := by
      rw [← Real.exp_add]
      simp
    have h3 : 0 < Real.exp (x / 2) := Real.exp_pos _
    nlinarith

theorem exp_neg_twentieth_bounds : (19 : ℝ) / 20 ≤ Real.exp (-1 / 20) ∧ Real.exp (-1 / 20) ≤ 1 := by
  constructor
  · have := Real.add_one_le_exp (-1 / 20)
    linarith
  · rw [Real.exp_le_one_iff]
    norm_num

theorem threeSlot_sweep_first (M : Model ℝ) (hF : Frame M) (hk : M.V.k0 = 0) (hm : M.V.m = [0, 0, 1])
    (hv : M.V.v = [0, 0, 0]) (hu : M.V.u = [0, 0, 0]) (hlam : M.V.lambda = [0, 0, 0]) :
    sweep_of Real.exp M Input.none =
      { theta_hat := 0, u := [0, 0, 0], lambda := [10, 10, 10], v := [0, 0, 1 / 200],
        m := [0, 0, 199 / 200], Y := 0, Z := 0, W := 1 / 200 } := by
  rw [frame_sweep M hF]
  rw [frame_sweep_body M hF _ 0 0 (by norm_num) (by rw [hk]; rfl) rfl]
  rw [frame_sweep_body M hF _ 1 1 (by norm_num) (by rw [hk]; rfl) rfl]
  rw [frame_sweep_body M hF _ 2 2 (by norm_num) (by rw [hk]; rfl) rfl]
  simp only [hm, hv, hu, hlam, List.getD_cons_zero, List.getD_cons_succ, List.set_cons_zero,
    List.set_cons_succ, frame_rate_zero M hF]
  rw [frame_PL M hF 10 0 (by norm_num)]
  norm_num

theorem frame_quiet (M : Model ℝ) (hF : Frame M) : Quiet M := by
  obtain ⟨hP, h1, h2, h3, -⟩ := hF
  refine ⟨?_, ?_, h1, h2, h3⟩
  · rw [hP]; rfl
  · rw [hP]; rfl

theorem frame_n_expect (M : Model ℝ) (hF : Frame M) (m0 m1 m2 : ℝ)
    (hm : M.V.m = [m0, m1, m2]) :
    n_expect_of Real.exp M Input.none
      = (sweep_of Real.exp M Input.none).W
        + (if 0 < (sweep_of Real.exp M Input.none).Z
            then (sweep_of Real.exp M Input.none).Y / (sweep_of Real.exp M Input.none).Z else 0)
          * (1 - (m0 + m1 + m2)) := by
  obtain ⟨hP, -, -, -, hh, hkr, hth, htt, hQ, hp22, hx, hz⟩ := hF
  have hsum : sum_m M.P M.V = m0 + m1 + m2 := by
    unfold sum_m
    rw [hP, hm]
    simp [Parameters.threeSlot, List.range_succ]
  have hN : ((M.P.N : Int) : ℝ) = 1 := by
    rw [hP]
    simp [Parameters.threeSlot]
  unfold n_expect_of P_Lambda_of
  rw [hsum, hx, hz, hN]
  simp

theorem frame_draw (M : Model ℝ) (hF : Frame M) (d : Draw ℝ)
    (h0 : 0 < n_expect_of Real.exp M Input.none) (h1 : n_expect_of Real.exp M Input.none < 1) :
    n_spikes_of Real.exp M Input.none d = d.binomial_ldev := by
  have hB : M.P.BinoRand = true := by rw [hF.1]; rfl
  have hN : ((M.P.N : Int) : ℝ) = 1 := by
    rw [hF.1]
    simp [Parameters.threeSlot]
  unfold n_spikes_of draw_binomial
  rw [if_pos hB, hN]
  simp only [div_one]
  rw [if_neg (not_le.mpr h1), if_neg (not_le.mpr h0)]

theorem frame_step (M : Model ℝ) (hF : Frame M) (d : Draw ℝ) (c : Nat)
    (hk : M.V.k0 = (c : Int)) (hm0 : (sweep_of Real.exp M Input.none).m.getD c 0 = 0)
    (hv0 : (sweep_of Real.exp M Input.none).v.getD c 0 = 0) :
    Frame (update_step Real.exp M Input.none d)
      ∧ (update_step Real.exp M Input.none d).V.k0 = Int.tmod ((c : Int) + 1) 3
      ∧ (update_step Real.exp M Input.none d).V.m
          = (sweep_of Real.exp M Input.none).m.set c (n_spikes_of Real.exp M Input.none d : ℝ)
      ∧ (update_step Real.exp M Input.none d).V.v = (sweep_of Real.exp M Input.none).v.set c 0
      ∧ (update_step Real.exp M Input.none d).V.u = (sweep_of Real.exp M Input.none).u.set c (-10)
      ∧ (update_step Real.exp M Input.none d).V.lambda
          = (sweep_of Real.exp M Input.none).lambda.set c 0 := by
  have hq := quiet_step Real.exp M d (frame_quiet M hF)
  obtain ⟨hP, h1, h2, h3, hh, hkr, hth, htt, hQ, hp22, hx, hz⟩ := hF
  have hc : M.V.k0.toNat = c := by rw [hk]; rfl
  refine ⟨⟨hP, hq.2.1.2.2.1, hq.2.1.2.2.2.1, hq.2.1.2.2.2.2, hh, hkr, hth, htt, hQ, hp22, ?_, ?_⟩,
    ?_, ?_, ?_, ?_, ?_⟩
  · show M.V.x * (1 - P_free_of Real.exp M Input.none)
      + (sweep_of Real.exp M Input.none).m.getD M.V.k0.toNat 0 = 0
    rw [hc, hm0, hx]
    ring
  · show (1 - P_free_of Real.exp M Input.none) * (1 - P_free_of Real.exp M Input.none) * M.V.z
      + M.V.x * P_free_of Real.exp M Input.none
      + (sweep_of Real.exp M Input.none).v.getD M.V.k0.toNat 0 = 0
    rw [hc, hv0, hx, hz]
    ring
  · show Int.tmod (M.V.k0 + 1) M.P.len_kernel = _
    rw [hk, hP]
    rfl
  · show (sweep_of Real.exp M Input.none).m.set M.V.k0.toNat _ = _
    rw [hc]
  · show (sweep_of Real.exp M Input.none).v.set M.V.k0.toNat _ = _
    rw [hc]
  · show (sweep_of Real.exp M Input.none).u.set M.V.k0.toNat M.P.V_reset = _
    rw [hc, hP]
    rfl
  · show (sweep_of Real.exp M Input.none).lambda.set M.V.k0.toNat _ = _
    rw [hc]

theorem threeSlot_sweep_second (M : Model ℝ) (hF : Frame M) (hk : M.V.k0 = 1) (hm : M.V.m = [1, 0, 199 / 200])
    (hv : M.V.v = [0, 0, 1 / 200]) (hu : M.V.u = [-10, 0, 0])
    (hlam : M.V.lambda = [0, 10, 10]) :
    ∃ e a : ℝ, 0 < e ∧ e ≤ 2 ∧ a = e / 2000 ∧
    sweep_of Real.exp M Input.none =
      { theta_hat := 0, u := [-10 * Real.exp (-1 / 20), 0, 0], lambda := [e, 10, 10],
        v := [a, 0, 29701 / 2000000],
        m := [1 - a, 0, 19701 / 20000], Y := 1 / 20000, Z := 1 / 200, W := 199 / 20000 + a } := by
  have hp := exp_neg_twentieth_bounds
  have hp22 := hF.2.2.2.2.2.2.2.2.2.1
  have hr := frame_rate_small M hF (-10 * Real.exp (-1 / 20)) (by linarith)
  refine ⟨escrate Real.exp M.P (-10 * Real.exp (-1 / 20)),
    escrate Real.exp M.P (-10 * Real.exp (-1 / 20)) / 2000, hr.1, hr.2, rfl, ?_⟩
  rw [frame_sweep M hF]
  rw [frame_sweep_body M hF _ 0 1 (by norm_num) (by rw [hk]; rfl) rfl]
  rw [frame_sweep_body M hF _ 1 2 (by norm_num) (by rw [hk]; rfl) rfl]
  rw [frame_sweep_body M hF _ 2 0 (by norm_num) (by rw [hk]; rfl) rfl]
  simp only [hm, hv, hu, hlam, List.getD_cons_zero, List.getD_cons_succ, List.set_cons_zero,
    List.set_cons_succ, frame_rate_zero M hF]
  rw [hp22]
  rw [frame_PL M hF 10 10 (by norm_num),
    frame_PL M hF (escrate Real.exp M.P (-10 * Real.exp (-1 / 20))) 0 (by linarith [hr.2])]
  norm_num

theorem threeSlot_n_expect_third (M : Model ℝ) (hF : Frame M) (hk : M.V.k0 = 2) (e a : ℝ) (he0 : 0 < e)
    (he2 : e ≤ 2) (ha : a = e / 2000) (hm : M.V.m = [1 - a, 1, 19701 / 20000])
    (hv : M.V.v = [a, 0, 29701 / 2000000]) (hu : M.V.u = [-10 * Real.exp (-1 / 20), -10, 0])
    (hlam : M.V.lambda = [e, 0, 10]) :
    n_expect_of Real.exp M Input.none < 0 := by
  have hp := exp_neg_twentieth_bounds
  have hp22 := hF.2.2.2.2.2.2.2.2.2.1
  have hr1 := frame_rate_small M hF (-10 * Real.exp (-1 / 20)) (by linarith)
  have hr2 := frame_rate_small M hF (-10 * Real.exp (-1 / 20) * Real.exp (-1 / 20))
    (by nlinarith)
  have hsw : sweep_of Real.exp M Input.none =
      { theta_hat := 0
        u := [-10 * Real.exp (-1 / 20) * Real.exp (-1 / 20), -10 * Real.exp (-1 / 20), 0]
        lambda := [escrate Real.exp M.P (-10 * Real.exp (-1 / 20) * Real.exp (-1 / 20)),
          escrate Real.exp M.P (-10 * Real.exp (-1 / 20)), 10]
        v := [(1 - (escrate Real.exp M.P (-10 * Real.exp (-1 / 20) * Real.exp (-1 / 20)) + e) / 2000)
              * (1 - (escrate Real.exp M.P (-10 * Real.exp (-1 / 20) * Real.exp (-1 / 20)) + e) / 2000) * a
              + (escrate Real.exp M.P (-10 * Real.exp (-1 / 20) * Real.exp (-1 / 20)) + e) / 2000 * (1 - a),
          escrate Real.exp M.P (-10 * Real.exp (-1 / 20)) / 2000,
          (1 - 1 / 100) * (1 - 1 / 100) * (29701 / 2000000) + 1 / 100 * (19701 / 20000)]
        m := [(1 - (escrate Real.exp M.P (-10 * Real.exp (-1 / 20) * Real.exp (-1 / 20)) + e) / 2000) * (1 - a),
          1 - escrate Real.exp M.P (-10 * Real.exp (-1 / 20)) / 2000,
          (1 - 1 / 100) * (19701 / 20000)]
        Y := 1 / 100 * (29701 / 2000000)
          + (escrate Real.exp M.P (-10 * Real.exp (-1 / 20) * Real.exp (-1 / 20)) + e) / 2000 * a
        Z := 29701 / 2000000 + a
        W := 1 / 100 * (19701 / 20000)
          + (escrate Real.exp M.P (-10 * Real.exp (-1 / 20) * Real.exp (-1 / 20)) + e) / 2000 * (1 - a)
          + escrate Real.exp M.P (-10 * Real.exp (-1 / 20)) / 2000 } := by
    rw [frame_sweep M hF]
    rw [frame_sweep_body M hF _ 0 2 (by norm_num) (by rw [hk]; rfl) rfl]
    rw [frame_sweep_body M hF _ 1 0 (by norm_num) (by rw [hk]; rfl) rfl]
    rw [frame_sweep_body M hF _ 2 1 (by norm_num) (by rw [hk]; rfl) rfl]
    simp only [hm, hv, hu, hlam, List.getD_cons_zero, List.getD_cons_succ, List.set_cons_zero,
      List.set_cons_succ, frame_rate_zero M hF]
    rw [hp22]
    rw [frame_PL M hF 10 10 (by norm_num),
      frame_PL M hF (escrate Real.exp M.P (-10 * Real.exp (-1 / 20) * Real.exp (-1 / 20))) e
        (by linarith [hr2.2]),
      frame_PL M hF (escrate Real.exp M.P (-10 * Real.exp (-1 / 20))) 0 (by linarith [hr1.2])]
    norm_num
  rw [frame_n_expect M hF _ _ _ hm, hsw]
  dsimp only
  generalize escrate Real.exp M.P (-10 * Real.exp (-1 / 20) * Real.exp (-1 / 20)) = e2 at hr2 ⊢
  generalize escrate Real.exp M.P (-10 * Real.exp (-1 / 20)) = e1 at hr1 ⊢
  have ha0 : 0 < a := by rw [ha]; positivity
  have ha1 : a ≤ 1 / 1000 := by rw [ha]; linarith
  have hZ : (0 : ℝ) < 29701 / 2000000 + a := by positivity
  rw [if_pos hZ]
  have hb0 : 0 ≤ (e2 + e) / 2000 := by linarith [hr2.1]
  have hb1 : (e2 + e) / 2000 ≤ 1 / 500 := by linarith [hr2.2]
  have hc1 : e1 / 2000 ≤ 1 / 1000 := by linarith [hr1.2]
  have hq : (9 : ℝ) / 1000
      ≤ (1 / 100 * (29701 / 2000000) + (e2 + e) / 2000 * a) / (29701 / 2000000 + a) := by
    rw [le_div_iff₀ hZ]
    have : 0 ≤ (e2 + e) / 2000 * a := mul_nonneg hb0 ha0.le
    linarith
  have hD : 1 - (1 - a + 1 + 19701 / 20000) ≤ -(198 / 100 : ℝ) := by linarith
  have hW : (e2 + e) / 2000 * (1 - a) ≤ 1 / 500 := by
    have : (e2 + e) / 2000 * (1 - a) ≤ (e2 + e) / 2000 * 1 :=
      mul_le_mul_of_nonneg_left (by linarith) hb0
    linarith
  generalize (1 / 100 * (29701 / 2000000) + (e2 + e) / 2000 * a) / (29701 / 2000000 + a) = q
    at hq ⊢
  nlinarith [mul_le_mul_of_nonneg_left hD (by linarith : (0 : ℝ) ≤ q)]


theorem sum_replicate_set_le (N : ℝ) (hN : 0 ≤ N) :
    ∀ (K j : Nat), ((List.replicate K (0 : ℝ)).set j N).sum ≤ N
  | 0, _ => by simpa using hN
  | K + 1, 0 => by simp [List.replicate_succ]
  | K + 1, j + 1 => by
    simp only [List.replicate_succ, List.set_cons_succ, List.sum_cons, zero_add]
    exact sum_replicate_set_le N hN K j

theorem calibrate_first_mass (h : ℝ) (ms_to_steps : ℝ → Int) (M0 M : Model ℝ)
    (hv : Validated M0.P) (hinit : M0.S.initialized = false)
    (hc : calibrate Real.exp h ms_to_steps M0 = Except.ok M) :
    sum_m M.P M.V + M.V.x ≤ (M.P.N : ℝ) ∧ M.V.n.sum + M.V.x ≤ (M.P.N : ℝ) := by
  have hV := (calibrate_first_validated Real.exp h ms_to_steps M0 M hinit hc hv).1
  have hN : (0 : ℝ) ≤ (M.P.N : ℝ) := by
    exact_mod_cast ((validated_iff M.P).mp hV).2.2.2.2.2.2.1.le
  obtain ⟨-, -, -, -, -, en, em, -, -, -, ex, -⟩ :=
    calibrate_first Real.exp h ms_to_steps M0 M hinit hc
  constructor
  · unfold sum_m
    rw [em, ex, add_zero]
    exact sum_m_calibrated _ _ _ hN
  · rw [en, ex, add_zero]
    exact sum_replicate_set_le _ hN _ _

theorem threeSlot_calibrated :
    Reachable Real.exp 1 (steps_of 1)
        (calibrated Real.exp 1 (steps_of 1)
          (Model.withParams (Parameters.threeSlot : Parameters ℝ)))
      ∧ Shape (calibrated Real.exp 1 (steps_of 1)
          (Model.withParams (Parameters.threeSlot : Parameters ℝ)))
      ∧ Frame (calibrated Real.exp 1 (steps_of 1)
          (Model.withParams (Parameters.threeSlot : Parameters ℝ)))
      ∧ (calibrated Real.exp 1 (steps_of 1)
          (Model.withParams (Parameters.threeSlot : Parameters ℝ))).V.k0 = 0
      ∧ (calibrated Real.exp 1 (steps_of 1)
          (Model.withParams (Parameters.threeSlot : Parameters ℝ))).V.n = [0, 0, 1]
      ∧ (calibrated Real.exp 1 (steps_of 1)
          (Model.withParams (Parameters.threeSlot : Parameters ℝ))).V.m = [0, 0, 1]
      ∧ (calibrated Real.exp 1 (steps_of 1)
          (Model.withParams (Parameters.threeSlot : Parameters ℝ))).V.v = [0, 0, 0]
      ∧ (calibrated Real.exp 1 (steps_of 1)
          (Model.withParams (Parameters.threeSlot : Parameters ℝ))).V.u = [0, 0, 0]
      ∧ (calibrated Real.exp 1 (steps_of 1)
          (Model.withParams (Parameters.threeSlot : Parameters ℝ))).V.lambda = [0, 0, 0] := by
  have hv : Validated (Model.withParams (Parameters.threeSlot : Parameters ℝ)).P := by
    rw [validated_iff]
    simp [Model.withParams, Parameters.threeSlot, Parameters.defaults]
  have hc := calibrate_ok_of_nonempty Real.exp 1 (steps_of 1)
    (Model.withParams (Parameters.threeSlot : Parameters ℝ))
    (by simp [Model.withParams, Parameters.threeSlot, Parameters.defaults])
    (by simp [Model.withParams, Parameters.threeSlot, Parameters.defaults])
  have hr := Reachable.calibrated _ _ hv (by norm_num) rfl hc
  generalize calibrated Real.exp 1 (steps_of 1)
    (Model.withParams (Parameters.threeSlot : Parameters ℝ)) = M0 at hc hr ⊢
  obtain ⟨eP, eh, -, e22, -, en, em, ev, eu, elam, ex, ez, ek0, ekref, eS⟩ :=
    calibrate_first _ _ _ _ _ rfl hc
  obtain ⟨eth, ett, eQ, -, -⟩ := calibrate_first_kernel _ _ _ _ _ rfl hc
  have eP2 : M0.P = Parameters.threeSlot := by
    rw [eP]
    simp [Model.withParams, Parameters.threeSlot, Parameters.defaults]
  have eK : M0.P.len_kernel = 3 := by rw [eP2]; rfl
  have eN : M0.P.N = 1 := by rw [eP2]; rfl
  have hsh : Shape M0 := calibrate_first_shape _ _ _ _ _ rfl hc (by rw [eK]; norm_num)
  rw [eK, eN] at em en
  rw [eK] at ev eu elam eth
  have hth : M0.V.theta = [0, 0, 0] := by
    rw [eth, eP2]
    simp [adaptation_kernel, Parameters.threeSlot, Parameters.defaults, List.range_succ]
  have htt : M0.V.theta_tld = [0, 0, 0] := by
    rw [ett, hth, eP2]
    simp [Parameters.threeSlot, Parameters.defaults]
  have hQ : M0.V.Q30K = [0] := by
    rw [eQ, eP2]
    simp [Parameters.threeSlot, Parameters.defaults, List.range_succ]
  have hF0 : Frame M0 := by
    refine ⟨eP2, ?_, ?_, ?_, eh, ?_, hth, htt, hQ, ?_, ex, ez⟩
    · rw [eS]; rfl
    · rw [eS]; rfl
    · rw [eS]; rfl
    · rw [ekref]
      simp [steps_of, Model.withParams, Parameters.threeSlot, truncToInt]
    · rw [e22]
      simp [Model.withParams, Parameters.threeSlot, Parameters.defaults]
  simp at em en ev eu elam
  exact ⟨hr, hsh, hF0, ek0, en, em, ev, eu, elam⟩

theorem threeSlot_first_step :
    (Model.threeSlotStep Real.exp).S.n_spikes = 1
      ∧ (Model.threeSlotStep Real.exp).P.len_kernel = 3
      ∧ (Model.threeSlotStep Real.exp).V.k0 = 1
      ∧ (Model.threeSlotStep Real.exp).V.n = [1, 0, 1] := by
  obtain ⟨-, -, hF0, ek0, en, em, ev, eu, elam⟩ := threeSlot_calibrated
  unfold Model.threeSlotStep
  generalize calibrated Real.exp 1 (steps_of 1)
    (Model.withParams (Parameters.threeSlot : Parameters ℝ)) = M0 at hF0 ek0 en em ev eu elam ⊢
  have hs1 := threeSlot_sweep_first M0 hF0 ek0 em ev eu elam
  have hne1 : n_expect_of Real.exp M0 Input.none = 1 / 200 := by
    rw [frame_n_expect M0 hF0 _ _ _ em, hs1]
    norm_num
  have hd1 : n_spikes_of Real.exp M0 Input.none (Draw.const 1) = 1 :=
    frame_draw M0 hF0 _ (by rw [hne1]; norm_num) (by rw [hne1]; norm_num)
  have eK : M0.P.len_kernel = 3 := by rw [hF0.1]; rfl
  refine ⟨hd1, eK, ?_, ?_⟩
  · show Int.tmod (M0.V.k0 + 1) M0.P.len_kernel = 1
    rw [ek0, eK]
    rfl
  · show M0.V.n.set M0.V.k0.toNat ((n_spikes_of Real.exp M0 Input.none (Draw.const 1) : Int) : ℝ)
      = [1, 0, 1]
    rw [hd1, en, ek0]
    simp

theorem silentThree_run :
    Reachable Real.exp 1 (steps_of 1) (Model.silentThreeRun Real.exp)
      ∧ (Model.silentThreeRun Real.exp).V.k0 = 2
      ∧ (Model.silentThreeRun Real.exp).V.n = [0, 0, 100]
      ∧ 0 < (Model.silentThreeRun Real.exp).V.theta_tld.getD 0 0 := by
  have hv : Validated (Model.withParams (Parameters.silentThree : Parameters ℝ)).P := by
    rw [validated_iff]
    simp [Model.withParams, Parameters.silentThree, Parameters.defaults]
  have hc := calibrate_ok_of_nonempty Real.exp 1 (steps_of 1)
    (Model.withParams (Parameters.silentThree : Parameters ℝ))
    (by simp [Model.withParams, Parameters.silentThree, Parameters.defaults])
    (by simp [Model.withParams, Parameters.silentThree, Parameters.defaults])
  have hr := Reachable.calibrated _ _ hv (by norm_num) rfl hc
  unfold Model.silentThreeRun
  generalize calibrated Real.exp 1 (steps_of 1)
    (Model.withParams (Parameters.silentThree : Parameters ℝ)) = M0 at hc hr ⊢
  obtain ⟨eP, -, -, -, -, en, -, -, -, -, -, -, ek0, -, -⟩ :=
    calibrate_first _ _ _ _ _ rfl hc
  obtain ⟨eth, ett, -, -, -⟩ := calibrate_first_kernel _ _ _ _ _ rfl hc
  have eP2 : M0.P = Parameters.silentThree := by
    rw [eP]
    simp [Model.withParams, Parameters.silentThree, Parameters.defaults]
  have eK : M0.P.len_kernel = 3 := by rw [eP2]; rfl
  have eN : M0.P.N = 100 := by rw [eP2]; rfl
  have eL : M0.P.lambda_0 = 0 := by rw [eP2]; rfl
  rw [eK, eN] at en
  simp at en
  have htt : 0 < M0.V.theta_tld.getD 0 0 := by
    rw [ett, eth, eP2]
    simp [adaptation_kernel, Parameters.silentThree, Parameters.defaults, List.range_succ]
    have := Real.exp_pos (-3 / 300 : ℝ)
    linarith
  have hR1 := Reachable.step M0 Input.none (Draw.const 0) hr
    (by rw [DrawOK, eN]; simp [Draw.const])
  have hs0 := reachable_silent Real.exp Real.exp_zero 1 (steps_of 1) M0 hr eL
  have hd1 := (silent_step Real.exp Real.exp_zero M0 Input.none (Draw.const 0) hs0).2.1
  have k1 : (update_step Real.exp M0 Input.none (Draw.const 0)).V.k0 = 1 := by
    show Int.tmod (M0.V.k0 + 1) M0.P.len_kernel = 1
    rw [ek0, eK]; rfl
  have n1 : (update_step Real.exp M0 Input.none (Draw.const 0)).V.n = [0, 0, 100] := by
    show M0.V.n.set M0.V.k0.toNat
      ((n_spikes_of Real.exp M0 Input.none (Draw.const 0) : Int) : ℝ) = _
    rw [hd1, en, ek0]
    simp
  have K1 : (update_step Real.exp M0 Input.none (Draw.const 0)).P.len_kernel = 3 := eK
  have L1 : (update_step Real.exp M0 Input.none (Draw.const 0)).P.lambda_0 = 0 := eL
  have N1 : (update_step Real.exp M0 Input.none (Draw.const 0)).P.N = 100 := eN
  have t1 : (update_step Real.exp M0 Input.none (Draw.const 0)).V.theta_tld
      = M0.V.theta_tld := rfl
  simp only [run]
  generalize update_step Real.exp M0 Input.none (Draw.const 0) = M1
    at hR1 k1 n1 K1 L1 N1 t1 ⊢
  have hR2 := Reachable.step M1 Input.none (Draw.const 0) hR1
    (by rw [DrawOK, N1]; simp [Draw.const])
  have hs1 := reachable_silent Real.exp Real.exp_zero 1 (steps_of 1) M1 hR1 L1
  have hd2 := (silent_step Real.exp Real.exp_zero M1 Input.none (Draw.const 0) hs1).2.1
  refine ⟨hR2, ?_, ?_, ?_⟩
  · show Int.tmod (M1.V.k0 + 1) M1.P.len_kernel = 2
    rw [k1, K1]; rfl
  · show M1.V.n.set M1.V.k0.toNat
      ((n_spikes_of Real.exp M1 Input.none (Draw.const 0) : Int) : ℝ) = _
    rw [hd2, n1, k1]
    simp
  · show 0 < M1.V.theta_tld.getD 0 0
    rw [t1]
    exact htt

theorem depolarized_calibrated :
    Reachable Real.exp (1 / 10) (steps_of (1 / 10))
        (calibrated Real.exp (1 / 10) (steps_of (1 / 10)) (Model.depolarized : Model ℝ))
      ∧ Quiet (calibrated Real.exp (1 / 10) (steps_of (1 / 10)) (Model.depolarized : Model ℝ))
      ∧ (calibrated Real.exp (1 / 10) (steps_of (1 / 10))
          (Model.depolarized : Model ℝ)).S.V_m = 10
      ∧ (calibrated Real.exp (1 / 10) (steps_of (1 / 10))
          (Model.depolarized : Model ℝ)).P.tau_m = 20
      ∧ (calibrated Real.exp (1 / 10) (steps_of (1 / 10))
          (Model.depolarized : Model ℝ)).P.tau_syn_ex = 3
      ∧ (calibrated Real.exp (1 / 10) (steps_of (1 / 10))
          (Model.depolarized : Model ℝ)).P.tau_syn_in = 6 := by
  have hc := calibrate_ok_of_nonempty Real.exp (1 / 10) (steps_of (1 / 10))
    (Model.depolarized : Model ℝ)
    (by simp [Model.depolarized, Model.fresh, Parameters.defaults])
    (by simp [Model.depolarized, Model.fresh, Parameters.defaults])
  have hv : Validated (Model.depolarized : Model ℝ).P := validated_defaults
  have hr := Reachable.calibrated _ _ hv (by norm_num) rfl hc
  have hf := calibrate_first Real.exp (1 / 10) (steps_of (1 / 10)) _ _ rfl hc
  have eS := hf.2.2.2.2.2.2.2.2.2.2.2.2.2.2
  have eP := hf.1
  have hv2 := calibrate_first_validated Real.exp (1 / 10) (steps_of (1 / 10)) _ _ rfl hc hv
  refine ⟨hr, ⟨?_, ?_, ?_, ?_, ?_⟩, ?_, ?_, ?_, ?_⟩
  · rw [hv2.2.2.1]; rfl
  · rw [hv2.2.2.2.1]; rfl
  · rw [eS]; rfl
  · rw [eS]; rfl
  · rw [eS]; rfl
  · rw [eS]; rfl
  · rw [hv2.2.1]; rfl
  · rw [eP]; split_ifs <;> rfl
  · rw [eP]; split_ifs <;> rfl

theorem exp_underflow_props :
    (∀ x : ℝ, 0 ≤ exp_underflow Real.exp x)
      ∧ (∀ x : ℝ, x ≤ 0 → exp_underflow Real.exp x ≤ 1)
      ∧ exp_underflow Real.exp 0 = 1
      ∧ (∀ x : ℝ, x < -746 → exp_underflow Real.exp x = 0) := by
  refine ⟨?_, ?_, ?_, ?_⟩
  · intro x
    unfold exp_underflow
    split_ifs
    · exact le_refl _
    · exact (Real.exp_pos x).le
  · intro x hx
    unfold exp_underflow
    split_ifs
    · exact zero_le_one
    · exact Real.exp_le_one_iff.mpr hx
  · unfold exp_underflow
    rw [if_neg (by norm_num), Real.exp_zero]
  · intro x hx
    unfold exp_underflow
    rw [if_pos hx]

theorem burst_calibrated :
    ReachableNonneg (exp_underflow Real.exp) 1 (steps_of 1)
        (calibrated (exp_underflow Real.exp) 1 (steps_of 1)
          (Model.withParams (Parameters.burst : Parameters ℝ)))
      ∧ (calibrated (exp_underflow Real.exp) 1 (steps_of 1)
          (Model.withParams (Parameters.burst : Parameters ℝ))).P = Parameters.burst
      ∧ (calibrated (exp_underflow Real.exp) 1 (steps_of 1)
          (Model.withParams (Parameters.burst : Parameters ℝ))).V.h = 1
      ∧ (calibrated (exp_underflow Real.exp) 1 (steps_of 1)
          (Model.withParams (Parameters.burst : Parameters ℝ))).V.k0 = 0
      ∧ (calibrated (exp_underflow Real.exp) 1 (steps_of 1)
          (Model.withParams (Parameters.burst : Parameters ℝ))).V.k_ref = 0
      ∧ (calibrated (exp_underflow Real.exp) 1 (steps_of 1)
          (Model.withParams (Parameters.burst : Parameters ℝ))).V.n = [1]
      ∧ (calibrated (exp_underflow Real.exp) 1 (steps_of 1)
          (Model.withParams (Parameters.burst : Parameters ℝ))).V.m = [1]
      ∧ (calibrated (exp_underflow Real.exp) 1 (steps_of 1)
          (Model.withParams (Parameters.burst : Parameters ℝ))).V.v = [0]
      ∧ (calibrated (exp_underflow Real.exp) 1 (steps_of 1)
          (Model.withParams (Parameters.burst : Parameters ℝ))).V.u = [0]
      ∧ (calibrated (exp_underflow Real.exp) 1 (steps_of 1)
          (Model.withParams (Parameters.burst : Parameters ℝ))).V.lambda = [0]
      ∧ (calibrated (exp_underflow Real.exp) 1 (steps_of 1)
          (Model.withParams (Parameters.burst : Parameters ℝ))).V.theta = [0]
      ∧ (calibrated (exp_underflow Real.exp) 1 (steps_of 1)
          (Model.withParams (Parameters.burst : Parameters ℝ))).V.theta_tld = [0]
      ∧ (calibrated (exp_underflow Real.exp) 1 (steps_of 1)
          (Model.withParams (Parameters.burst : Parameters ℝ))).V.Q30K = [0]
      ∧ (calibrated (exp_underflow Real.exp) 1 (steps_of 1)
          (Model.withParams (Parameters.burst : Parameters ℝ))).V.x = 0
      ∧ (calibrated (exp_underflow Real.exp) 1 (steps_of 1)
          (Model.withParams (Parameters.burst : Parameters ℝ))).V.z = 0
      ∧ (calibrated (exp_underflow Real.exp) 1 (steps_of 1)
          (Model.withParams (Parameters.burst : Parameters ℝ))).V.lambda_free = 0
      ∧ (calibrated (exp_underflow Real.exp) 1 (steps_of 1)
          (Model.withParams (Parameters.burst : Parameters ℝ))).S
        = { (State.defaults 0 : State ℝ) with initialized := true } := by
  have hv : Validated (Model.withParams (Parameters.burst : Parameters ℝ)).P := by
    rw [validated_iff]
    simp [Model.withParams, Parameters.burst, Parameters.defaults]
  have hc := calibrate_ok_of_nonempty (exp_underflow Real.exp) 1 (steps_of 1)
    (Model.withParams (Parameters.burst : Parameters ℝ))
    (by simp [Model.withParams, Parameters.burst, Parameters.defaults])
    (by simp [Model.withParams, Parameters.burst, Parameters.defaults])
  have hr := ReachableNonneg.calibrated _ _ hv (by norm_num) rfl hc
  generalize calibrated (exp_underflow Real.exp) 1 (steps_of 1)
    (Model.withParams (Parameters.burst : Parameters ℝ)) = M0 at hc hr ⊢
  obtain ⟨eP, eh, -, -, elf, en, em, ev, eu, elam, ex, ez, ek0, ekref, eS⟩ :=
    calibrate_first _ _ _ _ _ rfl hc
  obtain ⟨eth, ett, eQ, -, -⟩ := calibrate_first_kernel _ _ _ _ _ rfl hc
  have eP2 : M0.P = Parameters.burst := by
    rw [eP]
    simp [Model.withParams, Parameters.burst, Parameters.defaults]
  have eK : M0.P.len_kernel = 1 := by rw [eP2]; rfl
  have eN : M0.P.N = 1 := by rw [eP2]; rfl
  rw [eK, eN] at em en
  rw [eK] at ev eu elam eth
  have hth : M0.V.theta = [0] := by
    rw [eth, eP2]
    simp [adaptation_kernel, Parameters.burst, Parameters.defaults, List.range_succ]
  have htt : M0.V.theta_tld = [0] := by
    rw [ett, hth, eP2]
    simp [Parameters.burst, Parameters.defaults, exp_underflow_props.2.2.1]
  have hQ : M0.V.Q30K = [0] := by
    rw [eQ, eP2]
    simp [Parameters.burst, Parameters.defaults, List.range_succ]
  simp at em en ev eu elam
  refine ⟨hr, eP2, eh, ek0, ?_, en, em, ev, eu, elam, hth, htt, hQ, ex, ez, elf, ?_⟩
  · rw [ekref]
    simp [steps_of, Model.withParams, Parameters.burst, truncToInt]
  · rw [eS]
    rfl

theorem burst_rate (M : Model ℝ) (hP : M.P = Parameters.burst) :
    escrate (exp_underflow Real.exp) M.P 0 = 2000000 := by
  unfold escrate
  rw [hP]
  simp [Parameters.burst, Parameters.defaults, exp_underflow_props.2.2.1]

theorem burst_P_lambda (V : Variables ℝ) (hh : V.h = 1) (lk : ℝ) (hlk : 0 ≤ lk) :
    P_lambda_of (exp_underflow Real.exp) V 2000000 lk = 1 := by
  unfold P_lambda_of
  dsimp only
  rw [hh]
  have ha : (1000 : ℝ) ≤ 1 / 2 * (2000000 + lk) * 1 / 1000 := by linarith
  rw [if_pos (by linarith), exp_underflow_props.2.2.2 _ (by linarith)]
  norm_num

theorem burst_first_sweep :
    P_lambda_at (exp_underflow Real.exp)
        (calibrated (exp_underflow Real.exp) 1 (steps_of 1)
          (Model.withParams (Parameters.burst : Parameters ℝ))) Input.none 0 = 1
      ∧ sweep_of (exp_underflow Real.exp)
          (calibrated (exp_underflow Real.exp) 1 (steps_of 1)
            (Model.withParams (Parameters.burst : Parameters ℝ))) Input.none
        = { theta_hat := 0, u := [0], lambda := [2000000], v := [1], m := [0],
            Y := 0, Z := 0, W := 1 }
      ∧ lambda_free_of (exp_underflow Real.exp)
          (calibrated (exp_underflow Real.exp) 1 (steps_of 1)
            (Model.withParams (Parameters.burst : Parameters ℝ))) Input.none = 2000000 := by
  obtain ⟨-, eP, eh, ek0, ekr, en, em, ev, eu, elam, eth, ett, eQ, ex, ez, elf, eS⟩ :=
    burst_calibrated
  generalize calibrated (exp_underflow Real.exp) 1 (steps_of 1)
    (Model.withParams (Parameters.burst : Parameters ℝ)) = M
    at eP eh ek0 ekr en em ev eu elam eth ett eQ ex ez elf eS ⊢
  have eK : M.P.len_kernel = 1 := by rw [eP]; rfl
  have eEL : M.P.E_L = 0 := by rw [eP]; rfl
  have eVT : M.P.V_T_star = 0 := by rw [eP]; rfl
  have etau : M.P.tau_sfa.length = 1 := by rw [eP]; rfl
  have hht : h_tot_of M.P M.S M.V Input.none = 0 := by
    unfold h_tot_of
    rw [eS, eP]
    simp [Input.none, State.defaults, Parameters.burst, Parameters.defaults]
  have had : (adapt_loop M.P M.V M.P.V_T_star).2 = 0 := by
    unfold adapt_loop
    rw [etau, eVT, eQ]
    simp [List.range_succ]
  have hth : theta_hat_of M = 0 := by
    unfold theta_hat_of
    rw [had, ett]
    simp
  have hVm : V_m_of M Input.none = 0 := by
    unfold V_m_of
    rw [hht, eS, eEL]
    simp [State.defaults]
  have hr := burst_rate M eP
  have hP1 := burst_P_lambda M.V eh 0 (le_refl _)
  have hs : sweep_of (exp_underflow Real.exp) M Input.none
      = { theta_hat := 0, u := [0], lambda := [2000000], v := [1], m := [0],
          Y := 0, Z := 0, W := 1 } := by
    unfold sweep_of sweep
    rw [eK, ekr, hht, hth]
    simp [sweep_body, ek0, eK, em, ev, elam, eu, en, eth, ett, eEL, List.range_succ, hr, hP1]
  refine ⟨?_, hs, ?_⟩
  · unfold P_lambda_at sweep_upto slot_of
    rw [hht, hth]
    simp [ek0, eK, elam, eu, eth, eEL, hr, hP1]
  · unfold lambda_free_of
    rw [hVm, had]
    simpa using hr

theorem burst_step :
    ReachableNonneg (exp_underflow Real.exp) 1 (steps_of 1)
        (Model.burstStep (exp_underflow Real.exp))
      ∧ (Model.burstStep (exp_underflow Real.exp) : Model ℝ).P = Parameters.burst
      ∧ (Model.burstStep (exp_underflow Real.exp) : Model ℝ).V.h = 1
      ∧ (Model.burstStep (exp_underflow Real.exp) : Model ℝ).V.k0 = 0
      ∧ (Model.burstStep (exp_underflow Real.exp) : Model ℝ).V.k_ref = 0
      ∧ (Model.burstStep (exp_underflow Real.exp) : Model ℝ).V.v = [0]
      ∧ (Model.burstStep (exp_underflow Real.exp) : Model ℝ).V.z = 1
      ∧ (Model.burstStep (exp_underflow Real.exp) : Model ℝ).V.lambda_free = 2000000
      ∧ (Model.burstStep (exp_underflow Real.exp) : Model ℝ).S.n_spikes = 1 := by
  obtain ⟨hr, eP, eh, ek0, ekr, en, em, ev, eu, elam, eth, ett, eQ, ex, ez, elf, eS⟩ :=
    burst_calibrated
  obtain ⟨-, hs, hlf⟩ := burst_first_sweep
  unfold Model.burstStep
  generalize calibrated (exp_underflow Real.exp) 1 (steps_of 1)
    (Model.withParams (Parameters.burst : Parameters ℝ)) = M
    at hr eP eh ek0 ekr en em ev eu elam eth ett eQ ex ez elf eS hs hlf ⊢
  have eK : M.P.len_kernel = 1 := by rw [eP]; rfl
  have eN : M.P.N = 1 := by rw [eP]; rfl
  have eB : M.P.BinoRand = true := by rw [eP]; rfl
  have hne : n_expect_of (exp_underflow Real.exp) M Input.none = 1 := by
    unfold n_expect_of
    rw [hs, ex, ez]
    simp [P_Lambda_of]
  have hns : n_spikes_of (exp_underflow Real.exp) M Input.none (Draw.const 1) = 1 := by
    unfold n_spikes_of
    rw [if_pos eB, hne]
    unfold draw_binomial
    rw [eN]
    simp
  refine ⟨?_, eP, eh, ?_, ekr, ?_, ?_, hlf, hns⟩
  · exact ReachableNonneg.step M Input.none (Draw.const 1) hr (by rw [hns]; norm_num)
  · show Int.tmod (M.V.k0 + 1) M.P.len_kernel = 0
    rw [ek0, eK]
    rfl
  · show (sweep_of (exp_underflow Real.exp) M Input.none).v.set M.V.k0.toNat 0 = [0]
    rw [hs, ek0]
    rfl
  · show (1 - P_free_of (exp_underflow Real.exp) M Input.none)
        * (1 - P_free_of (exp_underflow Real.exp) M Input.none) * M.V.z
      + M.V.x * P_free_of (exp_underflow Real.exp) M Input.none
      + (sweep_of (exp_underflow Real.exp) M Input.none).v.getD M.V.k0.toNat 0 = 1
    rw [hs, ek0, ex, ez]
    simp

theorem burst_second_step (inp : Input ℝ) :
    (sweep_of (exp_underflow Real.exp) (Model.burstStep (exp_underflow Real.exp)) inp).Y = 0
      ∧ (sweep_of (exp_underflow Real.exp)
          (Model.burstStep (exp_underflow Real.exp)) inp).Z = 0
      ∧ P_free_of (exp_underflow Real.exp) (Model.burstStep (exp_underflow Real.exp)) inp
        = 1 := by
  obtain ⟨-, eP, eh, ek0, ekr, ev, ez, elf, -⟩ := burst_step
  generalize (Model.burstStep (exp_underflow Real.exp) : Model ℝ) = M
    at eP eh ek0 ekr ev ez elf ⊢
  have eK : M.P.len_kernel = 1 := by rw [eP]; rfl
  have eL : (0 : ℝ) ≤ M.P.lambda_0 := by rw [eP]; simp [Parameters.burst]
  refine ⟨?_, ?_, ?_⟩
  · unfold sweep_of sweep
    rw [eK, ekr]
    simp [sweep_body, ek0, eK, ev, List.range_succ]
  · unfold sweep_of sweep
    rw [eK, ekr]
    simp [sweep_body, ek0, eK, ev, List.range_succ]
  · unfold P_free_of
    rw [elf, eh]
    have hlf : 0 ≤ lambda_free_of (exp_underflow Real.exp) M inp :=
      escrate_nonneg_of _ exp_underflow_props.1 _ _ eL
    rw [exp_underflow_props.2.2.2 _ (by linarith)]
    norm_num

theorem round_double_one_add_tiny : round_double ((((2 : ℝ) ^ 60)⁻¹) + 1) = 1 := by
  have h := round_double_eq ((((2 : ℝ) ^ 60)⁻¹) + 1) 0 (2 ^ 52) (by norm_num) (by norm_num)
    (by norm_num) (by norm_num)
  rw [h]
  norm_num

theorem exp_neg_tiny_bounds :
    1 - ((2 : ℝ) ^ 60)⁻¹ ≤ Real.exp (-((2 : ℝ) ^ 60)⁻¹) ∧ Real.exp (-((2 : ℝ) ^ 60)⁻¹) < 1 := by
  constructor
  · have := Real.add_one_le_exp (-((2 : ℝ) ^ 60)⁻¹)
    linarith
  · rw [Real.exp_lt_one_iff]
    norm_num

theorem round_double_exp_neg_tiny : round_double (Real.exp (-((2 : ℝ) ^ 60)⁻¹)) = 1 := by
  obtain ⟨b1, b2⟩ := exp_neg_tiny_bounds
  have h := round_double_eq (Real.exp (-((2 : ℝ) ^ 60)⁻¹)) (-1) (2 ^ 53)
    (by norm_num; linarith) (by norm_num)
    (by
      rw [le_div_iff₀ (by positivity)]
      norm_num
      linarith)
    (by
      rw [div_lt_iff₀ (by positivity)]
      norm_num
      linarith)
  rw [h]
  norm_num

theorem bernoulli_test_cancels :
    round_double (1 - round_double (round_double ((((2 : ℝ) ^ 60)⁻¹) + 1)
      * round_double (Real.exp (-((2 : ℝ) ^ 60)⁻¹)))) = 0 := by
  rw [round_double_one_add_tiny, round_double_exp_neg_tiny, mul_one, round_double_one,
    sub_self, round_double_zero]

theorem exp_neg_one_bounds : (36 : ℝ) / 100 < Real.exp (-1) ∧ Real.exp (-1) < 37 / 100 := by
  have h1 := Real.exp_one_gt_d9
  have h2 := Real.exp_one_lt_d9
  have hpos := Real.exp_pos 1
  rw [Real.exp_neg]
  constructor
  · rw [lt_inv_comm₀ (by norm_num) hpos]
    norm_num at h2 ⊢
    linarith
  · rw [inv_lt_comm₀ hpos (by norm_num)]
    norm_num at h1 ⊢
    linarith

theorem poisson_test_passes :
    ((2 : ℝ) ^ 1022)⁻¹
      < round_double (1 - round_double (round_double ((1 : ℝ) + 1)
          * round_double (Real.exp (-1)))) := by
  obtain ⟨b1, b2⟩ := exp_neg_one_bounds
  have e2 : round_double ((1 : ℝ) + 1) = 2 := by
    have h := round_double_eq ((1 : ℝ) + 1) 1 (2 ^ 52) (by norm_num) (by norm_num)
      (by norm_num) (by norm_num)
    rw [h]
    norm_num
  have t55 : (2 : ℝ) ^ ((-2 : Int) - 53) ≤ 1 / 1000 := by
    rw [show ((-2 : Int) - 53) = -55 by norm_num, zpow_neg]
    norm_num
  have t54 : (2 : ℝ) ^ ((-1 : Int) - 53) ≤ 1 / 1000 := by
    rw [show ((-1 : Int) - 53) = -54 by norm_num, zpow_neg]
    norm_num
  obtain ⟨c1, c2⟩ := round_double_near (Real.exp (-1)) (-2) (1 / 1000)
    (by norm_num; linarith) (by norm_num; linarith) t55
  rw [e2]
  generalize round_double (Real.exp (-1)) = e at c1 c2 ⊢
  obtain ⟨d1, d2⟩ := round_double_near (2 * e) (-1) (1 / 1000) (by norm_num; linarith)
    (by norm_num; linarith) t54
  generalize round_double (2 * e) = p at d1 d2 ⊢
  obtain ⟨f1, f2⟩ := round_double_near (1 - p) (-2) (1 / 1000) (by norm_num; linarith)
    (by norm_num; linarith) t55
  have hsmall : ((2 : ℝ) ^ 1022)⁻¹ < 1 / 5 := by
    rw [inv_lt_comm₀ (by positivity) (by norm_num)]
    norm_num
  linarith

end RealLemmas

/-! ## The claims -/

section Claims

variable {α : Type} [LinearOrderedField α] [FloorRing α]

/-- C1: for validated parameters, from every state (in particular every
reachable one) and for every value the random source returns, the spike count
stored by one update step lies in `[0, N]`: in Binomial mode provided the
binomial deviate lies in `[0, N]`, in Poisson mode for an arbitrary deviate. -/
theorem update_step_n_spikes_range (exp : α → α) (M : Model α) (inp : Input α) (d : Draw α)
    (hv : Validated M.P) (hd : M.P.BinoRand = true → DrawOK M.P d) :
    0 ≤ (update_step exp M inp d).S.n_spikes
      ∧ (update_step exp M inp d).S.n_spikes ≤ M.P.N :=
  n_spikes_of_range exp M inp d hv hd

/-- Witness for C1: the first step of the three-slot instance (`N = 1`, Binomial
mode) after its first calibration at step size 1, with binomial deviate 1: the
expected count is 1/200, so the deviate is read, and the stored count is 1. -/
theorem update_step_n_spikes_range_witness :
    Validated (calibrated Real.exp 1 (steps_of 1)
        (Model.withParams (Parameters.threeSlot : Parameters ℝ))).P
      ∧ (update_step Real.exp
          (calibrated Real.exp 1 (steps_of 1)
            (Model.withParams (Parameters.threeSlot : Parameters ℝ)))
          Input.none (Draw.const 1)).S.n_spikes = 1
      ∧ 0 ≤ (update_step Real.exp
          (calibrated Real.exp 1 (steps_of 1)
            (Model.withParams (Parameters.threeSlot : Parameters ℝ)))
          Input.none (Draw.const 1)).S.n_spikes
      ∧ (update_step Real.exp
          (calibrated Real.exp 1 (steps_of 1)
            (Model.withParams (Parameters.threeSlot : Parameters ℝ)))
          Input.none (Draw.const 1)).S.n_spikes
        ≤ (calibrated Real.exp 1 (steps_of 1)
            (Model.withParams (Parameters.threeSlot : Parameters ℝ))).P.N :=
  ⟨(reachable_validated Real.exp 1 (steps_of 1) _ threeSlot_calibrated.1).1,
    threeSlot_first_step.1,
    update_step_n_spikes_range Real.exp _ Input.none (Draw.const 1)
      (reachable_validated Real.exp 1 (steps_of 1) _ threeSlot_calibrated.1).1
      (fun _ => by
        rw [DrawOK, threeSlot_calibrated.2.2.1.1]
        simp [Draw.const, Parameters.threeSlot, Parameters.defaults])⟩

/-- C2, amended: in every state reachable from the first calibration in which
the survivor mass does not exceed the population, `X + x ≤ N` with `X` the sum
of `m` over the history slots, the expected spike count computed by the next
step is non-negative. -/
theorem n_expect_nonneg_of_mass_le (h : ℝ) (ms_to_steps : ℝ → Int) (M : Model ℝ)
    (hr : Reachable Real.exp h ms_to_steps M) (inp : Input ℝ) (d : Draw ℝ)
    (hX : sum_m M.P M.V + M.V.x ≤ (M.P.N : ℝ)) :
    0 ≤ (update_step Real.exp M inp d).S.n_expect := by
  obtain ⟨hV, hh1, hh2⟩ := reachable_validated Real.exp h ms_to_steps M hr
  have hl : 0 ≤ M.P.lambda_0 := ((validated_iff M.P).mp hV).2.2.2.2.2.2.2.1
  exact n_expect_of_nonneg M inp hl (by rw [hh1]; exact hh2)
    (reachable_nonneg h ms_to_steps M hr) hX

/-- Witness for the amended C2: the first step after the first calibration of
the default node at `h = 0.1`, where the whole population sits in one slot. -/
theorem n_expect_nonneg_of_mass_le_witness :
    0 ≤ (update_step Real.exp
          (calibrated Real.exp (1 / 10) (steps_of (1 / 10)) (Model.fresh : Model ℝ))
          Input.none (Draw.const 37)).S.n_expect :=
  n_expect_nonneg_of_mass_le (1 / 10) (steps_of (1 / 10))
    (calibrated Real.exp (1 / 10) (steps_of (1 / 10)) (Model.fresh : Model ℝ))
    (Reachable.calibrated (Model.fresh : Model ℝ) _ validated_defaults (by norm_num) rfl
      (calibrate_ok_of_nonempty _ _ _ _
        (by simp [Model.fresh, Parameters.defaults])
        (by simp [Model.fresh, Parameters.defaults])))
    Input.none (Draw.const 37)
    (calibrate_first_mass (1 / 10) (steps_of (1 / 10)) (Model.fresh : Model ℝ) _
      validated_defaults rfl
      (calibrate_ok_of_nonempty _ _ _ _
        (by simp [Model.fresh, Parameters.defaults])
        (by simp [Model.fresh, Parameters.defaults]))).1

/-- C2 as stated fails: the three-slot instance (validated parameters, `h = 1`)
reaches, by two steps whose binomial deviate is 1 (= `N`), a state from which
the next step computes a negative expected spike count. -/
theorem n_expect_negative_reachable :
    Reachable Real.exp 1 (steps_of 1)
        (run Real.exp (calibrated Real.exp 1 (steps_of 1) (Model.withParams (Parameters.threeSlot : Parameters ℝ)))
          [(Input.none, Draw.const 1), (Input.none, Draw.const 1)])
      ∧ ¬ (0 ≤ (update_step Real.exp
          (run Real.exp (calibrated Real.exp 1 (steps_of 1) (Model.withParams (Parameters.threeSlot : Parameters ℝ)))
            [(Input.none, Draw.const 1), (Input.none, Draw.const 1)])
          Input.none (Draw.const 1)).S.n_expect) := by
  have hv : Validated (Model.withParams (Parameters.threeSlot : Parameters ℝ)).P := by
    rw [validated_iff]
    simp [Model.withParams, Parameters.threeSlot, Parameters.defaults]
  have hc := calibrate_ok_of_nonempty Real.exp 1 (steps_of 1)
    (Model.withParams (Parameters.threeSlot : Parameters ℝ))
    (by simp [Model.withParams, Parameters.threeSlot, Parameters.defaults])
    (by simp [Model.withParams, Parameters.threeSlot, Parameters.defaults])
  have hr := Reachable.calibrated _ _ hv (by norm_num) rfl hc
  generalize calibrated Real.exp 1 (steps_of 1) (Model.withParams (Parameters.threeSlot : Parameters ℝ)) = M0
    at hc hr ⊢
  obtain ⟨eP, eh, -, e22, -, -, em, ev, eu, elam, ex, ez, ek0, ekref, eS⟩ :=
    calibrate_first _ _ _ _ _ rfl hc
  obtain ⟨eth, ett, eQ, -, -⟩ := calibrate_first_kernel _ _ _ _ _ rfl hc
  have eP2 : M0.P = Parameters.threeSlot := by
    rw [eP]
    simp [Model.withParams, Parameters.threeSlot, Parameters.defaults]
  have eK : M0.P.len_kernel = 3 := by rw [eP2]; rfl
  have eN : M0.P.N = 1 := by rw [eP2]; rfl
  rw [eK, eN] at em
  rw [eK] at ev eu elam eth
  have hth : M0.V.theta = [0, 0, 0] := by
    rw [eth, eP2]
    simp [adaptation_kernel, Parameters.threeSlot, Parameters.defaults, List.range_succ]
  have htt : M0.V.theta_tld = [0, 0, 0] := by
    rw [ett, hth, eP2]
    simp [Parameters.threeSlot, Parameters.defaults]
  have hQ : M0.V.Q30K = [0] := by
    rw [eQ, eP2]
    simp [Parameters.threeSlot, Parameters.defaults, List.range_succ]
  have hF0 : Frame M0 := by
    refine ⟨eP2, ?_, ?_, ?_, eh, ?_, hth, htt, hQ, ?_, ex, ez⟩
    · rw [eS]; rfl
    · rw [eS]; rfl
    · rw [eS]; rfl
    · rw [ekref]
      simp [steps_of, Model.withParams, Parameters.threeSlot, truncToInt]
    · rw [e22]
      simp [Model.withParams, Parameters.threeSlot, Parameters.defaults]
  simp at em ev eu elam
  -- first step: the initial slot is swept for the first time
  have hs1 := threeSlot_sweep_first M0 hF0 ek0 em ev eu elam
  have hne1 : n_expect_of Real.exp M0 Input.none = 1 / 200 := by
    rw [frame_n_expect M0 hF0 _ _ _ em, hs1]
    norm_num
  have hd1 : n_spikes_of Real.exp M0 Input.none (Draw.const 1) = 1 :=
    frame_draw M0 hF0 _ (by rw [hne1]; norm_num) (by rw [hne1]; norm_num)
  obtain ⟨hF1, k1, m1, v1, u1, l1⟩ := frame_step M0 hF0 (Draw.const 1) 0 ek0
    (by rw [hs1]; simp) (by rw [hs1]; simp)
  rw [hs1, hd1] at m1
  rw [hs1] at v1 u1 l1
  have hR1 := Reachable.step M0 Input.none (Draw.const 1) hr
    (by rw [DrawOK, eN]; simp [Draw.const])
  simp only [run]
  generalize update_step Real.exp M0 Input.none (Draw.const 1) = M1 at hF1 k1 m1 v1 u1 l1 hR1 ⊢
  have k1' : M1.V.k0 = 1 := by rw [k1]; rfl
  have m1' : M1.V.m = [1, 0, 199 / 200] := by rw [m1]; simp
  have v1' : M1.V.v = [0, 0, 1 / 200] := by rw [v1]; simp
  have u1' : M1.V.u = [-10, 0, 0] := by rw [u1]; simp
  have l1' : M1.V.lambda = [0, 10, 10] := by rw [l1]; simp
  -- second step: the slot drawn in the first step is swept at a tiny rate
  obtain ⟨e, a, he0, he2, ha, hs2⟩ := threeSlot_sweep_second M1 hF1 k1' m1' v1' u1' l1'
  have ha0 : 0 < a := by rw [ha]; positivity
  have ha1 : a < 1 := by rw [ha]; linarith
  have hne2 : n_expect_of Real.exp M1 Input.none = a := by
    rw [frame_n_expect M1 hF1 _ _ _ m1', hs2]
    norm_num
  have hd2 : n_spikes_of Real.exp M1 Input.none (Draw.const 1) = 1 :=
    frame_draw M1 hF1 _ (by rw [hne2]; exact ha0) (by rw [hne2]; exact ha1)
  obtain ⟨hF2, k2, m2, v2, u2, l2⟩ := frame_step M1 hF1 (Draw.const 1) 1 k1'
    (by rw [hs2]; simp) (by rw [hs2]; simp)
  rw [hs2, hd2] at m2
  rw [hs2] at v2 u2 l2
  have hR2 := Reachable.step M1 Input.none (Draw.const 1) hR1
    (by rw [DrawOK, hF1.1]; simp [Draw.const, Parameters.threeSlot])
  generalize update_step Real.exp M1 Input.none (Draw.const 1) = M2 at hF2 k2 m2 v2 u2 l2 hR2 ⊢
  have k2' : M2.V.k0 = 2 := by rw [k2]; rfl
  have m2' : M2.V.m = [1 - a, 1, 19701 / 20000] := by rw [m2]; simp
  have v2' : M2.V.v = [a, 0, 29701 / 2000000] := by rw [v2]; simp
  have u2' : M2.V.u = [-10 * Real.exp (-1 / 20), -10, 0] := by rw [u2]; simp
  have l2' : M2.V.lambda = [e, 0, 10] := by rw [l2]; simp
  -- third step: the survivor mass exceeds the population
  refine ⟨hR2, ?_⟩
  rw [not_le]
  exact threeSlot_n_expect_third M2 hF2 k2' e a he0 he2 ha m2' v2' u2' l2'

/-- C4, amended: in every state reachable from the first calibration each
occupancy count lies in `[0, N]`, so the sum of the counts is at most the number
of slots times `N`, and the free count is non-negative; in the state produced
by the first calibration itself the counts plus the free count do not exceed
`N`. -/
theorem occupancy_counts_bounded (h : ℝ) (ms_to_steps : ℝ → Int) (M : Model ℝ)
    (hr : Reachable Real.exp h ms_to_steps M) :
    (∀ a ∈ M.V.n, 0 ≤ a ∧ a ≤ (M.P.N : ℝ))
      ∧ M.V.n.sum ≤ (M.V.n.length : ℝ) * (M.P.N : ℝ)
      ∧ 0 ≤ M.V.x
      ∧ (∀ M0 : Model ℝ, Validated M0.P → M0.S.initialized = false →
          calibrate Real.exp h ms_to_steps M0 = Except.ok M →
          M.V.n.sum + M.V.x ≤ (M.P.N : ℝ)) := by
  have hb := reachable_n_bounds Real.exp h ms_to_steps M hr
  refine ⟨hb, ?_, (reachable_nonneg h ms_to_steps M hr).2.2.2.1, ?_⟩
  · have := List.sum_le_card_nsmul M.V.n (M.P.N : ℝ) (fun a ha => (hb a ha).2)
    rwa [nsmul_eq_mul] at this
  · intro M0 hv hinit hc
    exact (calibrate_first_mass h ms_to_steps M0 M hv hinit hc).2

/-- Witness for the amended C4: the default node after its first calibration
at `h = 0.1` and one step with binomial deviate 37. -/
theorem occupancy_counts_bounded_witness :
    (∀ a ∈ (update_step Real.exp
          (calibrated Real.exp (1 / 10) (steps_of (1 / 10)) (Model.fresh : Model ℝ))
          Input.none (Draw.const 37)).V.n,
        0 ≤ a ∧ a ≤ ((update_step Real.exp
          (calibrated Real.exp (1 / 10) (steps_of (1 / 10)) (Model.fresh : Model ℝ))
          Input.none (Draw.const 37)).P.N : ℝ))
      ∧ (update_step Real.exp
          (calibrated Real.exp (1 / 10) (steps_of (1 / 10)) (Model.fresh : Model ℝ))
          Input.none (Draw.const 37)).V.n.sum
        ≤ ((update_step Real.exp
          (calibrated Real.exp (1 / 10) (steps_of (1 / 10)) (Model.fresh : Model ℝ))
          Input.none (Draw.const 37)).V.n.length : ℝ)
          * ((update_step Real.exp
          (calibrated Real.exp (1 / 10) (steps_of (1 / 10)) (Model.fresh : Model ℝ))
          Input.none (Draw.const 37)).P.N : ℝ)
      ∧ 0 ≤ (update_step Real.exp
          (calibrated Real.exp (1 / 10) (steps_of (1 / 10)) (Model.fresh : Model ℝ))
          Input.none (Draw.const 37)).V.x
      ∧ (∀ M0 : Model ℝ, Validated M0.P → M0.S.initialized = false →
          calibrate Real.exp (1 / 10) (steps_of (1 / 10)) M0
            = Except.ok (update_step Real.exp
              (calibrated Real.exp (1 / 10) (steps_of (1 / 10)) (Model.fresh : Model ℝ))
              Input.none (Draw.const 37)) →
          (update_step Real.exp
            (calibrated Real.exp (1 / 10) (steps_of (1 / 10)) (Model.fresh : Model ℝ))
            Input.none (Draw.const 37)).V.n.sum
          + (update_step Real.exp
            (calibrated Real.exp (1 / 10) (steps_of (1 / 10)) (Model.fresh : Model ℝ))
            Input.none (Draw.const 37)).V.x
          ≤ ((update_step Real.exp
            (calibrated Real.exp (1 / 10) (steps_of (1 / 10)) (Model.fresh : Model ℝ))
            Input.none (Draw.const 37)).P.N : ℝ)) :=
  occupancy_counts_bounded (1 / 10) (steps_of (1 / 10))
    (update_step Real.exp
      (calibrated Real.exp (1 / 10) (steps_of (1 / 10)) (Model.fresh : Model ℝ))
      Input.none (Draw.const 37))
    (Reachable.step _ Input.none (Draw.const 37)
      (Reachable.calibrated (Model.fresh : Model ℝ) _ validated_defaults (by norm_num) rfl
        (calibrate_ok_of_nonempty _ _ _ _
          (by simp [Model.fresh, Parameters.defaults])
          (by simp [Model.fresh, Parameters.defaults])))
      (by
        have hc := calibrate_ok_of_nonempty Real.exp (1 / 10) (steps_of (1 / 10))
          (Model.fresh : Model ℝ) (by simp [Model.fresh, Parameters.defaults])
          (by simp [Model.fresh, Parameters.defaults])
        have hf := calibrate_first Real.exp (1 / 10) (steps_of (1 / 10)) _ _ rfl hc
        rw [DrawOK, hf.1]
        simp [Model.fresh, Parameters.defaults, Draw.const]))

/-- C4 as stated fails: with one history slot (`len_kernel = 1`, `t_ref = 0`,
otherwise default parameters, `h = 0.1`) the first step after calibration, with
binomial deviate `N = 100`, reaches a state in which the occupancy counts plus
the free count exceed `N`. -/
theorem occupancy_sum_exceeds_N :
    Reachable Real.exp (1 / 10) (steps_of (1 / 10))
        (update_step Real.exp
          (calibrated Real.exp (1 / 10) (steps_of (1 / 10))
            (Model.withParams
              { (Parameters.defaults : Parameters ℝ) with len_kernel := 1, t_ref := 0 }))
          Input.none (Draw.const 100))
      ∧ ¬ ((update_step Real.exp
          (calibrated Real.exp (1 / 10) (steps_of (1 / 10))
            (Model.withParams
              { (Parameters.defaults : Parameters ℝ) with len_kernel := 1, t_ref := 0 }))
          Input.none (Draw.const 100)).V.n.sum
        + (update_step Real.exp
          (calibrated Real.exp (1 / 10) (steps_of (1 / 10))
            (Model.withParams
              { (Parameters.defaults : Parameters ℝ) with len_kernel := 1, t_ref := 0 }))
          Input.none (Draw.const 100)).V.x
        ≤ ((update_step Real.exp
          (calibrated Real.exp (1 / 10) (steps_of (1 / 10))
            (Model.withParams
              { (Parameters.defaults : Parameters ℝ) with len_kernel := 1, t_ref := 0 }))
          Input.none (Draw.const 100)).P.N : ℝ)) := by
  have hv : Validated (Model.withParams
      { (Parameters.defaults : Parameters ℝ) with len_kernel := 1, t_ref := 0 }).P := by
    rw [validated_iff]
    simp [Model.withParams, Parameters.defaults]
  have hc := calibrate_ok_of_nonempty Real.exp (1 / 10) (steps_of (1 / 10))
    (Model.withParams
      { (Parameters.defaults : Parameters ℝ) with len_kernel := 1, t_ref := 0 })
    (by simp [Model.withParams, Parameters.defaults])
    (by simp [Model.withParams, Parameters.defaults])
  have hr := Reachable.calibrated _ _ hv (by norm_num) rfl hc
  generalize calibrated Real.exp (1 / 10) (steps_of (1 / 10))
    (Model.withParams
      { (Parameters.defaults : Parameters ℝ) with len_kernel := 1, t_ref := 0 }) = M at hc hr ⊢
  obtain ⟨eP, eh, -, -, eLf, en, em, ev, eu, elam, ex, ez, ek0, ekref, -⟩ :=
    calibrate_first _ _ _ _ _ rfl hc
  have eP2 : M.P = { (Parameters.defaults : Parameters ℝ) with len_kernel := 1, t_ref := 0 } := by
    rw [eP]
    simp [Model.withParams, Parameters.defaults]
  have eK : M.P.len_kernel = 1 := by rw [eP2]
  have eN : M.P.N = 100 := by rw [eP2]; rfl
  have eB : M.P.BinoRand = true := by rw [eP2]; rfl
  have el0 : M.P.lambda_0 = 10 := by rw [eP2]; rfl
  rw [eK, eN] at en em
  rw [eK] at ev eu elam
  simp at en em ev eu elam
  have ekr : M.V.k_ref = 0 := by
    rw [ekref]
    simp [steps_of, Model.withParams, truncToInt]
  have hhpos : 0 < M.V.h := by rw [eh]; norm_num
  have hl0 : (0 : ℝ) < M.P.lambda_0 := by rw [el0]; norm_num
  obtain ⟨Pl, hPl0, hPl1, hm, hW, hY, hZ⟩ : ∃ Pl : ℝ, 0 < Pl ∧ Pl < 1
      ∧ (sweep_of Real.exp M Input.none).m = [(1 - Pl) * 100]
      ∧ (sweep_of Real.exp M Input.none).W = Pl * 100
      ∧ (sweep_of Real.exp M Input.none).Y = 0
      ∧ (sweep_of Real.exp M Input.none).Z = 0 := by
    refine ⟨P_lambda_of Real.exp M.V (escrate Real.exp M.P
      ((0 - M.P.E_L) * M.V.P22 + h_tot_of M.P M.S M.V Input.none
        - (M.V.theta.getD 0 0 + theta_hat_of M))) 0, ?_, ?_, ?_, ?_, ?_, ?_⟩
    · exact P_lambda_of_pos _ _ _ hhpos (mul_pos hl0 (Real.exp_pos _)) (le_refl _)
    · exact (P_lambda_of_bounds _ _ _ hhpos (escrate_nonneg _ _ hl0.le) (le_refl _)).2
    all_goals
      unfold sweep_of sweep
      rw [eK, ekr]
      simp [sweep_body, ek0, eK, em, ev, elam, eu, List.range_succ]
  have hne : n_expect_of Real.exp M Input.none = Pl * 100 := by
    unfold n_expect_of
    rw [hW, hY, hZ, ex, ez]
    simp [P_Lambda_of]
  have hns : n_spikes_of Real.exp M Input.none (Draw.const 100) = 100 := by
    unfold n_spikes_of
    rw [if_pos eB, hne]
    unfold draw_binomial
    rw [eN]
    have e1 : Pl * 100 / ((100 : Int) : ℝ) = Pl := by norm_num
    simp only [e1]
    rw [if_neg (not_le.mpr hPl1), if_neg (not_le.mpr hPl0)]
    rfl
  constructor
  · refine Reachable.step M _ _ hr ?_
    rw [DrawOK, eN]
    simp [Draw.const]
  · show ¬ ((M.V.n.set M.V.k0.toNat ((n_spikes_of Real.exp M Input.none (Draw.const 100) : Int) : ℝ)).sum
        + (M.V.x * (1 - P_free_of Real.exp M Input.none)
            + (sweep_of Real.exp M Input.none).m.getD M.V.k0.toNat 0) ≤ (M.P.N : ℝ))
    rw [hns, en, ek0, ex, hm, eN]
    simp
    linarith

/-- C5: with `E_L = 0`, `I_e = 0`, no stored input current, no synaptic
currents and no input (and `tau_syn_ex`, `tau_syn_in` different from `tau_m`),
each update step multiplies the membrane trace by `P22 = exp(-h/tau_m)`, and
after `t` steps `V_m = V_m(0) * exp(-t*h/tau_m)`, for every start value and
every sequence of draws. -/
theorem membrane_relaxation (h : ℝ) (ms_to_steps : ℝ → Int) (M : Model ℝ)
    (hr : Reachable Real.exp h ms_to_steps M) (hq : Quiet M)
    (_hex : M.P.tau_syn_ex ≠ M.P.tau_m) (_hin : M.P.tau_syn_in ≠ M.P.tau_m) :
    (∀ d : Draw ℝ,
        (update_step Real.exp M Input.none d).S.V_m = M.S.V_m * Real.exp (-h / M.P.tau_m))
      ∧ (∀ ds : List (Draw ℝ),
          (run Real.exp M (ds.map (fun d => (Input.none, d)))).S.V_m
            = M.S.V_m * Real.exp (-(ds.length : ℝ) * h / M.P.tau_m)) := by
  have hP := reachable_P22 Real.exp h ms_to_steps M hr
  constructor
  · intro d
    rw [(quiet_step Real.exp M d hq).1, hP]
  · intro ds
    rw [quiet_run Real.exp ds M hq, hP, ← Real.exp_nat_mul]
    congr 2
    ring

/-- Witness for C5: the default node (`E_L = 0`, `I_e = 0`, `tau_syn_ex = 3`,
`tau_syn_in = 6`, `tau_m = 20`) whose membrane potential was set to 10 mV,
after its first calibration at `h = 0.1`: one step gives
`V_m = 10 * exp(-0.1/20)`, and `t` steps give `10 * exp(-t*0.1/20)`. -/
theorem membrane_relaxation_witness :
    (calibrated Real.exp (1 / 10) (steps_of (1 / 10)) (Model.depolarized : Model ℝ)).S.V_m = 10
      ∧ (∀ d : Draw ℝ,
        (update_step Real.exp
            (calibrated Real.exp (1 / 10) (steps_of (1 / 10)) (Model.depolarized : Model ℝ))
            Input.none d).S.V_m
          = (calibrated Real.exp (1 / 10) (steps_of (1 / 10))
              (Model.depolarized : Model ℝ)).S.V_m
            * Real.exp (-(1 / 10) /
              (calibrated Real.exp (1 / 10) (steps_of (1 / 10))
                (Model.depolarized : Model ℝ)).P.tau_m))
      ∧ (∀ ds : List (Draw ℝ),
          (run Real.exp
              (calibrated Real.exp (1 / 10) (steps_of (1 / 10)) (Model.depolarized : Model ℝ))
              (ds.map (fun d => (Input.none, d)))).S.V_m
            = (calibrated Real.exp (1 / 10) (steps_of (1 / 10))
                (Model.depolarized : Model ℝ)).S.V_m
              * Real.exp (-(ds.length : ℝ) * (1 / 10) /
                (calibrated Real.exp (1 / 10) (steps_of (1 / 10))
                  (Model.depolarized : Model ℝ)).P.tau_m)) :=
  ⟨depolarized_calibrated.2.2.1,
    membrane_relaxation (1 / 10) (steps_of (1 / 10))
      (calibrated Real.exp (1 / 10) (steps_of (1 / 10)) (Model.depolarized : Model ℝ))
      depolarized_calibrated.1 depolarized_calibrated.2.1
      (by rw [depolarized_calibrated.2.2.2.2.1, depolarized_calibrated.2.2.2.1]; norm_num)
      (by rw [depolarized_calibrated.2.2.2.2.2, depolarized_calibrated.2.2.2.1]; norm_num)⟩

/-- C7 as stated fails at the instance named in the specification
(`tau_sfa = [300]`, `q_sfa = [0.5]`, `Delta_V = 2`, `t_ref = 4`, `tau_m = 20`,
`h = 0.1`, `len_kernel < 1`): the kernel at the auto-computed length is not
below `0.1 * Delta_V`. -/
theorem adaptation_kernel_at_history_size_not_below :
    (Parameters.defaults : Parameters ℝ).len_kernel < 1
      ∧ ¬ (adaptation_kernel Real.exp (Parameters.defaults : Parameters ℝ) (1 / 10)
            (get_history_size Real.exp (Parameters.defaults : Parameters ℝ) (1 / 10))
          < 1 / 10 * (Parameters.defaults : Parameters ℝ).Delta_V) := by
  refine ⟨by simp [Parameters.defaults], ?_⟩
  have hmin : truncToInt ((5 : ℝ) * (Parameters.defaults : Parameters ℝ).tau_m / (1 / 10))
      = 1000 := by
    have : (5 : ℝ) * (Parameters.defaults : Parameters ℝ).tau_m / (1 / 10)
        = ((1000 : Int) : ℝ) := by
      simp only [Parameters.defaults]
      norm_num
    rw [this, truncToInt_intCast]
  have hmax : truncToInt ((20000 : ℝ) / (1 / 10)) = 200000 := by
    have : (20000 : ℝ) / (1 / 10) = ((200000 : Int) : ℝ) := by norm_num
    rw [this, truncToInt_intCast]
  have hD : (Parameters.defaults : Parameters ℝ).Delta_V = 2 := rfl
  have htr : (Parameters.defaults : Parameters ℝ).t_ref = 4 := rfl
  -- the search cannot pass lag 1001, where the kernel is still above the threshold
  have h1001 : ¬ (adaptation_kernel Real.exp (Parameters.defaults : Parameters ℝ) (1 / 10)
      1001 / (Parameters.defaults : Parameters ℝ).Delta_V < 1 / 10) := by
    rw [adaptation_kernel_defaults, hD, not_lt]
    have he := Real.add_one_le_exp (-((1001 : Int) : ℝ) * (1 / 10) / 300)
    have hc : (-((1001 : Int) : ℝ) * (1 / 10) / 300) + 1 = 1999 / 3000 := by norm_num
    rw [hc] at he
    linarith
  have hK : (1001 : Int) ≤ get_history_size Real.exp (Parameters.defaults : Parameters ℝ)
      (1 / 10) := by
    by_contra hlt
    have := get_history_size_skipped Real.exp (Parameters.defaults : Parameters ℝ) (1 / 10)
      (by norm_num) 1001 (not_le.mp hlt) (by rw [hmax]; norm_num)
    exact h1001 this
  rcases get_history_size_stop Real.exp (Parameters.defaults : Parameters ℝ) (1 / 10)
    with hs | hs | hs
  · intro hlt
    apply hs
    rw [hD, div_lt_iff₀ (by norm_num)]
    rw [hD] at hlt
    linarith
  · rw [hmin] at hs
    omega
  · have h40 : truncToInt ((Parameters.defaults : Parameters ℝ).t_ref / (1 / 10)) = 40 := by
      have : (Parameters.defaults : Parameters ℝ).t_ref / (1 / 10) = ((40 : Int) : ℝ) := by
        rw [htr]
        norm_num
      rw [this, truncToInt_intCast]
    rw [h40] at hs
    omega

/-- C7, amended: beyond the auto-computed length `K` the kernel has decayed
below the threshold, `adaptation_kernel(j) < 0.1 * Delta_V` for every lag `j`
with `K < j ≤ floor(20000/h)`; at `K` itself the kernel is at least
`0.1 * Delta_V` unless the search stopped at `floor(5*tau_m/h)` or below, or `K`
is the refractory minimum `floor(t_ref/h) + 1`. -/
theorem adaptation_kernel_beyond_history_size (exp : α → α) (P : Parameters α) (h : α)
    (hh : 0 < h) (hv : Validated P) :
    (∀ j : Int, get_history_size exp P h < j → j ≤ Int.floor (20000 / h) →
        adaptation_kernel exp P h j < 1 / 10 * P.Delta_V)
      ∧ (1 / 10 * P.Delta_V ≤ adaptation_kernel exp P h (get_history_size exp P h)
          ∨ get_history_size exp P h ≤ Int.floor (5 * P.tau_m / h)
          ∨ get_history_size exp P h = Int.floor (P.t_ref / h) + 1) := by
  obtain ⟨-, -, htau, -, -, -, -, -, hD, htr⟩ := (validated_iff P).mp hv
  have e1 : truncToInt (20000 / h) = Int.floor (20000 / h) :=
    truncToInt_of_nonneg _ (div_nonneg (by norm_num) hh.le)
  have e2 : truncToInt (5 * P.tau_m / h) = Int.floor (5 * P.tau_m / h) :=
    truncToInt_of_nonneg _ (div_nonneg (mul_nonneg (by norm_num) htau.le) hh.le)
  have e3 : truncToInt (P.t_ref / h) = Int.floor (P.t_ref / h) :=
    truncToInt_of_nonneg _ (div_nonneg htr hh.le)
  constructor
  · intro j hj hjk
    have := get_history_size_skipped exp P h hh j hj (by rw [e1]; exact hjk)
    rwa [div_lt_iff₀ hD] at this
  · rcases get_history_size_stop exp P h with hs | hs | hs
    · left
      rw [div_lt_iff₀ hD, not_lt] at hs
      exact hs
    · right
      left
      rw [← e2]
      exact hs
    · right
      right
      rw [← e3]
      exact hs

/-- Witness for the amended C7 at the default parameters with `h = 0.1`. -/
theorem adaptation_kernel_beyond_history_size_witness :
    (∀ j : Int, get_history_size Real.exp (Parameters.defaults : Parameters ℝ) (1 / 10) < j →
        j ≤ Int.floor ((20000 : ℝ) / (1 / 10)) →
        adaptation_kernel Real.exp (Parameters.defaults : Parameters ℝ) (1 / 10) j
          < 1 / 10 * (Parameters.defaults : Parameters ℝ).Delta_V)
      ∧ (1 / 10 * (Parameters.defaults : Parameters ℝ).Delta_V
            ≤ adaptation_kernel Real.exp (Parameters.defaults : Parameters ℝ) (1 / 10)
                (get_history_size Real.exp (Parameters.defaults : Parameters ℝ) (1 / 10))
          ∨ get_history_size Real.exp (Parameters.defaults : Parameters ℝ) (1 / 10)
              ≤ Int.floor (5 * (Parameters.defaults : Parameters ℝ).tau_m / (1 / 10))
          ∨ get_history_size Real.exp (Parameters.defaults : Parameters ℝ) (1 / 10)
              = Int.floor ((Parameters.defaults : Parameters ℝ).t_ref / (1 / 10)) + 1) :=
  adaptation_kernel_beyond_history_size Real.exp (Parameters.defaults : Parameters ℝ) (1 / 10)
    (by norm_num) validated_defaults

/-- C8 as stated fails when `5 * tau_m` exceeds the 20000 ms start of the
search: for validated parameters with `tau_m = 5000` and `h = 1` the returned
length is below `floor(5 * tau_m / h)`. -/
theorem get_history_size_below_five_tau_m :
    Validated { (Parameters.defaults : Parameters ℝ) with tau_m := 5000 }
      ∧ ¬ (Int.floor ((5 : ℝ) * 5000 / 1)
            ≤ get_history_size Real.exp
                { (Parameters.defaults : Parameters ℝ) with tau_m := 5000 } 1) := by
  constructor
  · rw [validated_iff]
    simp [Parameters.defaults]
  · have hmin : truncToInt ((5 : ℝ) * 5000 / 1) = 25000 := by
      have : (5 : ℝ) * 5000 / 1 = ((25000 : Int) : ℝ) := by norm_num
      rw [this, truncToInt_intCast]
    have hfl : Int.floor ((5 : ℝ) * 5000 / 1) = 25000 := by
      have : (5 : ℝ) * 5000 / 1 = ((25000 : Int) : ℝ) := by norm_num
      rw [this, Int.floor_intCast]
    have hmax : truncToInt ((20000 : ℝ) / 1) = 20000 := by
      have : (20000 : ℝ) / 1 = ((20000 : Int) : ℝ) := by norm_num
      rw [this, truncToInt_intCast]
    have hK : get_history_size Real.exp
        { (Parameters.defaults : Parameters ℝ) with tau_m := 5000 } 1 = 20000 := by
      unfold get_history_size
      dsimp only
      rw [hmin, hmax, history_loop_of_le _ _ _ _ _ (by norm_num)]
      rw [if_neg]
      simp only [Parameters.defaults]
      norm_num
    rw [hfl, hK]
    norm_num

/-- C8, amended: the returned length is never below the smaller of
`floor(5 * tau_m / h)` and the start of the search `floor(20000 / h)`; so it is
at least `floor(5 * tau_m / h)` whenever that does not exceed `floor(20000 / h)`. -/
theorem get_history_size_ge_min (exp : α → α) (P : Parameters α) (h : α)
    (hh : 0 < h) (hv : Validated P) :
    min (Int.floor (5 * P.tau_m / h)) (Int.floor (20000 / h)) ≤ get_history_size exp P h := by
  obtain ⟨-, -, htau, -⟩ := (validated_iff P).mp hv
  have e1 : truncToInt (20000 / h) = Int.floor (20000 / h) :=
    truncToInt_of_nonneg _ (div_nonneg (by norm_num) hh.le)
  have e2 : truncToInt (5 * P.tau_m / h) = Int.floor (5 * P.tau_m / h) :=
    truncToInt_of_nonneg _ (div_nonneg (mul_nonneg (by norm_num) htau.le) hh.le)
  have h1 := history_loop_ge_min exp P h (truncToInt (5 * P.tau_m / h))
    (truncToInt (20000 / h))
  have h2 := get_history_size_ge_loop exp P h hh
  rw [e1, e2] at h1
  rw [e1, e2] at h2
  exact h1.trans h2

/-- Witness for the amended C8 at the default parameters with `h = 0.1`. -/
theorem get_history_size_ge_min_witness :
    min (Int.floor (5 * (Parameters.defaults : Parameters ℝ).tau_m / (1 / 10)))
        (Int.floor ((20000 : ℝ) / (1 / 10)))
      ≤ get_history_size Real.exp (Parameters.defaults : Parameters ℝ) (1 / 10) :=
  get_history_size_ge_min Real.exp (Parameters.defaults : Parameters ℝ) (1 / 10)
    (by norm_num) validated_defaults

/-- C9: `adaptation_kernel(k)` is the sum over `j` of
`q_sfa[j] * exp(-k*h / tau_sfa[j])` for arrays of equal length (it is a function
of the parameters, the step size and `k` alone); at lag 0 it is the sum of
`q_sfa` when `exp 0 = 1`, and it is 0 for empty arrays. -/
theorem adaptation_kernel_eq_spec (exp : α → α) (P : Parameters α) (h : α) (k : Int)
    (hlen : P.tau_sfa.length = P.q_sfa.length) :
    adaptation_kernel exp P h k = adaptation_kernel_spec exp P.q_sfa P.tau_sfa h k
      ∧ (exp 0 = 1 → adaptation_kernel exp P h 0 = P.q_sfa.sum)
      ∧ (P.tau_sfa = [] → adaptation_kernel exp P h k = 0) := by
  have key : ∀ k : Int,
      adaptation_kernel exp P h k = adaptation_kernel_spec exp P.q_sfa P.tau_sfa h k := by
    intro k
    rw [adaptation_kernel_eq_finset_sum]
    unfold adaptation_kernel_spec
    rw [← sum_range_getD_zipWith _ _ _ hlen]
    simp
  refine ⟨key k, ?_, ?_⟩
  · intro h0
    rw [key 0]
    unfold adaptation_kernel_spec
    have hz : ∀ (q tau : List α), tau.length = q.length →
        (List.zipWith (fun q tau => q * exp (-(((0 : Int) : α) * h) / tau)) q tau).sum
          = q.sum := by
      intro q
      induction q with
      | nil => intro tau _; simp
      | cons a q ih =>
        intro tau hl
        cases tau with
        | nil => simp at hl
        | cons b tau =>
          have hl2 : tau.length = q.length := by simpa using hl
          simp only [List.zipWith_cons_cons, List.sum_cons, ih tau hl2]
          simp [h0]
    exact hz _ _ hlen
  · intro he
    unfold adaptation_kernel
    rw [he]
    rfl

/-- Witness for C9: the default arrays `tau_sfa = [300]`, `q_sfa = [0.5]` with
the real exponential, `h = 0.1`, lag 7. -/
theorem adaptation_kernel_eq_spec_witness :
    adaptation_kernel Real.exp (Parameters.defaults : Parameters ℝ) (1 / 10) 7
        = adaptation_kernel_spec Real.exp [1 / 2] [300] (1 / 10) 7
      ∧ (Real.exp 0 = 1 →
          adaptation_kernel Real.exp (Parameters.defaults : Parameters ℝ) (1 / 10) 0
            = ([1 / 2] : List ℝ).sum)
      ∧ (([300] : List ℝ) = [] →
          adaptation_kernel Real.exp (Parameters.defaults : Parameters ℝ) (1 / 10) 7 = 0) :=
  adaptation_kernel_eq_spec Real.exp (Parameters.defaults : Parameters ℝ) (1 / 10) 7 rfl

/-- C10: `Parameters_::set` throws `BadProperty` if and only if, for the values
after applying the dictionary's entries, one of the ten rejection conditions
holds, and returns normally otherwise; `lambda_0 = 0`, `t_ref = 0` and two
empty adaptation arrays are accepted. -/
theorem Parameters_set_throws_iff (d : ParamDict α) (p : Parameters α) :
    ((∃ msg, (Parameters.set d p).2 = Except.error (Exception.BadProperty msg))
        ↔ Rejected (Parameters.set d p).1)
      ∧ ((Parameters.set d p).2 = Except.ok () ↔ ¬ Rejected (Parameters.set d p).1)
      ∧ (Parameters.set
          { (ParamDict.empty : ParamDict α) with
            lambda_0 := some 0, t_ref := some 0, tau_sfa := some [], q_sfa := some [] }
          Parameters.defaults).2 = Except.ok () := by
  have h2 : (Parameters.set d p).2 = (Parameters.set d p).1.check := rfl
  refine ⟨?_, ?_, ?_⟩
  · rw [h2, check_error_iff, rejected_iff]
  · rw [h2, rejected_iff, not_not]
  · have h3 : ∀ q : Parameters α, (Parameters.set
          { (ParamDict.empty : ParamDict α) with
            lambda_0 := some 0, t_ref := some 0, tau_sfa := some [], q_sfa := some [] }
          q).2 = (Parameters.set
          { (ParamDict.empty : ParamDict α) with
            lambda_0 := some 0, t_ref := some 0, tau_sfa := some [], q_sfa := some [] }
          q).1.check := fun _ => rfl
    rw [h3, check_ok_iff]
    simp [Parameters.set, updateValue, ParamDict.empty, Parameters.defaults]

/-- C11 as stated fails: a write of `C_m = -1` to the default parameters is
rejected with `BadProperty`, and the object the call was made on then holds
`c_m = -1` instead of its previous value 250. -/
theorem Parameters_set_rejected_mutates :
    Validated (Parameters.defaults : Parameters ℝ)
      ∧ (∃ msg, (Parameters.set
          { (ParamDict.empty : ParamDict ℝ) with c_m := some (-1) }
          (Parameters.defaults : Parameters ℝ)).2 = Except.error (Exception.BadProperty msg))
      ∧ ¬ ((Parameters.set
          { (ParamDict.empty : ParamDict ℝ) with c_m := some (-1) }
          (Parameters.defaults : Parameters ℝ)).1.c_m
            = (Parameters.defaults : Parameters ℝ).c_m) := by
  refine ⟨validated_defaults, ?_, ?_⟩
  · have h2 : (Parameters.set
        { (ParamDict.empty : ParamDict ℝ) with c_m := some (-1) }
        (Parameters.defaults : Parameters ℝ)).2
        = (Parameters.set
        { (ParamDict.empty : ParamDict ℝ) with c_m := some (-1) }
        (Parameters.defaults : Parameters ℝ)).1.check := rfl
    rw [h2, check_error_iff, check_ok_iff]
    simp [Parameters.set, updateValue, ParamDict.empty, Parameters.defaults]
  · simp [Parameters.set, updateValue, ParamDict.empty, Parameters.defaults]
    norm_num

/-- C11, amended: whenever `Parameters_::set` rejects a write, every field of
the object it was called on holds the dictionary's entry when the dictionary
has one and the value it had before the call otherwise; in particular the
fields without an entry are not changed. -/
theorem Parameters_set_rejected_fields (d : ParamDict α) (p : Parameters α)
    (_hrej : ∃ msg, (Parameters.set d p).2 = Except.error (Exception.BadProperty msg)) :
    (Parameters.set d p).1.N = d.N.getD p.N
      ∧ (Parameters.set d p).1.tau_m = d.tau_m.getD p.tau_m
      ∧ (Parameters.set d p).1.c_m = d.c_m.getD p.c_m
      ∧ (Parameters.set d p).1.t_ref = d.t_ref.getD p.t_ref
      ∧ (Parameters.set d p).1.lambda_0 = d.lambda_0.getD p.lambda_0
      ∧ (Parameters.set d p).1.Delta_V = d.Delta_V.getD p.Delta_V
      ∧ (Parameters.set d p).1.len_kernel = d.len_kernel.getD p.len_kernel
      ∧ (Parameters.set d p).1.I_e = d.I_e.getD p.I_e
      ∧ (Parameters.set d p).1.V_reset = d.V_reset.getD p.V_reset
      ∧ (Parameters.set d p).1.V_T_star = d.V_T_star.getD p.V_T_star
      ∧ (Parameters.set d p).1.E_L = d.E_L.getD p.E_L
      ∧ (Parameters.set d p).1.tau_syn_ex = d.tau_syn_ex.getD p.tau_syn_ex
      ∧ (Parameters.set d p).1.tau_syn_in = d.tau_syn_in.getD p.tau_syn_in
      ∧ (Parameters.set d p).1.BinoRand = d.BinoRand.getD p.BinoRand
      ∧ (Parameters.set d p).1.tau_sfa = d.tau_sfa.getD p.tau_sfa
      ∧ (Parameters.set d p).1.q_sfa = d.q_sfa.getD p.q_sfa :=
  ⟨updateValue_eq_getD _ _, updateValue_eq_getD _ _, updateValue_eq_getD _ _,
    updateValue_eq_getD _ _, updateValue_eq_getD _ _, updateValue_eq_getD _ _,
    updateValue_eq_getD _ _, updateValue_eq_getD _ _, updateValue_eq_getD _ _,
    updateValue_eq_getD _ _, updateValue_eq_getD _ _, updateValue_eq_getD _ _,
    updateValue_eq_getD _ _, updateValue_eq_getD _ _, updateValue_eq_getD _ _,
    updateValue_eq_getD _ _⟩

/-- Witness for the amended C11: the rejected write of `C_m = -1` to the
default parameters leaves `tau_m` as it was and stores the rejected `c_m`. -/
theorem Parameters_set_rejected_fields_witness :
    (Parameters.set { (ParamDict.empty : ParamDict ℝ) with c_m := some (-1) }
        (Parameters.defaults : Parameters ℝ)).1.tau_m
        = ({ (ParamDict.empty : ParamDict ℝ) with c_m := some (-1) } : ParamDict ℝ).tau_m.getD
            (Parameters.defaults : Parameters ℝ).tau_m
      ∧ (Parameters.set { (ParamDict.empty : ParamDict ℝ) with c_m := some (-1) }
        (Parameters.defaults : Parameters ℝ)).1.c_m
        = ({ (ParamDict.empty : ParamDict ℝ) with c_m := some (-1) } : ParamDict ℝ).c_m.getD
            (Parameters.defaults : Parameters ℝ).c_m :=
  have t := Parameters_set_rejected_fields
    { (ParamDict.empty : ParamDict ℝ) with c_m := some (-1) }
    (Parameters.defaults : Parameters ℝ)
    (by
      have h2 : (Parameters.set
          { (ParamDict.empty : ParamDict ℝ) with c_m := some (-1) }
          (Parameters.defaults : Parameters ℝ)).2
          = (Parameters.set
          { (ParamDict.empty : ParamDict ℝ) with c_m := some (-1) }
          (Parameters.defaults : Parameters ℝ)).1.check := rfl
      rw [h2, check_error_iff, check_ok_iff]
      simp [Parameters.set, updateValue, ParamDict.empty, Parameters.defaults])
  ⟨t.2.1, t.2.2.1⟩

/-- C12: `draw_poisson(n_expect)` returns `N` when `n_expect > N`; returns 0
when `n_expect` is not greater than `min_double` (the smallest positive normal
double), in particular for every `n_expect ≤ 0`; otherwise it returns
`clamp(d, 0, N)`, where `d` is the Poisson deviate if the value computed for
`1 - (n_expect + 1) * exp(-n_expect)` exceeds `min_double` and the Bernoulli
outcome `[u < n_expect]` for the uniform draw `u` if it does not.  The computed
value is the one of the code's arithmetic: every rounding `fl` of the three
arithmetic results and every `exp` are covered. -/
theorem draw_poisson_rounded_spec (fl : α → α) (exp : α → α) (P : Parameters α)
    (V : Variables α) (d : Draw α) (n_expect : α) (hN : 0 < P.N)
    (hmin : V.min_double = ((2 : α) ^ 1022)⁻¹) :
    ((P.N : α) < n_expect → draw_poisson_rounded fl exp P V d n_expect = P.N)
      ∧ (n_expect ≤ V.min_double → draw_poisson_rounded fl exp P V d n_expect = 0)
      ∧ (n_expect ≤ 0 → draw_poisson_rounded fl exp P V d n_expect = 0)
      ∧ (V.min_double < n_expect → n_expect ≤ (P.N : α) →
          V.min_double < fl (1 - fl (fl (n_expect + 1) * exp (-n_expect))) →
          draw_poisson_rounded fl exp P V d n_expect = max 0 (min d.poisson_ldev P.N))
      ∧ (V.min_double < n_expect → n_expect ≤ (P.N : α) →
          ¬ V.min_double < fl (1 - fl (fl (n_expect + 1) * exp (-n_expect))) →
          draw_poisson_rounded fl exp P V d n_expect
            = max 0 (min (if d.drand < n_expect then 1 else 0) P.N)) :=
  draw_poisson_rounded_cases fl exp P V d n_expect hN hmin

/-- Witness for C12: default parameters (`N = 100`), the calibrated `min_double`,
rounding to the nearest double, Poisson deviate 250 and uniform draw 0.  At
`n_expect = 1` the computed test value is about 0.26 and the clamped Poisson
deviate is returned; at `n_expect = 2^(-60)` both `n_expect + 1` and
`exp(-n_expect)` round to 1, the computed test value is 0 and the Bernoulli
outcome is returned. -/
theorem draw_poisson_rounded_spec_witness :
    draw_poisson_rounded round_double (fun x => round_double (Real.exp x))
        (Parameters.defaults : Parameters ℝ)
        { (Variables.blank : Variables ℝ) with min_double := ((2 : ℝ) ^ 1022)⁻¹ }
        (Draw.const 250) 1
      = max 0 (min (Draw.const 250 : Draw ℝ).poisson_ldev (Parameters.defaults : Parameters ℝ).N)
      ∧ draw_poisson_rounded round_double (fun x => round_double (Real.exp x))
        (Parameters.defaults : Parameters ℝ)
        { (Variables.blank : Variables ℝ) with min_double := ((2 : ℝ) ^ 1022)⁻¹ }
        (Draw.const 250) (((2 : ℝ) ^ 60)⁻¹)
      = max 0 (min (if (Draw.const 250 : Draw ℝ).drand < ((2 : ℝ) ^ 60)⁻¹ then 1 else 0)
          (Parameters.defaults : Parameters ℝ).N) :=
  ⟨(draw_poisson_rounded_spec round_double (fun x => round_double (Real.exp x))
      (Parameters.defaults : Parameters ℝ)
      { (Variables.blank : Variables ℝ) with min_double := ((2 : ℝ) ^ 1022)⁻¹ }
      (Draw.const 250) 1 (by simp [Parameters.defaults]) rfl).2.2.2.1
      (by
        show ((2 : ℝ) ^ 1022)⁻¹ < 1
        exact inv_lt_one_of_one_lt₀ (one_lt_pow₀ (by norm_num) (by norm_num)))
      (by simp [Parameters.defaults])
      poisson_test_passes,
    (draw_poisson_rounded_spec round_double (fun x => round_double (Real.exp x))
      (Parameters.defaults : Parameters ℝ)
      { (Variables.blank : Variables ℝ) with min_double := ((2 : ℝ) ^ 1022)⁻¹ }
      (Draw.const 250) (((2 : ℝ) ^ 60)⁻¹) (by simp [Parameters.defaults]) rfl).2.2.2.2
      (by
        show ((2 : ℝ) ^ 1022)⁻¹ < ((2 : ℝ) ^ 60)⁻¹
        rw [inv_lt_inv₀ (by positivity) (by positivity)]
        exact pow_lt_pow_right₀ (by norm_num) (by norm_num))
      (by
        show ((2 : ℝ) ^ 60)⁻¹ ≤ (((Parameters.defaults : Parameters ℝ).N : Int) : ℝ)
        have h1 : ((2 : ℝ) ^ 60)⁻¹ ≤ 1 :=
          inv_le_one_of_one_le₀ (one_le_pow₀ (by norm_num))
        have h2 : (((Parameters.defaults : Parameters ℝ).N : Int) : ℝ) = 100 := by
          simp [Parameters.defaults]
        rw [h2]
        linarith)
      (by
        show ¬ ((2 : ℝ) ^ 1022)⁻¹
          < round_double (1 - round_double (round_double (((2 : ℝ) ^ 60)⁻¹ + 1)
              * round_double (Real.exp (-((2 : ℝ) ^ 60)⁻¹))))
        rw [bernoulli_test_cancels]
        exact not_lt.mpr (by positivity))⟩

/-- C13: with `p = n_expect / N` and `N > 0`, `draw_binomial(n_expect)` returns
`N` when `p ≥ 1`, returns 0 when `p ≤ 0` (so for every negative `n_expect`), and
otherwise returns the binomial deviate; in the two degenerate cases the result
does not depend on what the random source would return. -/
theorem draw_binomial_spec (P : Parameters α) (n_expect : α) (hN : 0 < P.N) :
    (∀ d : Draw α, 1 ≤ n_expect / (P.N : α) → draw_binomial P d n_expect = P.N)
      ∧ (∀ d : Draw α, n_expect / (P.N : α) ≤ 0 → draw_binomial P d n_expect = 0)
      ∧ (∀ d : Draw α, n_expect < 0 → draw_binomial P d n_expect = 0)
      ∧ (∀ d : Draw α, 0 < n_expect / (P.N : α) → n_expect / (P.N : α) < 1 →
          draw_binomial P d n_expect = d.binomial_ldev)
      ∧ (∀ d d' : Draw α, 1 ≤ n_expect / (P.N : α) ∨ n_expect / (P.N : α) ≤ 0 →
          draw_binomial P d n_expect = draw_binomial P d' n_expect) :=
  draw_binomial_cases P n_expect hN

/-- Witness for C13: default parameters (`N = 100`) and `n_expect = 37`. -/
theorem draw_binomial_spec_witness :
    (∀ d : Draw ℝ, (1 : ℝ) ≤ 37 / (((Parameters.defaults : Parameters ℝ).N : Int) : ℝ) →
        draw_binomial (Parameters.defaults : Parameters ℝ) d 37
          = (Parameters.defaults : Parameters ℝ).N)
      ∧ (∀ d : Draw ℝ, (0 : ℝ) < 37 / (((Parameters.defaults : Parameters ℝ).N : Int) : ℝ) →
          (37 : ℝ) / (((Parameters.defaults : Parameters ℝ).N : Int) : ℝ) < 1 →
          draw_binomial (Parameters.defaults : Parameters ℝ) d 37 = d.binomial_ldev) :=
  have t := draw_binomial_spec (Parameters.defaults : Parameters ℝ) 37
    (by simp [Parameters.defaults])
  ⟨t.1, t.2.2.2.1⟩

/-- C14: one call of `update(origin, from, to)` runs the steps
`lag = from, ..., to - 1` in increasing order and sends, for each of them, one
event `(lag, n_spikes)` exactly when the count drawn in that step is positive
and none otherwise; so at most `to - from` events are sent, with strictly
increasing lags. -/
theorem update_events (exp : α → α) (inputs : Int → Input α) (draws : Int → Draw α)
    (from_lag to_lag : Int) (M : Model α) :
    (update exp inputs draws from_lag to_lag M).1
        = state_after exp inputs draws from_lag M (to_lag - from_lag).toNat
      ∧ (update exp inputs draws from_lag to_lag M).2
        = (List.range (to_lag - from_lag).toNat).filterMap
            (event_at exp inputs draws from_lag M)
      ∧ (∀ lag mult : Int, (lag, mult) ∈ (update exp inputs draws from_lag to_lag M).2 ↔
          ∃ i : Nat, i < (to_lag - from_lag).toNat ∧ lag = from_lag + (i : Int)
            ∧ mult = (state_after exp inputs draws from_lag M (i + 1)).S.n_spikes
            ∧ 0 < mult)
      ∧ (update exp inputs draws from_lag to_lag M).2.Pairwise (fun a b => a.1 < b.1)
      ∧ (update exp inputs draws from_lag to_lag M).2.length ≤ (to_lag - from_lag).toNat := by
  rw [update_eq]
  refine ⟨rfl, rfl, ?_, ?_, ?_⟩
  · intro lag mult
    simp only [List.mem_filterMap, List.mem_range]
    constructor
    · rintro ⟨i, hi, he⟩
      unfold event_at at he
      split_ifs at he with hc
      injection he with he
      injection he with h1 h2
      exact ⟨i, hi, h1.symm, h2.symm, by rw [← h2]; exact hc⟩
    · rintro ⟨i, hi, h1, h2, h3⟩
      refine ⟨i, hi, ?_⟩
      unfold event_at
      rw [h2] at h3
      rw [if_pos h3, h1, h2]
  · exact filterMap_range_pairwise _ from_lag
      (fun i e he => event_at_lag exp inputs draws from_lag M i e he) _
  · calc ((List.range (to_lag - from_lag).toNat).filterMap
          (event_at exp inputs draws from_lag M)).length
        ≤ (List.range (to_lag - from_lag).toNat).length := List.length_filterMap_le _ _
      _ = (to_lag - from_lag).toNat := List.length_range _

/-- C15: `calibrate` throws `BadProperty`, leaving the instance as it was,
whenever `tau_sfa` or `q_sfa` is empty; after every calibration that returns
normally both arrays are non-empty, and after a first calibration `g`, `Q30`
and `Q30K` each have length `len(tau_sfa) ≥ 1`. -/
theorem calibrate_requires_adaptation (exp : α → α) (h : α) (ms_to_steps : α → Int)
    (M : Model α) :
    (M.P.tau_sfa = [] ∨ M.P.q_sfa = [] →
        (∃ msg, calibrate exp h ms_to_steps M = Except.error (Exception.BadProperty msg))
          ∧ calibrated exp h ms_to_steps M = M)
      ∧ (∀ M1 : Model α, calibrate exp h ms_to_steps M = Except.ok M1 →
          M1.P.tau_sfa ≠ [] ∧ M1.P.q_sfa ≠ []
            ∧ (M.S.initialized = false →
                M1.V.g.length = M1.P.tau_sfa.length ∧ M1.V.Q30.length = M1.P.tau_sfa.length
                  ∧ M1.V.Q30K.length = M1.P.tau_sfa.length ∧ 1 ≤ M1.P.tau_sfa.length)) := by
  refine ⟨calibrate_throws exp h ms_to_steps M, ?_⟩
  intro M1 hc
  obtain ⟨n1, n2⟩ := calibrate_ok_nonempty exp h ms_to_steps M M1 hc
  have hP : M1.P.tau_sfa = M.P.tau_sfa ∧ M1.P.q_sfa = M.P.q_sfa := by
    cases hi : M.S.initialized with
    | true =>
      rw [calibrate_again exp h ms_to_steps M M1 hi hc]
      exact ⟨rfl, rfl⟩
    | false =>
      obtain ⟨e1, e2, -⟩ := calibrate_first_lengths exp h ms_to_steps M M1 hi hc
      exact ⟨e1, e2⟩
  refine ⟨by rw [hP.1]; exact n1, by rw [hP.2]; exact n2, ?_⟩
  intro hi
  obtain ⟨-, -, e3, e4, e5⟩ := calibrate_first_lengths exp h ms_to_steps M M1 hi hc
  refine ⟨e3, e4, e5, ?_⟩
  rw [hP.1]
  exact Nat.one_le_iff_ne_zero.mpr (fun hz => n1 (List.length_eq_zero.mp hz))

/-- C16: every call of `State_::set`, for every dictionary, leaves
`initialized = false`; the next `calibrate` then builds the internal variables
from scratch: its outcome does not depend on the previous internal variables,
and the history arrays, `x`, `z`, `k0` and the adaptation accumulators have
their start values. -/
theorem State_set_invalidates (exp : α → α) (h : α) (ms_to_steps : α → Int)
    (d : StateDict α) (M : Model α) :
    (State.set d M.S).initialized = false
      ∧ (∀ V1 : Variables α,
          calibrate exp h ms_to_steps { P := M.P, S := State.set d M.S, V := V1 }
            = calibrate exp h ms_to_steps { P := M.P, S := State.set d M.S, V := M.V })
      ∧ (∀ M1 : Model α,
          calibrate exp h ms_to_steps { P := M.P, S := State.set d M.S, V := M.V }
            = Except.ok M1 →
          M1.S.initialized = true
            ∧ M1.V.n = (List.replicate M1.P.len_kernel.toNat (0 : α)).set
                (M1.P.len_kernel - 1).toNat (M1.P.N : α)
            ∧ M1.V.m = (List.replicate M1.P.len_kernel.toNat (0 : α)).set
                (M1.P.len_kernel - 1).toNat (M1.P.N : α)
            ∧ M1.V.v = List.replicate M1.P.len_kernel.toNat 0
            ∧ M1.V.u = List.replicate M1.P.len_kernel.toNat 0
            ∧ M1.V.lambda = List.replicate M1.P.len_kernel.toNat 0
            ∧ M1.V.theta.length = M1.P.len_kernel.toNat
            ∧ M1.V.theta_tld.length = M1.P.len_kernel.toNat
            ∧ M1.V.x = 0 ∧ M1.V.z = 0 ∧ M1.V.lambda_free = 0 ∧ M1.V.k0 = 0
            ∧ M1.V.g = List.replicate M1.P.tau_sfa.length 0) := by
  refine ⟨rfl, ?_, ?_⟩
  · intro V1
    exact calibrate_first_indep exp h ms_to_steps M.P (State.set d M.S) V1 M.V rfl
  · intro M1 hc
    obtain ⟨-, -, -, -, e5, e6, e7, e8, e9, e10, e11, e12, e13, -, e15⟩ :=
      calibrate_first exp h ms_to_steps _ M1 rfl hc
    obtain ⟨k1, k2, -, -, k5⟩ := calibrate_first_kernel exp h ms_to_steps _ M1 rfl hc
    refine ⟨by rw [e15], e6, e7, e8, e9, e10, ?_, ?_, e11, e12, e5, e13, k5⟩
    · rw [k1]
      simp
    · rw [k2, k1]
      simp

/-- C17: when `initialized` is already true, a calibration that returns
normally leaves the parameters (with `len_kernel`), the state, `k_ref`, the
history arrays, `x`, `z`, `lambda_free`, `k0` and `g`, `Q30`, `Q30K` unchanged,
whatever the parameters are now; it sets `h`, `R`, `P22`, `P20`, `P11_ex`,
`P11_in` (and `min_double`, always to the same constant). -/
theorem calibrate_initialized_frame (exp : α → α) (h : α) (ms_to_steps : α → Int)
    (M M1 : Model α) (hinit : M.S.initialized = true)
    (hc : calibrate exp h ms_to_steps M = Except.ok M1) :
    M1.P = M.P ∧ M1.S = M.S ∧ M1.V.k_ref = M.V.k_ref
      ∧ M1.V.n = M.V.n ∧ M1.V.m = M.V.m ∧ M1.V.v = M.V.v ∧ M1.V.u = M.V.u
      ∧ M1.V.lambda = M.V.lambda ∧ M1.V.theta = M.V.theta ∧ M1.V.theta_tld = M.V.theta_tld
      ∧ M1.V.x = M.V.x ∧ M1.V.z = M.V.z ∧ M1.V.lambda_free = M.V.lambda_free
      ∧ M1.V.k0 = M.V.k0 ∧ M1.V.g = M.V.g ∧ M1.V.Q30 = M.V.Q30 ∧ M1.V.Q30K = M.V.Q30K
      ∧ M1.V.h = h ∧ M1.V.R = M.P.tau_m / M.P.c_m ∧ M1.V.P22 = exp (-h / M.P.tau_m)
      ∧ M1.V.P20 = M.P.tau_m / M.P.c_m * (1 - exp (-h / M.P.tau_m))
      ∧ M1.V.P11_ex = exp (-h / M.P.tau_syn_ex) ∧ M1.V.P11_in = exp (-h / M.P.tau_syn_in)
      ∧ M1.V.min_double = ((2 : α) ^ 1022)⁻¹ := by
  rw [calibrate_again exp h ms_to_steps M M1 hinit hc]
  exact ⟨rfl, rfl, rfl, rfl, rfl, rfl, rfl, rfl, rfl, rfl, rfl, rfl, rfl, rfl, rfl, rfl, rfl,
    rfl, rfl, rfl, rfl, rfl, rfl, rfl⟩

/-- Witness for C17: the default node calibrated at `h = 0.1` and then
calibrated again at `h = 0.2`. -/
theorem calibrate_initialized_frame_witness :
    (calibrated Real.exp (2 / 10) (steps_of (2 / 10))
        (calibrated Real.exp (1 / 10) (steps_of (1 / 10)) (Model.fresh : Model ℝ))).P
        = (calibrated Real.exp (1 / 10) (steps_of (1 / 10)) (Model.fresh : Model ℝ)).P
      ∧ (calibrated Real.exp (2 / 10) (steps_of (2 / 10))
        (calibrated Real.exp (1 / 10) (steps_of (1 / 10)) (Model.fresh : Model ℝ))).V.n
        = (calibrated Real.exp (1 / 10) (steps_of (1 / 10)) (Model.fresh : Model ℝ)).V.n
      ∧ (calibrated Real.exp (2 / 10) (steps_of (2 / 10))
        (calibrated Real.exp (1 / 10) (steps_of (1 / 10)) (Model.fresh : Model ℝ))).V.h
        = 2 / 10 :=
  have hc1 := calibrate_ok_of_nonempty Real.exp (1 / 10) (steps_of (1 / 10))
    (Model.fresh : Model ℝ) (by simp [Model.fresh, Parameters.defaults])
    (by simp [Model.fresh, Parameters.defaults])
  have hl := calibrate_first_lengths Real.exp (1 / 10) (steps_of (1 / 10)) _ _ rfl hc1
  have t := calibrate_initialized_frame Real.exp (2 / 10) (steps_of (2 / 10))
    (calibrated Real.exp (1 / 10) (steps_of (1 / 10)) (Model.fresh : Model ℝ))
    (calibrated Real.exp (2 / 10) (steps_of (2 / 10))
      (calibrated Real.exp (1 / 10) (steps_of (1 / 10)) (Model.fresh : Model ℝ)))
    (by rw [(calibrate_first Real.exp (1 / 10) (steps_of (1 / 10)) _ _ rfl
      hc1).2.2.2.2.2.2.2.2.2.2.2.2.2.2])
    (calibrate_ok_of_nonempty _ _ _ _
      (by rw [hl.1]; simp [Model.fresh, Parameters.defaults])
      (by rw [hl.2.1]; simp [Model.fresh, Parameters.defaults]))
  ⟨t.1, t.2.2.2.1, t.2.2.2.2.2.2.2.2.2.2.2.2.2.2.2.2.2.1⟩

/-- C18 as stated fails: the first calibration of the default node
(`len_kernel = -1`) at `h = 0.1` returns normally and changes the parameter
`len_kernel`. -/
theorem calibrate_changes_len_kernel :
    calibrate Real.exp (1 / 10) (steps_of (1 / 10)) (Model.fresh : Model ℝ)
        = Except.ok (calibrated Real.exp (1 / 10) (steps_of (1 / 10)) (Model.fresh : Model ℝ))
      ∧ ¬ ((calibrated Real.exp (1 / 10) (steps_of (1 / 10)) (Model.fresh : Model ℝ)).P.len_kernel
            = (Model.fresh : Model ℝ).P.len_kernel) := by
  have hc := calibrate_ok_of_nonempty Real.exp (1 / 10) (steps_of (1 / 10))
    (Model.fresh : Model ℝ) (by simp [Model.fresh, Parameters.defaults])
    (by simp [Model.fresh, Parameters.defaults])
  refine ⟨hc, ?_⟩
  have eP := (calibrate_first Real.exp (1 / 10) (steps_of (1 / 10)) _ _ rfl hc).1
  have hlt : (Model.fresh : Model ℝ).P.len_kernel < 1 := by
    simp [Model.fresh, Parameters.defaults]
  rw [if_pos hlt] at eP
  rw [eP]
  have hK := get_history_size_gt_t_ref Real.exp (Model.fresh : Model ℝ).P (1 / 10)
    (by norm_num) (by simp [Model.fresh, Parameters.defaults])
  have h4 : (Model.fresh : Model ℝ).P.t_ref = 4 := rfl
  have hm : (Model.fresh : Model ℝ).P.len_kernel = -1 := rfl
  rw [h4] at hK
  show ¬ (get_history_size Real.exp (Model.fresh : Model ℝ).P (1 / 10)
    = (Model.fresh : Model ℝ).P.len_kernel)
  rw [hm]
  intro hcon
  rw [hcon] at hK
  norm_num at hK

/-- C18, amended: `update` and each of its steps leave every parameter field
unchanged; `calibrate` leaves every parameter field other than `len_kernel`
unchanged, and replaces `len_kernel` by the automatically computed history
length exactly in a first calibration (`initialized = false`) with
`len_kernel < 1`. -/
theorem parameters_frame (exp : α → α) (h : α) (ms_to_steps : α → Int) (M : Model α) :
    (∀ (inputs : Int → Input α) (draws : Int → Draw α) (from_lag to_lag : Int),
        (update exp inputs draws from_lag to_lag M).1.P = M.P)
      ∧ (∀ (inp : Input α) (d : Draw α), (update_step exp M inp d).P = M.P)
      ∧ (∀ M1 : Model α, calibrate exp h ms_to_steps M = Except.ok M1 →
          M1.P = (if M.S.initialized = false ∧ M.P.len_kernel < 1 then
            { M.P with len_kernel := get_history_size exp M.P h } else M.P)) := by
  refine ⟨?_, fun _ _ => rfl, ?_⟩
  · intro inputs draws from_lag to_lag
    rw [update_eq]
    exact state_after_P exp inputs draws from_lag M _
  · intro M1 hc
    cases hi : M.S.initialized with
    | true =>
      rw [calibrate_again exp h ms_to_steps M M1 hi hc]
      simp
    | false =>
      rw [(calibrate_first exp h ms_to_steps M M1 hi hc).1]
      by_cases hk : M.P.len_kernel < 1
      · rw [if_pos hk, if_pos ⟨rfl, hk⟩]
      · rw [if_neg hk, if_neg (fun hcon => hk hcon.2)]

/-- C19 as stated fails: the parameter set with `tau_syn_ex = tau_m = 20` (all
else default) is accepted, and in the state reached by its first calibration
the divisor `tau_syn_ex - tau_m` of the membrane update is zero, so the drive
of the step is not defined for any input. -/
theorem accepted_parameters_zero_divisor :
    Validated { (Parameters.defaults : Parameters ℝ) with tau_syn_ex := 20 }
      ∧ Reachable Real.exp (1 / 10) (steps_of (1 / 10))
          (calibrated Real.exp (1 / 10) (steps_of (1 / 10))
            (Model.withParams { (Parameters.defaults : Parameters ℝ) with tau_syn_ex := 20 }))
      ∧ ¬ ((calibrated Real.exp (1 / 10) (steps_of (1 / 10))
            (Model.withParams
              { (Parameters.defaults : Parameters ℝ) with tau_syn_ex := 20 })).P.tau_syn_ex
          - (calibrated Real.exp (1 / 10) (steps_of (1 / 10))
            (Model.withParams
              { (Parameters.defaults : Parameters ℝ) with tau_syn_ex := 20 })).P.tau_m ≠ 0)
      ∧ ∀ inp : Input ℝ,
          h_tot_checked
            (calibrated Real.exp (1 / 10) (steps_of (1 / 10))
              (Model.withParams
                { (Parameters.defaults : Parameters ℝ) with tau_syn_ex := 20 })).P
            (calibrated Real.exp (1 / 10) (steps_of (1 / 10))
              (Model.withParams
                { (Parameters.defaults : Parameters ℝ) with tau_syn_ex := 20 })).S
            (calibrated Real.exp (1 / 10) (steps_of (1 / 10))
              (Model.withParams
                { (Parameters.defaults : Parameters ℝ) with tau_syn_ex := 20 })).V
            inp = none := by
  have hv : Validated (Model.withParams
      { (Parameters.defaults : Parameters ℝ) with tau_syn_ex := 20 }).P := by
    rw [validated_iff]
    simp [Model.withParams, Parameters.defaults]
  have hc := calibrate_ok_of_nonempty Real.exp (1 / 10) (steps_of (1 / 10))
    (Model.withParams { (Parameters.defaults : Parameters ℝ) with tau_syn_ex := 20 })
    (by simp [Model.withParams, Parameters.defaults])
    (by simp [Model.withParams, Parameters.defaults])
  have hr := Reachable.calibrated _ _ hv (by norm_num) rfl hc
  have eP := (calibrate_first Real.exp (1 / 10) (steps_of (1 / 10)) _ _ rfl hc).1
  have hz : (calibrated Real.exp (1 / 10) (steps_of (1 / 10))
        (Model.withParams
          { (Parameters.defaults : Parameters ℝ) with tau_syn_ex := 20 })).P.tau_syn_ex
      - (calibrated Real.exp (1 / 10) (steps_of (1 / 10))
        (Model.withParams
          { (Parameters.defaults : Parameters ℝ) with tau_syn_ex := 20 })).P.tau_m = 0 := by
    rw [eP]
    simp [Model.withParams, Parameters.defaults]
  refine ⟨hv, hr, fun hne => hne hz, ?_⟩
  intro inp
  exact h_tot_checked_ex_zero _ _ _ _ hz

/-- C19, amended: for every accepted parameter set with `tau_syn_ex ≠ tau_m`
and `tau_syn_in ≠ tau_m`, and a non-zero step size, both divisors of the
membrane update are non-zero and the drive of the step is computed without
any division by zero. -/
theorem membrane_update_defined (P : Parameters α) (S : State α) (V : Variables α)
    (inp : Input α) (hv : Validated P) (hh : V.h ≠ 0) (hex : P.tau_syn_ex ≠ P.tau_m)
    (hin : P.tau_syn_in ≠ P.tau_m) :
    P.tau_syn_ex - P.tau_m ≠ 0 ∧ P.tau_syn_in - P.tau_m ≠ 0
      ∧ h_tot_checked P S V inp = some (h_tot_of P S V inp) := by
  have hc : P.c_m ≠ 0 := ((validated_iff P).mp hv).2.1.ne'
  exact ⟨sub_ne_zero.mpr hex, sub_ne_zero.mpr hin,
    h_tot_checked_of_ne P S V inp hh hc (sub_ne_zero.mpr hex) (sub_ne_zero.mpr hin)⟩

/-- Witness for the amended C19: the default parameters (`tau_syn_ex = 3`,
`tau_syn_in = 6`, `tau_m = 20`) at step size 0.1. -/
theorem membrane_update_defined_witness :
    (Parameters.defaults : Parameters ℝ).tau_syn_ex - (Parameters.defaults : Parameters ℝ).tau_m
        ≠ 0
      ∧ (Parameters.defaults : Parameters ℝ).tau_syn_in
          - (Parameters.defaults : Parameters ℝ).tau_m ≠ 0
      ∧ h_tot_checked (Parameters.defaults : Parameters ℝ) (State.defaults 0)
          { (Variables.blank : Variables ℝ) with h := 1 / 10 } Input.none
        = some (h_tot_of (Parameters.defaults : Parameters ℝ) (State.defaults 0)
          { (Variables.blank : Variables ℝ) with h := 1 / 10 } Input.none) :=
  membrane_update_defined (Parameters.defaults : Parameters ℝ) (State.defaults 0)
    { (Variables.blank : Variables ℝ) with h := 1 / 10 } Input.none validated_defaults
    (by norm_num) (by simp [Parameters.defaults]) (by simp [Parameters.defaults])

/-- C20: in every update step `n_expect = W + P_free*x + P_Lambda*(N - X - x)`
with `P_Lambda = (Y + P_free*z)/(Z + z)` when `Z + z > 0` and 0 otherwise,
`P_free = 1 - exp(-0.5*(lambda_free_old + lambda_free_new)*h/1000)`, `x`, `z` the
free aggregates before the step, `X` the sum of `m` over all `K` slots before
the sweep, and `W`, `Y`, `Z` the sums accumulated by the `K - k_ref` iterations
of the sweep. -/
theorem n_expect_formula (exp : α → α) (M : Model α) (inp : Input α) (d : Draw α) :
    (update_step exp M inp d).S.n_expect
        = (sweep_of exp M inp).W
          + (1 - exp (-(1 / 2)
              * (M.V.lambda_free + (update_step exp M inp d).V.lambda_free) * M.V.h / 1000))
            * M.V.x
          + (if (sweep_of exp M inp).Z + M.V.z > 0 then
              ((sweep_of exp M inp).Y
                + (1 - exp (-(1 / 2)
                    * (M.V.lambda_free + (update_step exp M inp d).V.lambda_free)
                    * M.V.h / 1000)) * M.V.z)
              / ((sweep_of exp M inp).Z + M.V.z)
            else 0)
            * ((M.P.N : α) - (∑ l in Finset.range M.P.len_kernel.toNat, M.V.m.getD l 0)
                - M.V.x)
      ∧ (sweep_of exp M inp).W
        = ∑ l in Finset.range (M.P.len_kernel - M.V.k_ref).toNat,
            P_lambda_at exp M inp l * (sweep_upto exp M inp l).m.getD (slot_of M l) 0
      ∧ (sweep_of exp M inp).Y
        = ∑ l in Finset.range (M.P.len_kernel - M.V.k_ref).toNat,
            P_lambda_at exp M inp l * (sweep_upto exp M inp l).v.getD (slot_of M l) 0
      ∧ (sweep_of exp M inp).Z
        = ∑ l in Finset.range (M.P.len_kernel - M.V.k_ref).toNat,
            (sweep_upto exp M inp l).v.getD (slot_of M l) 0 := by
  refine ⟨?_, ?_⟩
  · rw [← sum_m_eq]
    rfl
  · rw [sweep_of_eq_upto]
    exact sweep_upto_sums exp M inp _

/-- C21: at the end of every update step from a state whose history arrays have
`K = len_kernel` entries and whose head `k0` lies in `[0, K)`, with `d` the count
drawn in the step: `n[k0] = m[k0] = d`, `v[k0] = 0`, `u[k0] = V_reset`,
`lambda[k0] = 0`; `z' = (1 - P_free)^2 * z + x*P_free + v_swept[k0]` and
`x' = x*(1 - P_free) + m_swept[k0]` with `v_swept`, `m_swept` the arrays after the
sweep and before the overwrite and `x`, `z` the values before the step; the
head becomes `(k0 + 1) mod K`; every entry of `n` at another slot is unchanged. -/
theorem update_step_head (exp : α → α) (M : Model α) (inp : Input α) (d : Draw α)
    (hs : Shape M) :
    (update_step exp M inp d).S.n_spikes = n_spikes_of exp M inp d
      ∧ (update_step exp M inp d).V.n.getD M.V.k0.toNat 0
          = ((update_step exp M inp d).S.n_spikes : α)
      ∧ (update_step exp M inp d).V.m.getD M.V.k0.toNat 0
          = ((update_step exp M inp d).S.n_spikes : α)
      ∧ (update_step exp M inp d).V.v.getD M.V.k0.toNat 0 = 0
      ∧ (update_step exp M inp d).V.u.getD M.V.k0.toNat 0 = M.P.V_reset
      ∧ (update_step exp M inp d).V.lambda.getD M.V.k0.toNat 0 = 0
      ∧ (update_step exp M inp d).V.z
          = (1 - P_free_of exp M inp) ^ 2 * M.V.z + M.V.x * P_free_of exp M inp
            + (sweep_of exp M inp).v.getD M.V.k0.toNat 0
      ∧ (update_step exp M inp d).V.x
          = M.V.x * (1 - P_free_of exp M inp) + (sweep_of exp M inp).m.getD M.V.k0.toNat 0
      ∧ (update_step exp M inp d).V.k0 = (M.V.k0 + 1) % M.P.len_kernel
      ∧ ∀ k : Nat, k ≠ M.V.k0.toNat →
          (update_step exp M inp d).V.n.getD k 0 = M.V.n.getD k 0 := by
  obtain ⟨h1, h2, h3, h4, h5, -, -, h8, h9⟩ := hs
  obtain ⟨s1, s2, s3, s4⟩ := sweep_of_lengths exp M inp
  have hk0 : M.V.k0.toNat < M.P.len_kernel.toNat := by omega
  refine ⟨rfl, ?_, ?_, ?_, ?_, ?_, ?_, rfl, ?_, ?_⟩
  · exact getD_set_self _ _ _ _ (by rw [h1]; exact hk0)
  · exact getD_set_self _ _ _ _ (by rw [s4, h2]; exact hk0)
  · exact getD_set_self _ _ _ _ (by rw [s3, h3]; exact hk0)
  · exact getD_set_self _ _ _ _ (by rw [s1, h4]; exact hk0)
  · exact getD_set_self _ _ _ _ (by rw [s2, h5]; exact hk0)
  · show (1 - P_free_of exp M inp) * (1 - P_free_of exp M inp) * M.V.z
        + M.V.x * P_free_of exp M inp + (sweep_of exp M inp).v.getD M.V.k0.toNat 0 = _
    rw [sq]
  · show Int.tmod (M.V.k0 + 1) M.P.len_kernel = _
    exact Int.tmod_eq_emod (by omega) (by omega)
  · intro k hk
    exact getD_set_of_ne _ _ _ _ _ (fun e => hk e.symm)

/-- Witness for C21: the first step of the three-slot instance after its first
calibration at step size 1 (head 0, drawn count 1). -/
theorem update_step_head_witness :
    Shape (calibrated Real.exp 1 (steps_of 1)
        (Model.withParams (Parameters.threeSlot : Parameters ℝ)))
      ∧ (Model.threeSlotStep Real.exp).V.n.getD
          (calibrated Real.exp 1 (steps_of 1)
            (Model.withParams (Parameters.threeSlot : Parameters ℝ))).V.k0.toNat 0
        = ((Model.threeSlotStep Real.exp).S.n_spikes : ℝ) :=
  ⟨threeSlot_calibrated.2.1,
    (update_step_head Real.exp _ Input.none (Draw.const 1) threeSlot_calibrated.2.1).2.1⟩

/-- C22 as stated fails: after the first step of the three-slot instance
(drawn count 1, advanced head 1) the slot `(k0 + 0) mod K` holds 0, not the
count drawn in that step; the drawn count is in the slot `(k0 + K - 1) mod K`. -/
theorem history_age_zero_not_recent :
    (Model.threeSlotStep Real.exp).S.n_spikes = 1
      ∧ (Model.threeSlotStep Real.exp).V.n.getD
          (Int.tmod ((Model.threeSlotStep Real.exp).V.k0 + 0)
            (Model.threeSlotStep Real.exp).P.len_kernel).toNat 0 = 0
      ∧ ¬ ((Model.threeSlotStep Real.exp).V.n.getD
          (Int.tmod ((Model.threeSlotStep Real.exp).V.k0 + 0)
            (Model.threeSlotStep Real.exp).P.len_kernel).toNat 0
          = (((Model.threeSlotStep Real.exp).S.n_spikes : Int) : ℝ))
      ∧ (Model.threeSlotStep Real.exp).V.n.getD
          (Int.tmod ((Model.threeSlotStep Real.exp).V.k0
              + ((Model.threeSlotStep Real.exp).P.len_kernel - 1))
            (Model.threeSlotStep Real.exp).P.len_kernel).toNat 0
          = (((Model.threeSlotStep Real.exp).S.n_spikes : Int) : ℝ) := by
  obtain ⟨e1, e2, e3, e4⟩ := threeSlot_first_step
  rw [e1, e2, e3, e4]
  have t1 : (Int.tmod (1 + 0) 3).toNat = 1 := by decide
  have t2 : (Int.tmod (1 + (3 - 1)) 3).toNat = 0 := by decide
  rw [t1, t2]
  norm_num

/-- C22, amended: along the steps of `update` from a state whose history
arrays have `K = len_kernel` entries and whose head lies in `[0, K)`, after
every step the slot `(k0 + (K - 1 - j)) mod K` (`k0` the advanced head,
`j < K`) holds the spike count drawn `j` steps before that step: logical age
`K - 1` is the most recent entry, the count drawn in that step, and smaller
ages hold older entries, age 0 the oldest. -/
theorem history_age_order (exp : α → α) (inputs : Int → Input α) (draws : Int → Draw α)
    (from_lag : Int) (M : Model α) (hs : Shape M) (i j : Nat)
    (hj : (j : Int) < M.P.len_kernel) :
    (state_after exp inputs draws from_lag M (i + 1 + j)).V.n.getD
        (Int.tmod ((state_after exp inputs draws from_lag M (i + 1 + j)).V.k0
          + (M.P.len_kernel - 1 - (j : Int))) M.P.len_kernel).toNat 0
      = ((state_after exp inputs draws from_lag M (i + 1)).S.n_spikes : α) :=
  state_after_n_age exp inputs draws from_lag M hs i j hj

/-- Witness for the amended C22: the three-slot instance after its first
calibration, two steps after a step (`j = 2 < K = 3`). -/
theorem history_age_order_witness :
    Shape (calibrated Real.exp 1 (steps_of 1)
        (Model.withParams (Parameters.threeSlot : Parameters ℝ)))
      ∧ ((2 : Nat) : Int) < (calibrated Real.exp 1 (steps_of 1)
        (Model.withParams (Parameters.threeSlot : Parameters ℝ))).P.len_kernel
      ∧ (state_after Real.exp (fun _ => Input.none) (fun _ => Draw.const 1) 0
          (calibrated Real.exp 1 (steps_of 1)
            (Model.withParams (Parameters.threeSlot : Parameters ℝ))) (0 + 1 + 2)).V.n.getD
        (Int.tmod ((state_after Real.exp (fun _ => Input.none) (fun _ => Draw.const 1) 0
          (calibrated Real.exp 1 (steps_of 1)
            (Model.withParams (Parameters.threeSlot : Parameters ℝ))) (0 + 1 + 2)).V.k0
          + ((calibrated Real.exp 1 (steps_of 1)
            (Model.withParams (Parameters.threeSlot : Parameters ℝ))).P.len_kernel - 1
              - ((2 : Nat) : Int)))
          (calibrated Real.exp 1 (steps_of 1)
            (Model.withParams (Parameters.threeSlot : Parameters ℝ))).P.len_kernel).toNat 0
      = ((state_after Real.exp (fun _ => Input.none) (fun _ => Draw.const 1) 0
          (calibrated Real.exp 1 (steps_of 1)
            (Model.withParams (Parameters.threeSlot : Parameters ℝ))) (0 + 1)).S.n_spikes : ℝ) :=
  ⟨threeSlot_calibrated.2.1,
    by rw [threeSlot_calibrated.2.2.1.1]; decide,
    history_age_order Real.exp (fun _ => Input.none) (fun _ => Draw.const 1) 0 _
      threeSlot_calibrated.2.1 0 2 (by rw [threeSlot_calibrated.2.2.1.1]; decide)⟩

/-- C23: what the code does at the failing input.  In the state reached by the
silent three-slot instance after two steps (head `k0 = 2`, `n = [0, 0, 100]`),
every further step records
`theta_hat = V_T_star + sum_j Q30K[j]*g[j] - n[0]*theta_tld[0]`, with the
occupancy of the fixed slot 0 (here 0), and this differs from the value
`V_T_star + sum_j Q30K[j]*g[j] - n[k0]*theta_tld[0]` with the occupancy at the
head (here 100). -/
theorem theta_hat_subtracts_slot_zero (inp : Input ℝ) (d : Draw ℝ) :
    Reachable Real.exp 1 (steps_of 1) (Model.silentThreeRun Real.exp)
      ∧ (Model.silentThreeRun Real.exp).V.k0 = 2
      ∧ (Model.silentThreeRun Real.exp).V.n.getD 0 0 = 0
      ∧ (Model.silentThreeRun Real.exp).V.n.getD
          (Model.silentThreeRun Real.exp).V.k0.toNat 0 = 100
      ∧ (update_step Real.exp (Model.silentThreeRun Real.exp) inp d).S.theta_hat
        = (Model.silentThreeRun Real.exp).P.V_T_star
          + ∑ j in Finset.range (Model.silentThreeRun Real.exp).P.tau_sfa.length,
              (Model.silentThreeRun Real.exp).V.Q30K.getD j 0
                * (update_step Real.exp (Model.silentThreeRun Real.exp) inp d).V.g.getD j 0
          - (Model.silentThreeRun Real.exp).V.n.getD 0 0
            * (Model.silentThreeRun Real.exp).V.theta_tld.getD 0 0
      ∧ (update_step Real.exp (Model.silentThreeRun Real.exp) inp d).S.theta_hat
        ≠ (Model.silentThreeRun Real.exp).P.V_T_star
          + ∑ j in Finset.range (Model.silentThreeRun Real.exp).P.tau_sfa.length,
              (Model.silentThreeRun Real.exp).V.Q30K.getD j 0
                * (update_step Real.exp (Model.silentThreeRun Real.exp) inp d).V.g.getD j 0
          - (Model.silentThreeRun Real.exp).V.n.getD
              (Model.silentThreeRun Real.exp).V.k0.toNat 0
            * (Model.silentThreeRun Real.exp).V.theta_tld.getD 0 0 := by
  obtain ⟨hr, hk, hn, ht⟩ := silentThree_run
  have hg := reachable_g_length Real.exp 1 (steps_of 1) _ hr
  have e := theta_hat_of_eq Real.exp (Model.silentThreeRun Real.exp) inp d hg
  have n0 : (Model.silentThreeRun Real.exp).V.n.getD 0 0 = 0 := by rw [hn]; rfl
  have n2 : (Model.silentThreeRun Real.exp).V.n.getD
      (Model.silentThreeRun Real.exp).V.k0.toNat 0 = 100 := by rw [hn, hk]; rfl
  refine ⟨hr, hk, n0, n2, e, ?_⟩
  rw [e, n0, n2]
  intro hcon
  have : (100 : ℝ) * (Model.silentThreeRun Real.exp).V.theta_tld.getD 0 0 = 0 := by
    linarith
  nlinarith

/-- C24 as stated fails: for the one-slot instance with `lambda_0 = 2*10^6`
(validated parameters, `h = 1`, stored rate 0) after its first calibration, the
first iteration of the sweep has `a = 1000`; the exponential of `-1000`
underflows to 0, so the transition probability is exactly 1, not below 1. -/
theorem sweep_slot_probability_reaches_one :
    Validated (calibrated (exp_underflow Real.exp) 1 (steps_of 1)
        (Model.withParams (Parameters.burst : Parameters ℝ))).P
      ∧ 0 < (calibrated (exp_underflow Real.exp) 1 (steps_of 1)
        (Model.withParams (Parameters.burst : Parameters ℝ))).V.h
      ∧ (∀ a ∈ (calibrated (exp_underflow Real.exp) 1 (steps_of 1)
        (Model.withParams (Parameters.burst : Parameters ℝ))).V.lambda, 0 ≤ a)
      ∧ P_lambda_at (exp_underflow Real.exp)
          (calibrated (exp_underflow Real.exp) 1 (steps_of 1)
            (Model.withParams (Parameters.burst : Parameters ℝ))) Input.none 0 = 1
      ∧ ¬ (P_lambda_at (exp_underflow Real.exp)
          (calibrated (exp_underflow Real.exp) 1 (steps_of 1)
            (Model.withParams (Parameters.burst : Parameters ℝ))) Input.none 0 < 1) := by
  have hb := burst_calibrated
  refine ⟨(reachableNonneg_validated _ _ _ _ hb.1).1, ?_, ?_, burst_first_sweep.1, ?_⟩
  · rw [hb.2.2.1]
    exact one_pos
  · rw [hb.2.2.2.2.2.2.2.2.2.1]
    simp
  · rw [burst_first_sweep.1]
    exact lt_irrefl _

/-- C24, amended: in iteration `l` of the sweep, with
`a = 0.5*(lambda_new + lambda_old)*h/1000`, the transition probability is
`P = a` when `a <= 0.01` and `P = 1 - exp(-a)` when `a > 0.01`; for validated
parameters, `h > 0`, non-negative stored rates and every exponential with
values `>= 0`, and `<= 1` on arguments `<= 0` (the exact one and the one of
double arithmetic), `0 <= P <= 1`; the slot is updated as
`v <- (1 - P)^2 * v + P*m` with the old `m`, then `m <- (1 - P)*m`. -/
theorem sweep_slot_probability (exp : α → α) (M : Model α) (inp : Input α) (l : Nat) :
    (1 / 2 * (lambda_tld_at exp M inp l
          + (sweep_upto exp M inp l).lambda.getD (slot_of M l) 0) * M.V.h / 1000 ≤ 1 / 100 →
        P_lambda_at exp M inp l
          = 1 / 2 * (lambda_tld_at exp M inp l
              + (sweep_upto exp M inp l).lambda.getD (slot_of M l) 0) * M.V.h / 1000)
      ∧ (1 / 2 * (lambda_tld_at exp M inp l
          + (sweep_upto exp M inp l).lambda.getD (slot_of M l) 0) * M.V.h / 1000 > 1 / 100 →
        P_lambda_at exp M inp l
          = 1 - exp (-(1 / 2 * (lambda_tld_at exp M inp l
              + (sweep_upto exp M inp l).lambda.getD (slot_of M l) 0) * M.V.h / 1000)))
      ∧ (Validated M.P → 0 < M.V.h → (∀ a ∈ M.V.lambda, 0 ≤ a) →
          (∀ x, 0 ≤ exp x) → (∀ x, x ≤ 0 → exp x ≤ 1) →
          0 ≤ P_lambda_at exp M inp l ∧ P_lambda_at exp M inp l ≤ 1)
      ∧ (sweep_upto exp M inp (l + 1)).v
        = (sweep_upto exp M inp l).v.set (slot_of M l)
            ((1 - P_lambda_at exp M inp l) ^ 2
                * (sweep_upto exp M inp l).v.getD (slot_of M l) 0
              + P_lambda_at exp M inp l
                * (sweep_upto exp M inp l).m.getD (slot_of M l) 0)
      ∧ (sweep_upto exp M inp (l + 1)).m
        = (sweep_upto exp M inp l).m.set (slot_of M l)
            ((1 - P_lambda_at exp M inp l)
              * (sweep_upto exp M inp l).m.getD (slot_of M l) 0) := by
  refine ⟨?_, ?_, ?_, ?_, (sweep_upto_slot exp M inp l).2.1⟩
  · intro ha
    rw [P_lambda_at_eq]
    unfold P_lambda_of
    dsimp only
    rw [if_neg (not_lt.mpr ha)]
  · intro ha
    rw [P_lambda_at_eq]
    unfold P_lambda_of
    dsimp only
    rw [if_pos ha]
  · intro hv hh hlam h0 h1
    rw [P_lambda_at_eq]
    have hl : 0 ≤ M.P.lambda_0 := ((validated_iff M.P).mp hv).2.2.2.2.2.2.2.1
    exact P_lambda_of_unit exp h0 h1 M.V _ _ hh (escrate_nonneg_of exp h0 M.P _ hl)
      (getD_of_forall (fun a => 0 ≤ a) _ _ 0
        (sweep_upto_lambda_nonneg_of exp h0 M inp l hl hlam) (le_refl _))
  · rw [(sweep_upto_slot exp M inp l).1, sq]

/-- Witness for the amended C24: the first iteration of the first sweep of the
three-slot instance after its calibration at step size 1 (stored rates all 0),
with the exact exponential. -/
theorem sweep_slot_probability_witness :
    0 ≤ P_lambda_at Real.exp (calibrated Real.exp 1 (steps_of 1)
          (Model.withParams (Parameters.threeSlot : Parameters ℝ))) Input.none 0
      ∧ P_lambda_at Real.exp (calibrated Real.exp 1 (steps_of 1)
          (Model.withParams (Parameters.threeSlot : Parameters ℝ))) Input.none 0 ≤ 1 :=
  (sweep_slot_probability Real.exp _ Input.none 0).2.2.1
    (reachable_validated Real.exp 1 (steps_of 1) _ threeSlot_calibrated.1).1
    (by rw [threeSlot_calibrated.2.2.1.2.2.2.2.1]; norm_num)
    (by rw [threeSlot_calibrated.2.2.2.2.2.2.2.2]; simp)
    (fun x => (Real.exp_pos x).le)
    (fun _ hx => Real.exp_le_one_iff.mpr hx)

/-- C25: in every step with `c_m > 0` the filtered currents follow
`I_syn_ex' = P11_ex*I_syn_ex + (1 - P11_ex)*tau_syn_ex*s_ex/h` and
`I_syn_in' = P11_in*I_syn_in + (1 - P11_in)*tau_syn_in*s_in/h`; in every state
reached from a calibration `P11_ex = exp(-h/tau_syn_ex)` and
`P11_in = exp(-h/tau_syn_in)`; with zero spike input each current is multiplied
by its decay constant, so the result is the same for any two instances that
agree on the current and the decay constant, whatever their `c_m`, `I_e` and
membrane state. -/
theorem I_syn_recursion (exp : α → α) (M : Model α) (inp : Input α) (d : Draw α)
    (hc : 0 < M.P.c_m) :
    (update_step exp M inp d).S.I_syn_ex
        = M.V.P11_ex * M.S.I_syn_ex
          + (1 - M.V.P11_ex) * M.P.tau_syn_ex * inp.ex_spikes / M.V.h
      ∧ (update_step exp M inp d).S.I_syn_in
        = M.V.P11_in * M.S.I_syn_in
          + (1 - M.V.P11_in) * M.P.tau_syn_in * inp.in_spikes / M.V.h
      ∧ (∀ (h : α) (ms_to_steps : α → Int), Reachable exp h ms_to_steps M →
          M.V.h = h ∧ M.V.P11_ex = exp (-h / M.P.tau_syn_ex)
            ∧ M.V.P11_in = exp (-h / M.P.tau_syn_in))
      ∧ (inp.ex_spikes = 0 →
          (update_step exp M inp d).S.I_syn_ex = M.V.P11_ex * M.S.I_syn_ex)
      ∧ (inp.in_spikes = 0 →
          (update_step exp M inp d).S.I_syn_in = M.V.P11_in * M.S.I_syn_in)
      ∧ (∀ (M2 : Model α) (inp2 : Input α) (d2 : Draw α), 0 < M2.P.c_m →
          inp.ex_spikes = 0 → inp2.ex_spikes = 0 → M2.V.P11_ex = M.V.P11_ex →
          M2.S.I_syn_ex = M.S.I_syn_ex →
          (update_step exp M2 inp2 d2).S.I_syn_ex = (update_step exp M inp d).S.I_syn_ex)
      ∧ (∀ (M2 : Model α) (inp2 : Input α) (d2 : Draw α), 0 < M2.P.c_m →
          inp.in_spikes = 0 → inp2.in_spikes = 0 → M2.V.P11_in = M.V.P11_in →
          M2.S.I_syn_in = M.S.I_syn_in →
          (update_step exp M2 inp2 d2).S.I_syn_in = (update_step exp M inp d).S.I_syn_in) := by
  have ex : ∀ (M : Model α) (inp : Input α) (d : Draw α), 0 < M.P.c_m →
      (update_step exp M inp d).S.I_syn_ex
        = M.V.P11_ex * M.S.I_syn_ex
          + (1 - M.V.P11_ex) * M.P.tau_syn_ex * inp.ex_spikes / M.V.h :=
    fun M inp d hc => I_syn_step M.P.c_m M.S.I_syn_ex inp.ex_spikes M.V.h M.P.tau_syn_ex
      M.V.P11_ex hc.ne'
  have inh : ∀ (M : Model α) (inp : Input α) (d : Draw α), 0 < M.P.c_m →
      (update_step exp M inp d).S.I_syn_in
        = M.V.P11_in * M.S.I_syn_in
          + (1 - M.V.P11_in) * M.P.tau_syn_in * inp.in_spikes / M.V.h :=
    fun M inp d hc => I_syn_step M.P.c_m M.S.I_syn_in inp.in_spikes M.V.h M.P.tau_syn_in
      M.V.P11_in hc.ne'
  refine ⟨ex M inp d hc, inh M inp d hc, ?_, ?_, ?_, ?_, ?_⟩
  · intro h ms hr
    exact ⟨(reachable_validated exp h ms M hr).2.1, reachable_P11 exp h ms M hr⟩
  · intro h0
    rw [ex M inp d hc, h0]
    simp
  · intro h0
    rw [inh M inp d hc, h0]
    simp
  · intro M2 inp2 d2 hc2 h0 h02 hP hI
    rw [ex M inp d hc, ex M2 inp2 d2 hc2, h0, h02, hP, hI]
    simp
  · intro M2 inp2 d2 hc2 h0 h02 hP hI
    rw [inh M inp d hc, inh M2 inp2 d2 hc2, h0, h02, hP, hI]
    simp

/-- Witness for C25: the default node after its first calibration at step size
0.1 (`c_m = 250`), in a step with excitatory spike input 1. -/
theorem I_syn_recursion_witness :
    0 < (calibrated Real.exp (1 / 10) (steps_of (1 / 10)) (Model.fresh : Model ℝ)).P.c_m
      ∧ (update_step Real.exp
            (calibrated Real.exp (1 / 10) (steps_of (1 / 10)) (Model.fresh : Model ℝ))
            { ex_spikes := 1, in_spikes := 0, currents := 0 } (Draw.const 0)).S.I_syn_ex
        = (calibrated Real.exp (1 / 10) (steps_of (1 / 10)) (Model.fresh : Model ℝ)).V.P11_ex
            * (calibrated Real.exp (1 / 10) (steps_of (1 / 10))
                (Model.fresh : Model ℝ)).S.I_syn_ex
          + (1 - (calibrated Real.exp (1 / 10) (steps_of (1 / 10))
                (Model.fresh : Model ℝ)).V.P11_ex)
            * (calibrated Real.exp (1 / 10) (steps_of (1 / 10))
                (Model.fresh : Model ℝ)).P.tau_syn_ex
            * 1
            / (calibrated Real.exp (1 / 10) (steps_of (1 / 10)) (Model.fresh : Model ℝ)).V.h :=
  have hc : 0 < (calibrated Real.exp (1 / 10) (steps_of (1 / 10))
      (Model.fresh : Model ℝ)).P.c_m :=
    ((validated_iff _).mp
      (calibrate_first_validated Real.exp (1 / 10) (steps_of (1 / 10)) (Model.fresh : Model ℝ) _
        rfl
        (calibrate_ok_of_nonempty _ _ _ _
          (by simp [Model.fresh, Parameters.defaults])
          (by simp [Model.fresh, Parameters.defaults]))
        validated_defaults).1).2.1
  ⟨hc, (I_syn_recursion Real.exp _ { ex_spikes := 1, in_spikes := 0, currents := 0 }
    (Draw.const 0) hc).1⟩

/-- C26: after a first calibration (`initialized = false`) that returns
normally, with validated parameters and `h > 0`: `len_kernel = K >= 1` (an
explicit value `>= 1` is kept, otherwise `K` is the automatically computed value,
which is `>= 1`); each of `n`, `m`, `v`, `u`, `lambda`, `theta`, `theta_tld` has
exactly `K` entries and `k0 = 0`; every later sequence of update steps keeps
`K`, these lengths and `0 <= k0 < K`, so with `k_ref >= 0` every subscript used
in a step (`k0`, `(k0 + l) % K` and `l` for `l < K - k_ref`, `l < K`, and 0) is
inside its array. -/
theorem calibrate_shape_kept (exp : α → α) (h : α) (ms_to_steps : α → Int)
    (M0 M : Model α) (hv : Validated M0.P) (hh : 0 < h) (hinit : M0.S.initialized = false)
    (hc : calibrate exp h ms_to_steps M0 = Except.ok M) :
    1 ≤ M.P.len_kernel
      ∧ (1 ≤ M0.P.len_kernel → M.P.len_kernel = M0.P.len_kernel)
      ∧ (M0.P.len_kernel < 1 → M.P.len_kernel = get_history_size exp M0.P h)
      ∧ 1 ≤ get_history_size exp M0.P h
      ∧ Shape M ∧ M.V.k0 = 0
      ∧ ((M.V.n.length : Int) = M.P.len_kernel ∧ (M.V.m.length : Int) = M.P.len_kernel
          ∧ (M.V.v.length : Int) = M.P.len_kernel ∧ (M.V.u.length : Int) = M.P.len_kernel
          ∧ (M.V.lambda.length : Int) = M.P.len_kernel
          ∧ (M.V.theta.length : Int) = M.P.len_kernel
          ∧ (M.V.theta_tld.length : Int) = M.P.len_kernel)
      ∧ ∀ steps : List (Input α × Draw α),
          (run exp M steps).P.len_kernel = M.P.len_kernel
            ∧ Shape (run exp M steps)
            ∧ (run exp M steps).V.n.length = M.V.n.length
            ∧ (run exp M steps).V.m.length = M.V.m.length
            ∧ (run exp M steps).V.v.length = M.V.v.length
            ∧ (run exp M steps).V.u.length = M.V.u.length
            ∧ (run exp M steps).V.lambda.length = M.V.lambda.length
            ∧ (run exp M steps).V.theta.length = M.V.theta.length
            ∧ (run exp M steps).V.theta_tld.length = M.V.theta_tld.length
            ∧ 0 ≤ (run exp M steps).V.k0
            ∧ (run exp M steps).V.k0 < M.P.len_kernel
            ∧ (0 ≤ M.V.k_ref → InBounds (run exp M steps)) := by
  obtain ⟨l1, l2, l3⟩ := calibrate_first_len_kernel exp h ms_to_steps M0 M hv hh hinit hc
  have hs := calibrate_first_shape exp h ms_to_steps M0 M hinit hc l1
  have ht : 0 ≤ M0.P.t_ref := ((validated_iff M0.P).mp hv).2.2.2.2.2.2.2.2.2
  obtain ⟨h1, h2, h3, h4, h5, h6, h7, h8, h9⟩ := hs
  refine ⟨l1, l2, l3, get_history_size_pos exp M0.P h hh ht,
    ⟨h1, h2, h3, h4, h5, h6, h7, h8, h9⟩,
    (calibrate_first exp h ms_to_steps M0 M hinit hc).2.2.2.2.2.2.2.2.2.2.2.2.1, ?_, ?_⟩
  · refine ⟨?_, ?_, ?_, ?_, ?_, ?_, ?_⟩ <;> omega
  · intro steps
    obtain ⟨r1, r2, r3⟩ := shape_run exp steps M ⟨h1, h2, h3, h4, h5, h6, h7, h8, h9⟩
    obtain ⟨g1, g2, g3, g4, g5, g6, g7, g8, g9⟩ := r1
    rw [r2] at g1 g2 g3 g4 g5 g6 g7 g9
    refine ⟨by rw [r2], ⟨by rw [r2]; exact g1, by rw [r2]; exact g2, by rw [r2]; exact g3,
      by rw [r2]; exact g4, by rw [r2]; exact g5, by rw [r2]; exact g6,
      by rw [r2]; exact g7, g8, by rw [r2]; exact g9⟩, by rw [g1, h1], by rw [g2, h2],
      by rw [g3, h3], by rw [g4, h4], by rw [g5, h5], by rw [g6, h6], by rw [g7, h7],
      g8, g9, ?_⟩
    intro hk
    apply inBounds_of_shape
    · exact ⟨by rw [r2]; exact g1, by rw [r2]; exact g2, by rw [r2]; exact g3,
        by rw [r2]; exact g4, by rw [r2]; exact g5, by rw [r2]; exact g6,
        by rw [r2]; exact g7, g8, by rw [r2]; exact g9⟩
    · rw [r3]
      exact hk

/-- Witness for C26: the default node (`len_kernel = -1`, chosen automatically)
calibrated at step size 0.1. -/
theorem calibrate_shape_kept_witness :
    Validated (Model.fresh : Model ℝ).P ∧ (0 : ℝ) < 1 / 10
      ∧ 1 ≤ (calibrated Real.exp (1 / 10) (steps_of (1 / 10))
          (Model.fresh : Model ℝ)).P.len_kernel
      ∧ Shape (calibrated Real.exp (1 / 10) (steps_of (1 / 10)) (Model.fresh : Model ℝ)) :=
  ⟨validated_defaults, by norm_num,
    (calibrate_shape_kept Real.exp (1 / 10) (steps_of (1 / 10)) (Model.fresh : Model ℝ) _
      validated_defaults (by norm_num) rfl
      (calibrate_ok_of_nonempty _ _ _ _
        (by simp [Model.fresh, Parameters.defaults])
        (by simp [Model.fresh, Parameters.defaults]))).1,
    (calibrate_shape_kept Real.exp (1 / 10) (steps_of (1 / 10)) (Model.fresh : Model ℝ) _
      validated_defaults (by norm_num) rfl
      (calibrate_ok_of_nonempty _ _ _ _
        (by simp [Model.fresh, Parameters.defaults])
        (by simp [Model.fresh, Parameters.defaults]))).2.2.2.2.1⟩

/-- C27: immediately after a first calibration (`initialized = false` before,
`K = len_kernel >= 1` after): `n[K-1] = m[K-1] = N` and `n[k] = m[k] = 0` for every
`k < K-1`; `v`, `u` and `lambda` are 0 in each of their `K` slots;
`x = z = lambda_free = 0`; for every `k < K`, `theta[k] = adaptation_kernel(K - k)`
and `theta_tld[k] = Delta_V*(1 - exp(-theta[k]/Delta_V))/N`; for every `j`,
`g[j] = 0`, `Q30[j] = exp(-h/tau_sfa[j])` and
`Q30K[j] = q_sfa[j]*tau_sfa[j]*exp(-h*K/tau_sfa[j])`; `initialized = true`; and
`sum_k m[k] + x = N`. -/
theorem calibrate_first_state (exp : α → α) (h : α) (ms_to_steps : α → Int)
    (M0 M : Model α) (hinit : M0.S.initialized = false)
    (hc : calibrate exp h ms_to_steps M0 = Except.ok M) (hK : 1 ≤ M.P.len_kernel) :
    M.V.n.length = M.P.len_kernel.toNat ∧ M.V.m.length = M.P.len_kernel.toNat
      ∧ M.V.n.getD (M.P.len_kernel - 1).toNat 0 = (M.P.N : α)
      ∧ M.V.m.getD (M.P.len_kernel - 1).toNat 0 = (M.P.N : α)
      ∧ (∀ k : Nat, (k : Int) < M.P.len_kernel - 1 →
          M.V.n.getD k 0 = 0 ∧ M.V.m.getD k 0 = 0)
      ∧ M.V.v = List.replicate M.P.len_kernel.toNat 0
      ∧ M.V.u = List.replicate M.P.len_kernel.toNat 0
      ∧ M.V.lambda = List.replicate M.P.len_kernel.toNat 0
      ∧ M.V.x = 0 ∧ M.V.z = 0 ∧ M.V.lambda_free = 0
      ∧ (∀ k : Nat, (k : Int) < M.P.len_kernel →
          M.V.theta.getD k 0 = adaptation_kernel exp M.P h (M.P.len_kernel - (k : Int))
            ∧ M.V.theta_tld.getD k 0
              = M.P.Delta_V * (1 - exp (-(M.V.theta.getD k 0) / M.P.Delta_V)) / (M.P.N : α))
      ∧ (∀ j : Nat, j < M.P.tau_sfa.length →
          M.V.g.getD j 0 = 0
            ∧ M.V.Q30.getD j 0 = exp (-h / M.P.tau_sfa.getD j 0)
            ∧ M.V.Q30K.getD j 0
              = M.P.q_sfa.getD j 0 * M.P.tau_sfa.getD j 0
                * exp (-h * (M.P.len_kernel : α) / M.P.tau_sfa.getD j 0))
      ∧ M.V.g.length = M.P.tau_sfa.length ∧ M.V.Q30.length = M.P.tau_sfa.length
      ∧ M.V.Q30K.length = M.P.tau_sfa.length
      ∧ M.S.initialized = true
      ∧ sum_m M.P M.V + M.V.x = (M.P.N : α)
      ∧ (∑ k in Finset.range M.P.len_kernel.toNat, M.V.m.getD k 0) + M.V.x = (M.P.N : α) := by
  obtain ⟨-, -, -, -, e5, -, -, e8, e9, e10, e11, e12, -, -, eS⟩ :=
    calibrate_first exp h ms_to_steps M0 M hinit hc
  obtain ⟨s1, s2, s3, s4⟩ := calibrate_first_slots exp h ms_to_steps M0 M hinit hc hK
  obtain ⟨k1, k2⟩ := calibrate_first_kernel_at exp h ms_to_steps M0 M hinit hc
  obtain ⟨-, -, g1, g2, g3⟩ := calibrate_first_lengths exp h ms_to_steps M0 M hinit hc
  obtain ⟨h1, h2, -⟩ := calibrate_first_shape exp h ms_to_steps M0 M hinit hc hK
  refine ⟨h1, h2, s1, s2, s3, e8, e9, e10, e11, e12, e5, k1, k2, g1, g2, g3, ?_, s4, ?_⟩
  · rw [eS]
  · rw [← sum_m_eq]
    exact s4

/-- Witness for C27: the three-slot instance (`K = 3`, `N = 1`) calibrated at
step size 1. -/
theorem calibrate_first_state_witness :
    (Model.withParams (Parameters.threeSlot : Parameters ℝ)).S.initialized = false
      ∧ 1 ≤ (calibrated Real.exp 1 (steps_of 1)
          (Model.withParams (Parameters.threeSlot : Parameters ℝ))).P.len_kernel
      ∧ sum_m (calibrated Real.exp 1 (steps_of 1)
            (Model.withParams (Parameters.threeSlot : Parameters ℝ))).P
          (calibrated Real.exp 1 (steps_of 1)
            (Model.withParams (Parameters.threeSlot : Parameters ℝ))).V
        + (calibrated Real.exp 1 (steps_of 1)
            (Model.withParams (Parameters.threeSlot : Parameters ℝ))).V.x
        = ((calibrated Real.exp 1 (steps_of 1)
            (Model.withParams (Parameters.threeSlot : Parameters ℝ))).P.N : ℝ) :=
  have hK : 1 ≤ (calibrated Real.exp 1 (steps_of 1)
      (Model.withParams (Parameters.threeSlot : Parameters ℝ))).P.len_kernel := by
    rw [threeSlot_calibrated.2.2.1.1]
    decide
  ⟨rfl, hK,
    (calibrate_first_state Real.exp 1 (steps_of 1)
      (Model.withParams (Parameters.threeSlot : Parameters ℝ)) _ rfl
      (calibrate_ok_of_nonempty _ _ _ _
        (by simp [Model.withParams, Parameters.threeSlot, Parameters.defaults])
        (by simp [Model.withParams, Parameters.threeSlot, Parameters.defaults]))
      hK).2.2.2.2.2.2.2.2.2.2.2.2.2.2.2.2.2.1⟩

/-- C28 as stated fails: the one-slot instance with `lambda_0 = 2*10^6`
(validated parameters, `h = 1`) is, after its first step (drawn count 1), in a
reachable state with `z = 1` and `lambda_free = 2*10^6`; in the next step, for
every input, the free transition probability is `1 - exp(-a)` with
`a >= 1000`, the exponential underflows to 0, and the blended transition
probability is exactly 1, not below 1. -/
theorem blended_probability_reaches_one :
    ReachableNonneg (exp_underflow Real.exp) 1 (steps_of 1)
        (Model.burstStep (exp_underflow Real.exp))
      ∧ Validated (Model.burstStep (exp_underflow Real.exp) : Model ℝ).P
      ∧ ∀ inp : Input ℝ,
          P_Lambda_of
              (sweep_of (exp_underflow Real.exp)
                (Model.burstStep (exp_underflow Real.exp)) inp).Y
              (sweep_of (exp_underflow Real.exp)
                (Model.burstStep (exp_underflow Real.exp)) inp).Z
              (Model.burstStep (exp_underflow Real.exp) : Model ℝ).V.z
              (P_free_of (exp_underflow Real.exp)
                (Model.burstStep (exp_underflow Real.exp)) inp)
            = 1
          ∧ ¬ (P_Lambda_of
              (sweep_of (exp_underflow Real.exp)
                (Model.burstStep (exp_underflow Real.exp)) inp).Y
              (sweep_of (exp_underflow Real.exp)
                (Model.burstStep (exp_underflow Real.exp)) inp).Z
              (Model.burstStep (exp_underflow Real.exp) : Model ℝ).V.z
              (P_free_of (exp_underflow Real.exp)
                (Model.burstStep (exp_underflow Real.exp)) inp)
            < 1) := by
  obtain ⟨hr, -, -, -, -, -, ez, -, -⟩ := burst_step
  refine ⟨hr, (reachableNonneg_validated _ _ _ _ hr).1, ?_⟩
  intro inp
  obtain ⟨hY, hZ, hP⟩ := burst_second_step inp
  have e : P_Lambda_of
      (sweep_of (exp_underflow Real.exp) (Model.burstStep (exp_underflow Real.exp)) inp).Y
      (sweep_of (exp_underflow Real.exp) (Model.burstStep (exp_underflow Real.exp)) inp).Z
      (Model.burstStep (exp_underflow Real.exp) : Model ℝ).V.z
      (P_free_of (exp_underflow Real.exp) (Model.burstStep (exp_underflow Real.exp)) inp)
      = 1 := by
    rw [hY, hZ, hP, ez]
    simp [P_Lambda_of]
  refine ⟨e, ?_⟩
  rw [e]
  exact lt_irrefl _

/-- C28, amended: for validated parameters and drawn spike counts `>= 0`, and
for every exponential with values `>= 0`, and `<= 1` on arguments `<= 0` (the
exact one and the one of double arithmetic), every state reachable from the
first calibration by update steps has `m[k] >= 0`, `v[k] >= 0` and
`lambda[k] >= 0` in every slot, `x >= 0`, `z >= 0` and `lambda_free >= 0`; hence
in the next step, for every input, the denominator `Z + z` of the blended
transition probability is not negative and `0 <= P_Lambda <= 1`. -/
theorem reachable_sign_invariants (exp : α → α) (h0 : ∀ x, 0 ≤ exp x)
    (h1 : ∀ x, x ≤ 0 → exp x ≤ 1) (h : α) (ms_to_steps : α → Int) (M : Model α)
    (hr : ReachableNonneg exp h ms_to_steps M) :
    NonNeg M.V
      ∧ (∀ k : Nat, 0 ≤ M.V.m.getD k 0 ∧ 0 ≤ M.V.v.getD k 0 ∧ 0 ≤ M.V.lambda.getD k 0)
      ∧ 0 ≤ M.V.x ∧ 0 ≤ M.V.z ∧ 0 ≤ M.V.lambda_free
      ∧ ∀ inp : Input α,
          0 ≤ (sweep_of exp M inp).Z + M.V.z
            ∧ 0 ≤ P_Lambda_of (sweep_of exp M inp).Y (sweep_of exp M inp).Z M.V.z
                (P_free_of exp M inp)
            ∧ P_Lambda_of (sweep_of exp M inp).Y (sweep_of exp M inp).Z M.V.z
                (P_free_of exp M inp) ≤ 1 := by
  have hn := reachableNonneg_nonneg_of exp h0 h1 h ms_to_steps M hr
  obtain ⟨hV, hh1, hh2⟩ := reachableNonneg_validated exp h ms_to_steps M hr
  have hl : 0 ≤ M.P.lambda_0 := ((validated_iff M.P).mp hV).2.2.2.2.2.2.2.1
  have hh : 0 < M.V.h := by rw [hh1]; exact hh2
  refine ⟨hn, ?_, hn.2.2.2.1, hn.2.2.2.2.1, hn.2.2.2.2.2, ?_⟩
  · intro k
    exact ⟨getD_of_forall (fun a => 0 ≤ a) _ k 0 hn.1 (le_refl _),
      getD_of_forall (fun a => 0 ≤ a) _ k 0 hn.2.1 (le_refl _),
      getD_of_forall (fun a => 0 ≤ a) _ k 0 hn.2.2.1 (le_refl _)⟩
  · intro inp
    exact P_Lambda_unit exp h0 h1 M inp hl hh hn

/-- Witness for the amended C28: the high-rate one-slot instance after its
first step, with the exponential that underflows to 0 (there `P_Lambda = 1`). -/
theorem reachable_sign_invariants_witness :
    ReachableNonneg (exp_underflow Real.exp) 1 (steps_of 1)
        (Model.burstStep (exp_underflow Real.exp))
      ∧ NonNeg (Model.burstStep (exp_underflow Real.exp) : Model ℝ).V :=
  ⟨burst_step.1,
    (reachable_sign_invariants (exp_underflow Real.exp) exp_underflow_props.1
      exp_underflow_props.2.1 1 (steps_of 1) _ burst_step.1).1⟩

/-- C29: in `rate_neuron_ipn::update_`, when `rectify_output` is true the
stored rate is `>= 0` after every processed step (after one step from any
state, and after any call that processes the lags `from, ..., to - 1`), for
every previous rate, noise sample, input and nonlinearity; when
`rectify_output` is false the step stores the unclipped value
`P1*rate_old + P2*mean + input_noise_factor*noise`, with `noise = std*random`,
plus the `P2`-scaled input terms of the summation mode in use. -/
theorem rate_neuron_ipn_stored_rate (nl : rate_neuron_ipn.Nonlinearities α)
    (P : rate_neuron_ipn.Parameters α) (V : rate_neuron_ipn.Variables α)
    (S : rate_neuron_ipn.State α) (B : rate_neuron_ipn.Buffers α) :
    (P.rectify_output = true → 0 ≤ (rate_neuron_ipn.update_step nl P V S B).rate)
      ∧ (P.rectify_output = true →
          ∀ (buffers : Int → rate_neuron_ipn.Buffers α) (from_lag to_lag : Int),
            from_lag < to_lag →
            0 ≤ (rate_neuron_ipn.update_ nl P V buffers from_lag to_lag S).1.rate)
      ∧ (rate_neuron_ipn.update_step nl P V S B).noise = P.std * B.random_number
      ∧ (P.rectify_output = false → P.linear_summation = true → P.mult_coupling = true →
          (rate_neuron_ipn.update_step nl P V S B).rate
            = V.P1 * S.rate + V.P2 * P.mean
              + V.input_noise_factor * (rate_neuron_ipn.update_step nl P V S B).noise
              + V.P2 * nl.mult_coupling_ex S.rate
                * nl.input (B.delayed_rates_ex + B.instant_rates_ex)
              + V.P2 * nl.mult_coupling_in S.rate
                * nl.input (B.delayed_rates_in + B.instant_rates_in))
      ∧ (P.rectify_output = false → P.linear_summation = true → P.mult_coupling = false →
          (rate_neuron_ipn.update_step nl P V S B).rate
            = V.P1 * S.rate + V.P2 * P.mean
              + V.input_noise_factor * (rate_neuron_ipn.update_step nl P V S B).noise
              + V.P2 * nl.input (B.delayed_rates_ex + B.instant_rates_ex
                  + B.delayed_rates_in + B.instant_rates_in))
      ∧ (P.rectify_output = false → P.linear_summation = false → P.mult_coupling = true →
          (rate_neuron_ipn.update_step nl P V S B).rate
            = V.P1 * S.rate + V.P2 * P.mean
              + V.input_noise_factor * (rate_neuron_ipn.update_step nl P V S B).noise
              + V.P2 * nl.mult_coupling_ex S.rate
                * (B.delayed_rates_ex + B.instant_rates_ex)
              + V.P2 * nl.mult_coupling_in S.rate
                * (B.delayed_rates_in + B.instant_rates_in))
      ∧ (P.rectify_output = false → P.linear_summation = false → P.mult_coupling = false →
          (rate_neuron_ipn.update_step nl P V S B).rate
            = V.P1 * S.rate + V.P2 * P.mean
              + V.input_noise_factor * (rate_neuron_ipn.update_step nl P V S B).noise
              + V.P2 * (B.delayed_rates_ex + B.instant_rates_ex)
              + V.P2 * (B.delayed_rates_in + B.instant_rates_in)) := by
  refine ⟨rate_step_rectified nl P V S B, ?_, rfl, ?_, ?_, ?_, ?_⟩
  · intro hr buffers from_lag to_lag hlt
    obtain ⟨S1, B1, e⟩ := rate_update_last nl P V buffers from_lag to_lag S hlt
    rw [e]
    exact rate_step_rectified nl P V S1 B1 hr
  · intro h1 h2 h3
    simp [rate_neuron_ipn.update_step, h1, h2, h3]
  · intro h1 h2 h3
    simp [rate_neuron_ipn.update_step, h1, h2, h3]
  · intro h1 h2 h3
    simp [rate_neuron_ipn.update_step, h1, h2, h3]
  · intro h1 h2 h3
    simp [rate_neuron_ipn.update_step, h1, h2, h3]

/-- Witness for C29: default parameters with `rectify_output` switched on, the
identity nonlinearity, propagators `P1 = 1`, `P2 = 1/10`, previous rate -1 and
inhibitory delayed input -5: the unclipped value is negative and the stored
rate is not. -/
theorem rate_neuron_ipn_stored_rate_witness :
    ({ (rate_neuron_ipn.Parameters.defaults : rate_neuron_ipn.Parameters ℚ) with
          rectify_output := true }).rectify_output = true
      ∧ 0 ≤ (rate_neuron_ipn.update_step
          ({ input := fun x => x, mult_coupling_ex := fun _ => 1, mult_coupling_in := fun _ => 1 } :
            rate_neuron_ipn.Nonlinearities ℚ)
          { (rate_neuron_ipn.Parameters.defaults : rate_neuron_ipn.Parameters ℚ) with
            rectify_output := true }
          { P1 := 1, P2 := 1 / 10, input_noise_factor := 1 / 3 }
          { rate := -1, noise := 0 }
          { random_number := 0, delayed_rates_ex := 0, delayed_rates_in := -5,
            instant_rates_ex := 0, instant_rates_in := 0 }).rate :=
  ⟨rfl,
    (rate_neuron_ipn_stored_rate
      ({ input := fun x => x, mult_coupling_ex := fun _ => 1, mult_coupling_in := fun _ => 1 } :
            rate_neuron_ipn.Nonlinearities ℚ)
      { (rate_neuron_ipn.Parameters.defaults : rate_neuron_ipn.Parameters ℚ) with
        rectify_output := true }
      { P1 := 1, P2 := 1 / 10, input_noise_factor := 1 / 3 }
      { rate := -1, noise := 0 }
      { random_number := 0, delayed_rates_ex := 0, delayed_rates_in := -5,
        instant_rates_ex := 0, instant_rates_in := 0 }).1 rfl⟩

end Claims

end GifPopPscExp
